import Mathlib

/-!
USRP protocol engine (linkbox/usrp.cpp, linkbox/usrp.h).

A shallow embedding of the USRP engine of thelinkbox and theorems about it.

Conventions of the embedding.

* Memory is modelled as lists of bytes (`Nat` below 256).  A buffer
  that the source declares as `short X[n]` is a list of `2 * n` bytes, a
  `char X[n]` is a list of `n` bytes.
* `uint32_t` values are `Nat` reduced modulo `2 ^ 32` wherever the source
  can overflow.  The `int` fields of `CUSRPAudio` never become negative
  (they start at 0, are only increased by non-negative amounts and only
  decreased after a `>=` test), so they are `Nat` too.
* `memcpy` that leaves the bounds of `AudioBuffer` and a failed `assert`
  have no defined result; the functions that can reach them return `Option`
  and give `none` there.
* The byte order of the host is a parameter `le` (`true` for a little-endian
  host): `htonl` swaps the four bytes when `le` and is the identity
  otherwise.
-/

namespace USRP

/-! ## Constants of usrp.h -/

def USRP_TYPE_VOICE : Nat := 0
def USRP_TYPE_DTMF : Nat := 1
def USRP_TYPE_TEXT : Nat := 2
def USRP_TYPE_PING : Nat := 3
def USRP_TYPE_TLV : Nat := 4
def USRP_TYPE_VOICE_ADPCM : Nat := 5
def USRP_TYPE_VOICE_ULAW : Nat := 6

def USRP_TLV_TAG_SET_INFO : Nat := 8

/-- Samples in one voice frame (20 ms at 8 kHz). -/
def USRP_VOICE_FRAME_SIZE : Nat := 160
/-- Frames the voice buffer holds (200 ms). -/
def USRP_VOICE_FRAMES_MAX : Nat := 10
/-- Samples the voice buffer holds: 160 * 10 = 1600. -/
def USRP_VOICE_BUFFER_FRAME_SIZE : Nat := USRP_VOICE_FRAME_SIZE * USRP_VOICE_FRAMES_MAX

/-- Size of a `short` in bytes. -/
def sizeofShort : Nat := 2

/-! ## Memory helpers -/

/-- Bytes `[off, off + n)` of a buffer: the source of a `memcpy`. -/
def memRead (buf : List Nat) (off n : Nat) : List Nat :=
  (buf.drop off).take n

/-- Buffer after `memcpy (buf + off, data, data.length)`. -/
def memWrite (buf : List Nat) (off : Nat) (data : List Nat) : List Nat :=
  buf.take off ++ data ++ buf.drop (off + data.length)

/-! ## CUSRPAudio: the voice ring buffer -/

/-- State of `struct CUSRPAudio`.  `AudioBuffer` is the byte image of
`short AudioBuffer[USRP_VOICE_BUFFER_FRAME_SIZE]` (3200 bytes); the two
offsets and `AudioFrames` count samples. -/
structure CUSRPAudio where
  IsKeyed : Bool
  SequenceNum : Nat
  AudioBuffer : List Nat
  AudioBufferWriteOff : Nat
  AudioBufferReadOff : Nat
  AudioFrames : Nat
deriving DecidableEq, Repr

/-- Freshly constructed `CUSRPAudio` (`new CUSRPAudio`): the default member
initialisers set everything but `AudioBuffer`, whose contents `mem` are
indeterminate. -/
def CUSRPAudio.init (mem : List Nat) : CUSRPAudio :=
  { IsKeyed := false, SequenceNum := 0, AudioBuffer := mem,
    AudioBufferWriteOff := 0, AudioBufferReadOff := 0, AudioFrames := 0 }

/-- Size of `AudioBuffer` in bytes. -/
def audioBufferBytes : Nat := USRP_VOICE_BUFFER_FRAME_SIZE * sizeofShort

/-- Method `CUSRPAudio::Read (FrameData, BytesSize)`.  Result: the new state, the
bytes copied to `FrameData` (`none` when nothing is copied) and the return
value.  `none` for a failed `assert` or a `memcpy` that reads outside
`AudioBuffer`. -/
def CUSRPAudio.Read (a : CUSRPAudio) (BytesSize : Nat) :
    Option (CUSRPAudio × Option (List Nat) × Nat) :=
  let READ_SIZE := USRP_VOICE_FRAME_SIZE * sizeofShort
  if BytesSize < READ_SIZE then none
  else
    let FRAMES_SIZE := BytesSize / sizeofShort
    if a.AudioFrames ≥ FRAMES_SIZE then
      if a.AudioBufferReadOff * sizeofShort + BytesSize ≤ audioBufferBytes then
        some ({ a with
                AudioBufferReadOff :=
                  (a.AudioBufferReadOff + FRAMES_SIZE) % USRP_VOICE_BUFFER_FRAME_SIZE,
                AudioFrames := a.AudioFrames - BytesSize / sizeofShort },
              some (memRead a.AudioBuffer (a.AudioBufferReadOff * sizeofShort) BytesSize),
              BytesSize)
      else none
    else some (a, none, 0)

/-- Method `CUSRPAudio::Write (FrameData, BytesSize)` with `BytesSize` the length
of `FrameData`.  Result: the new state and the return value.  `none` for a
`memcpy` that writes outside `AudioBuffer`. -/
def CUSRPAudio.Write (a : CUSRPAudio) (FrameData : List Nat) :
    Option (CUSRPAudio × Nat) :=
  let BytesSize := FrameData.length
  let FRAMES_SIZE := BytesSize / sizeofShort
  if a.AudioFrames < USRP_VOICE_BUFFER_FRAME_SIZE * sizeofShort then
    if a.AudioBufferWriteOff * sizeofShort + BytesSize ≤ audioBufferBytes then
      some ({ a with
              AudioBuffer :=
                memWrite a.AudioBuffer (a.AudioBufferWriteOff * sizeofShort) FrameData,
              AudioBufferWriteOff :=
                (a.AudioBufferWriteOff + FRAMES_SIZE) % USRP_VOICE_BUFFER_FRAME_SIZE,
              AudioFrames := a.AudioFrames + BytesSize / sizeofShort },
            BytesSize)
    else none
  else some (a, 0)

/-! ## Byte order and 32-bit loads and stores -/

/-- The host: its byte order, and the size of the `Callsign` buffer of
`struct USRPMetaData`. -/
structure Host where
  le : Bool
  CallsignSize : Nat
deriving DecidableEq, Repr

/-- The four bytes of a `uint32_t` in reverse order. -/
def bswap32 (x : Nat) : Nat :=
  (x % 256) * 16777216 + (x / 256 % 256) * 65536 + (x / 65536 % 256) * 256
    + (x / 16777216 % 256)

/-- Function `htonl`: host to network (big-endian) byte order. -/
def htonl (le : Bool) (x : Nat) : Nat :=
  if le then bswap32 (x % 4294967296) else x % 4294967296

/-- Function `ntohl`: network to host byte order, the same permutation as `htonl`. -/
def ntohl (le : Bool) (x : Nat) : Nat :=
  if le then bswap32 (x % 4294967296) else x % 4294967296

/-- Byte `i` of a buffer. -/
def byteAt (buf : List Nat) (i : Nat) : Nat :=
  buf.getD i 0

/-- A `uint32_t` read from `buf + off` in host byte order. -/
def load32 (le : Bool) (buf : List Nat) (off : Nat) : Nat :=
  if le then
    byteAt buf off + byteAt buf (off + 1) * 256 + byteAt buf (off + 2) * 65536
      + byteAt buf (off + 3) * 16777216
  else
    byteAt buf (off + 3) + byteAt buf (off + 2) * 256 + byteAt buf (off + 1) * 65536
      + byteAt buf off * 16777216

/-- The four bytes of a `uint32_t` in host byte order. -/
def store32 (le : Bool) (x : Nat) : List Nat :=
  if le then [x % 256, x / 256 % 256, x / 65536 % 256, x / 16777216 % 256]
  else [x / 16777216 % 256, x / 65536 % 256, x / 256 % 256, x % 256]

/-! ## USRPHeader -/

/-- The `struct USRPHeader` of usrp.h: `char Usrp[4]` and seven `uint32_t`.
The field `Type` is spelled `Type_`. -/
structure USRPHeader where
  Usrp : List Nat
  SequenceNum : Nat
  Memory : Nat
  Ptt : Nat
  Talkgroup : Nat
  Type_ : Nat
  Mpxid : Nat
  Reserved : Nat
deriving DecidableEq, Repr

/-- Size of a `USRPHeader` in bytes. -/
def sizeofUSRPHeader : Nat := 32

/-- The characters 'U' 'S' 'R' 'P'. -/
def magicUSRP : List Nat := [85, 83, 82, 80]

/-- The zero header `USRPHeader Header = {}`. -/
def USRPHeader.zero : USRPHeader :=
  { Usrp := [0, 0, 0, 0], SequenceNum := 0, Memory := 0, Ptt := 0, Talkgroup := 0,
    Type_ := 0, Mpxid := 0, Reserved := 0 }

/-- The header a buffer holds in its first 32 bytes
(`reinterpret_cast<USRPHeader *>(buf)`). -/
def USRPHeader.load (le : Bool) (buf : List Nat) : USRPHeader :=
  { Usrp := [byteAt buf 0, byteAt buf 1, byteAt buf 2, byteAt buf 3],
    SequenceNum := load32 le buf 4,
    Memory := load32 le buf 8,
    Ptt := load32 le buf 12,
    Talkgroup := load32 le buf 16,
    Type_ := load32 le buf 20,
    Mpxid := load32 le buf 24,
    Reserved := load32 le buf 28 }

/-- The 32 bytes of a header in memory. -/
def USRPHeader.store (le : Bool) (h : USRPHeader) : List Nat :=
  [h.Usrp.getD 0 0, h.Usrp.getD 1 0, h.Usrp.getD 2 0, h.Usrp.getD 3 0]
    ++ store32 le h.SequenceNum ++ store32 le h.Memory ++ store32 le h.Ptt
    ++ store32 le h.Talkgroup ++ store32 le h.Type_ ++ store32 le h.Mpxid
    ++ store32 le h.Reserved

/-- Function `CreateUSRPVoiceHeader (Ptt, Talkgroup, SequenceNum)`. -/
def CreateUSRPVoiceHeader (Ptt : Bool) (Talkgroup SequenceNum : Nat) : USRPHeader :=
  { Usrp := magicUSRP,
    SequenceNum := SequenceNum,
    Memory := 0,
    Ptt := if Ptt then 1 else 0,
    Talkgroup := Talkgroup,
    Type_ := USRP_TYPE_VOICE,
    Mpxid := 0,
    Reserved := 0 }

/-- Function `USRPHeaderToNetworkByteOrder (Header)`. -/
def USRPHeaderToNetworkByteOrder (le : Bool) (Header : USRPHeader) : USRPHeader :=
  { Header with SequenceNum := htonl le Header.SequenceNum, Ptt := htonl le Header.Ptt }

/-- Function `USRPHeaderToHostByteOrder (Header)`. -/
def USRPHeaderToHostByteOrder (le : Bool) (Header : USRPHeader) : USRPHeader :=
  { Header with SequenceNum := ntohl le Header.SequenceNum, Ptt := ntohl le Header.Ptt }

/-! ## USRPMetaData -/

/-!
The declaration of `struct USRPMetaData` is not in usrp.h.  Its layout is
taken from the wire table of the specification: `TLVTag` (u32), `TLVLength`
(u32), `Callsign` (a fixed text buffer, whose size is the parameter
`Host.CallsignSize`), `DmrID` (u32), `RepeaterID` (u32), `Talkgroup` (u32),
`Timeslot`, `ColorCode`.  The last two are taken as 32-bit fields; they lie
behind every byte that is sent or inspected.
-/

/-- Modelled from the spec: offset of `USRPMetaData::TLVTag`, the first
field of the struct, whose declaration is missing. -/
def offTLVTag : Nat := 0

/-- Modelled from the spec: offset of `USRPMetaData::TLVLength`, behind the
32-bit `TLVTag`. -/
def offTLVLength : Nat := 4

/-- Modelled from the spec: offset of `USRPMetaData::Callsign`, behind the
32-bit `TLVLength`. -/
def offCallsign : Nat := 8

/-- Modelled from the spec: offset of `USRPMetaData::DmrID`, behind the
`Callsign` buffer. -/
def offDmrID (P : Host) : Nat := 8 + P.CallsignSize

/-- Modelled from the spec: offset of `USRPMetaData::RepeaterID`, behind the
32-bit `DmrID`. -/
def offRepeaterID (P : Host) : Nat := 12 + P.CallsignSize

/-- Modelled from the spec: offset of `USRPMetaData::Talkgroup`, behind the
32-bit `RepeaterID`. -/
def offTalkgroup (P : Host) : Nat := 16 + P.CallsignSize

/-- Modelled from the spec: offset of `USRPMetaData::Timeslot`, behind the
32-bit `Talkgroup`. -/
def offTimeslot (P : Host) : Nat := 20 + P.CallsignSize

/-- Modelled from the spec: offset of `USRPMetaData::ColorCode`, behind
`Timeslot`. -/
def offColorCode (P : Host) : Nat := 24 + P.CallsignSize

/-- The string VK2GPU with its terminating NUL, as `strcpy` writes it. -/
def callsignVK2GPU : List Nat := [86, 75, 50, 71, 80, 85, 0]

/-- Length of the string VK2GPU, as `strlen` returns it. -/
def strlenVK2GPU : Nat := 6

/-! ## Transmit path: CUSRP::KeyTx and CUSRP::Write -/

/-- The send buffer `OutSendData` of `CUSRP::KeyTx` in the branch
`if (bKey)`, when it is handed to `sendto`: the TEXT header with the
sequence number `SequenceNum`, the SET_INFO metadata behind it, and the
header converted to network byte order in place. -/
def keyUpBuffer (P : Host) (OutSendData : List Nat) (SequenceNum : Nat) : List Nat :=
  let h : USRPHeader :=
    { Usrp := magicUSRP,
      SequenceNum := SequenceNum,
      Memory := 0,
      Ptt := 1,
      Talkgroup := 0,
      Type_ := USRP_TYPE_TEXT,
      Mpxid := 0,
      Reserved := 0 }
  let b0 := memWrite OutSendData 0 (USRPHeader.store P.le h)
  let m := sizeofUSRPHeader
  let b1 := memWrite b0 (m + offTLVTag) (store32 P.le USRP_TLV_TAG_SET_INFO)
  let b2 := memWrite b1 (m + offTLVLength) (store32 P.le (13 + strlenVK2GPU))
  let b3 := memWrite b2 (m + offCallsign) callsignVK2GPU
  let b4 := memWrite b3 (m + offDmrID P) (store32 P.le (htonl P.le 5052317 / 256))
  let b5 := memWrite b4 (m + offRepeaterID P) (store32 P.le 0)
  let b6 := memWrite b5 (m + offTalkgroup P) (store32 P.le 0)
  let b7 := memWrite b6 (m + offTimeslot P) (store32 P.le 0)
  let b8 := memWrite b7 (m + offColorCode P) (store32 P.le 0)
  memWrite b8 0
    (USRPHeader.store P.le (USRPHeaderToNetworkByteOrder P.le (USRPHeader.load P.le b8)))

/-- The send buffer `OutSendData` of `CUSRP::KeyTx` in the `else` branch,
when it is handed to `sendto`: the VOICE header with `Ptt = 0` and the
sequence number `SequenceNum`, converted to network byte order in place. -/
def keyDownBuffer (P : Host) (OutSendData : List Nat) (SequenceNum : Nat) : List Nat :=
  let h : USRPHeader :=
    { Usrp := magicUSRP,
      SequenceNum := SequenceNum,
      Memory := 0,
      Ptt := 0,
      Talkgroup := 0,
      Type_ := USRP_TYPE_VOICE,
      Mpxid := 0,
      Reserved := 0 }
  let b0 := memWrite OutSendData 0 (USRPHeader.store P.le h)
  memWrite b0 0
    (USRPHeader.store P.le (USRPHeaderToNetworkByteOrder P.le (USRPHeader.load P.le b0)))

/-- Method `CUSRP::KeyTx (bKey)` on the `OutAudio` state `a`.  `OutSendData` is the
indeterminate initial content of the local 1024-byte send buffer.  Result:
the new state and the datagrams handed to `sendto`, oldest first.  The
comparison `IsKeyed != bKey` promotes the `bool` to the `int` 0 or 1; the
assignment `IsKeyed = bKey` and the test `if (bKey)` read `bKey` as a truth
value. -/
def CUSRP.KeyTx (P : Host) (OutSendData : List Nat) (a : CUSRPAudio) (bKey : Int) :
    CUSRPAudio × List (List Nat) :=
  if (if a.IsKeyed then (1 : Int) else 0) ≠ bKey then
    let a1 := { a with IsKeyed := decide (bKey ≠ 0) }
    if bKey ≠ 0 then
      let b := keyUpBuffer P OutSendData a1.SequenceNum
      let a2 := { a1 with SequenceNum := (a1.SequenceNum + 1) % 4294967296 }
      (a2, [b.take (sizeofUSRPHeader + load32 P.le b (sizeofUSRPHeader + offTLVLength))])
    else
      let b := keyDownBuffer P OutSendData a1.SequenceNum
      let a2 := { a1 with SequenceNum := (a1.SequenceNum + 1) % 4294967296 }
      (a2, [b.take sizeofUSRPHeader])
  else (a, [])

/-- State of the drain loop of `CUSRP::Write`. -/
structure WriteLoop where
  OutAudio : CUSRPAudio
  OutSendData : List Nat
  Sent : List (List Nat)
  BytesSent : Nat
deriving DecidableEq, Repr

/-- The body of the loop of `CUSRP::Write`: a VOICE header with the current
keyed flag and sequence number is built in the send buffer and converted to
network byte order, one frame is read from the ring buffer behind it, and
the 32 + 320 bytes are sent.  `none` when the read has no defined result. -/
def CUSRP.WriteBody (P : Host) (s : WriteLoop) : Option WriteLoop :=
  let h := CreateUSRPVoiceHeader s.OutAudio.IsKeyed 0 s.OutAudio.SequenceNum
  let a1 := { s.OutAudio with SequenceNum := (s.OutAudio.SequenceNum + 1) % 4294967296 }
  let b0 := memWrite s.OutSendData 0 (USRPHeader.store P.le h)
  let b1 := memWrite b0 0
    (USRPHeader.store P.le (USRPHeaderToNetworkByteOrder P.le (USRPHeader.load P.le b0)))
  match CUSRPAudio.Read a1 (USRP_VOICE_FRAME_SIZE * 2) with
  | none => none
  | some (a2, data, _) =>
    let b2 := match data with
      | some d => memWrite b1 sizeofUSRPHeader d
      | none => b1
    some { OutAudio := a2,
           OutSendData := b2,
           Sent := s.Sent ++ [b2.take (sizeofUSRPHeader + USRP_VOICE_FRAME_SIZE * 2)],
           BytesSent := s.BytesSent + USRP_VOICE_FRAME_SIZE * 2 }

/-- The loop `while (OutAudio->AudioFrames >= USRP_VOICE_FRAME_SIZE)` of
`CUSRP::Write`, run for at most `fuel` iterations.  `none` when an
iteration has no defined result or the fuel ends before the loop does. -/
def CUSRP.WriteDrain (P : Host) : Nat → WriteLoop → Option WriteLoop
  | 0, s => if s.OutAudio.AudioFrames ≥ USRP_VOICE_FRAME_SIZE then none else some s
  | fuel + 1, s =>
    if s.OutAudio.AudioFrames ≥ USRP_VOICE_FRAME_SIZE then
      match CUSRP.WriteBody P s with
      | none => none
      | some s1 => CUSRP.WriteDrain P fuel s1
    else some s

/-- Method `CUSRP::Write (FrameData, SizeBytes)` on the `OutAudio` state `a`, with
`SizeBytes` the length of `FrameData`.  Result: the new state, the datagrams
handed to `sendto` (oldest first) and the return value.  Every iteration of
the drain loop takes 160 samples out of the buffer, so `AudioFrames`
iterations are more than the loop can make. -/
def CUSRP.Write (P : Host) (OutSendData : List Nat) (a : CUSRPAudio)
    (FrameData : List Nat) : Option (CUSRPAudio × List (List Nat) × Nat) :=
  if a.IsKeyed then
    match CUSRPAudio.Write a FrameData with
    | none => none
    | some (a1, _) =>
      match CUSRP.WriteDrain P a1.AudioFrames
          { OutAudio := a1, OutSendData := OutSendData, Sent := [], BytesSent := 0 } with
      | none => none
      | some s => some (s.OutAudio, s.Sent, s.BytesSent)
  else some (a, [], FrameData.length)

/-! ## Receive path: CUSRP::RecvMain -/

/-- State of `struct CUSRPData` (the mutex apart). -/
structure CUSRPData where
  SequenceNum : Nat
  Header : USRPHeader
  HeaderHistory : List USRPHeader
  HeaderHistoryIdx : Nat
deriving DecidableEq, Repr

/-- Freshly constructed `CUSRPData` (`new CUSRPData`): the eight entries
`hist` of `HeaderHistory` have no initialiser. -/
def CUSRPData.init (hist : List USRPHeader) : CUSRPData :=
  { SequenceNum := 0, Header := USRPHeader.zero, HeaderHistory := hist,
    HeaderHistoryIdx := 0 }

/-- The messages `RecvMain` logs with `LOG_NORM` inside its loop. -/
inductive LogMsg where
  | invalidPacket (size : Int)
  | outOfSequence (is expecting : Nat) (size : Int)
  | unimplemented (type : Nat) (size : Int)
  | setInfo (DmrID RepeaterID Talkgroup : Nat)
deriving DecidableEq, Repr

/-- What one cycle of the receive loop meets: `select` reports nothing to
read, `recvfrom` delivers a datagram, or `recvfrom` fails with -1. -/
inductive RecvEvent where
  | timeout
  | datagram (d : List Nat)
  | error
deriving DecidableEq, Repr

/-- State of the receive loop: `InData`, the locals `InRecvData` (1024
bytes) and `InBytesRead`, the frames written to the audio sink
`AudioC->Socket` (oldest first) and the log. -/
structure RecvState where
  InData : CUSRPData
  InRecvData : List Nat
  InBytesRead : Int
  Sink : List (List Nat)
  Log : List LogMsg
deriving DecidableEq, Repr

/-- Difference `a - b` of two `uint32_t`. -/
def sub32 (a b : Nat) : Nat :=
  (a % 4294967296 + 4294967296 - b % 4294967296) % 4294967296

/-- Cast `(int) x` of a `uint32_t` x. -/
def toInt32 (x : Nat) : Int :=
  if x % 4294967296 < 2147483648 then (x % 4294967296 : Nat)
  else ((x % 4294967296 : Nat) : Int) - 4294967296

/-- The condition of the `do ... while`. -/
def loopCondition (InBytesRead : Int) (bRunning bShutdown : Bool) : Bool :=
  decide (InBytesRead > 0) && bRunning && !bShutdown

/-- The part of a cycle after `recvfrom` ("Process data"): the header in
`InRecvData` is converted in place, and a datagram of at least 32 bytes with
the right magic is recorded and dispatched on its type. -/
def CUSRP.RecvProcess (P : Host) (s : RecvState) : RecvState :=
  let h := USRPHeaderToHostByteOrder P.le (USRPHeader.load P.le s.InRecvData)
  let buf := memWrite s.InRecvData 0 (USRPHeader.store P.le h)
  let s := { s with InRecvData := buf }
  if s.InBytesRead ≥ 32 then
    if h.Usrp ≠ magicUSRP then
      { s with Log := s.Log ++ [LogMsg.invalidPacket s.InBytesRead] }
    else
      let d := s.InData
      let d := { d with HeaderHistory := d.HeaderHistory.set d.HeaderHistoryIdx h }
      let d := { d with HeaderHistoryIdx := (d.HeaderHistoryIdx + 1) % 8 }
      let d := { d with Header := h }
      let s := { s with InData := d }
      if h.Type_ = USRP_TYPE_VOICE then
        let s :=
          if h.Ptt ≠ 0 then
            let s :=
              if toInt32 (sub32 h.SequenceNum s.InData.SequenceNum) ≤ 0 then
                { s with Log := s.Log ++
                    [LogMsg.outOfSequence h.SequenceNum s.InData.SequenceNum s.InBytesRead] }
              else s
            { s with InData := { s.InData with SequenceNum := h.SequenceNum } }
          else
            { s with InData := { s.InData with SequenceNum := 0 } }
        let CopySize := USRP_VOICE_FRAME_SIZE * sizeofShort
        { s with Sink := s.Sink ++ [memRead s.InRecvData sizeofUSRPHeader CopySize] }
      else if h.Type_ = USRP_TYPE_DTMF then
        { s with Log := s.Log ++ [LogMsg.unimplemented USRP_TYPE_DTMF s.InBytesRead] }
      else if h.Type_ = USRP_TYPE_TEXT then
        let m := sizeofUSRPHeader
        if load32 P.le s.InRecvData (m + offTLVTag) = USRP_TLV_TAG_SET_INFO then
          let DmrID := htonl P.le (load32 P.le s.InRecvData (m + offDmrID P)) / 256
          let b1 := memWrite s.InRecvData (m + offDmrID P) (store32 P.le DmrID)
          let RepeaterID := htonl P.le (load32 P.le b1 (m + offRepeaterID P))
          let b2 := memWrite b1 (m + offRepeaterID P) (store32 P.le RepeaterID)
          let Talkgroup := htonl P.le (load32 P.le b2 (m + offTalkgroup P)) / 256
          let b3 := memWrite b2 (m + offTalkgroup P) (store32 P.le Talkgroup)
          { s with
            InRecvData := b3,
            Log := s.Log ++ [LogMsg.setInfo DmrID RepeaterID Talkgroup],
            InData := { s.InData with SequenceNum := h.SequenceNum } }
        else s
      else if h.Type_ = USRP_TYPE_PING then
        { s with Log := s.Log ++ [LogMsg.unimplemented USRP_TYPE_PING s.InBytesRead] }
      else if h.Type_ = USRP_TYPE_TLV then
        { s with Log := s.Log ++ [LogMsg.unimplemented USRP_TYPE_TLV s.InBytesRead] }
      else if h.Type_ = USRP_TYPE_VOICE_ADPCM then
        { s with Log := s.Log ++ [LogMsg.unimplemented USRP_TYPE_VOICE_ADPCM s.InBytesRead] }
      else if h.Type_ = USRP_TYPE_VOICE_ULAW then
        { s with Log := s.Log ++ [LogMsg.unimplemented USRP_TYPE_VOICE_ULAW s.InBytesRead] }
      else s
  else s

/-- One cycle of the `do ... while` loop of `CUSRP::RecvMain` on the event
`ev`, with the values the flags `bRunning` and `bShutdown` have when the
loop condition is evaluated.  Result: the new state and whether the loop
goes on. -/
def CUSRP.RecvCycle (P : Host) (s : RecvState) (ev : RecvEvent)
    (bRunning bShutdown : Bool) : RecvState × Bool :=
  match ev with
  | RecvEvent.timeout =>
    let CopySize := USRP_VOICE_FRAME_SIZE * sizeofShort
    let buf := memWrite s.InRecvData sizeofUSRPHeader (List.replicate CopySize 0)
    let s := { s with
               InRecvData := buf,
               Sink := s.Sink ++ [memRead buf sizeofUSRPHeader CopySize],
               InBytesRead := CopySize }
    (s, loopCondition s.InBytesRead bRunning bShutdown)
  | RecvEvent.datagram d =>
    let s := { s with
               InRecvData := memWrite s.InRecvData 0 (d.take 1024),
               InBytesRead := (d.take 1024).length }
    let s := CUSRP.RecvProcess P s
    (s, loopCondition s.InBytesRead bRunning bShutdown)
  | RecvEvent.error =>
    let s := { s with InBytesRead := -1 }
    let s := CUSRP.RecvProcess P s
    (s, loopCondition s.InBytesRead bRunning bShutdown)

/-- The receive loop over a list of events, each with the values of
`bRunning` and `bShutdown` at the end of its cycle.  Result: the state when
the loop ends or the events do, and whether the loop is still running. -/
def CUSRP.RecvMain (P : Host) : RecvState → List (RecvEvent × Bool × Bool) → RecvState × Bool
  | s, [] => (s, true)
  | s, (ev, bRunning, bShutdown) :: rest =>
    let r := CUSRP.RecvCycle P s ev bRunning bShutdown
    if r.2 then CUSRP.RecvMain P r.1 rest else (r.1, false)

/-- Receive state of a freshly constructed engine when `RecvMain` starts:
`hist`, `buf` and `n` are the indeterminate initial contents of
`HeaderHistory`, `InRecvData` and `InBytesRead`. -/
def RecvState.init (hist : List USRPHeader) (buf : List Nat) (n : Int) : RecvState :=
  { InData := CUSRPData.init hist, InRecvData := buf, InBytesRead := n,
    Sink := [], Log := [] }

/-! ## Scenarios -/

/-- A fresh ring buffer whose memory holds zeros. -/
def freshAudio : CUSRPAudio := CUSRPAudio.init (List.replicate 3200 0)

/-- A full ring buffer: 1600 samples are stored (here all zero), none read. -/
def fullAudio : CUSRPAudio :=
  { IsKeyed := false, SequenceNum := 0, AudioBuffer := List.replicate 3200 0,
    AudioBufferWriteOff := 0, AudioBufferReadOff := 0, AudioFrames := 1600 }

/-- A call on the ring buffer: a write of the given bytes or a read of the
given number of bytes. -/
inductive RingOp where
  | write (FrameData : List Nat)
  | read (BytesSize : Nat)
deriving DecidableEq, Repr

/-- A sequence of calls on the ring buffer.  Result: the final state and
the bytes the reads returned, in order; `none` as soon as one call has no
defined result. -/
def runRing : CUSRPAudio → List RingOp → Option (CUSRPAudio × List Nat)
  | a, [] => some (a, [])
  | a, RingOp.write d :: ops =>
    match CUSRPAudio.Write a d with
    | none => none
    | some (a1, _) => runRing a1 ops
  | a, RingOp.read n :: ops =>
    match CUSRPAudio.Read a n with
    | none => none
    | some (a1, data, _) =>
      match runRing a1 ops with
      | none => none
      | some (a2, out) => some (a2, data.getD [] ++ out)

/-- The header a datagram carries, as `RecvMain` sees it after the
conversion to host byte order. -/
def decodeHeader (le : Bool) (d : List Nat) : USRPHeader :=
  USRPHeaderToHostByteOrder le (USRPHeader.load le d)

/-- A little-endian host whose `Callsign` buffer has 8 bytes. -/
def hostLE : Host := { le := true, CallsignSize := 8 }

/-- The receive state of a fresh engine whose indeterminate memory holds
zeros. -/
def freshRecv : RecvState :=
  RecvState.init (List.replicate 8 USRPHeader.zero) (List.replicate 1024 0) 0

/-- A valid VOICE datagram with `Ptt = 1`: at least 32 bytes, the magic
"USRP", type VOICE and `Ptt` 1 in the decoded header. -/
def IsVoicePtt (le : Bool) (d : List Nat) : Prop :=
  32 ≤ d.length ∧ (decodeHeader le d).Usrp = magicUSRP ∧
    (decodeHeader le d).Type_ = USRP_TYPE_VOICE ∧ (decodeHeader le d).Ptt = 1

instance (le : Bool) (d : List Nat) : Decidable (IsVoicePtt le d) :=
  inferInstanceAs (Decidable (32 ≤ d.length ∧ (decodeHeader le d).Usrp = magicUSRP ∧
    (decodeHeader le d).Type_ = USRP_TYPE_VOICE ∧ (decodeHeader le d).Ptt = 1))

/-- The `SequenceNum` a datagram carries. -/
def seqOf (le : Bool) (d : List Nat) : Nat :=
  (decodeHeader le d).SequenceNum

/-- The events of datagrams that arrive one after the other while the
flags let the loop run (`bRunning` set, `bShutdown` clear). -/
def deliver (ds : List (List Nat)) : List (RecvEvent × Bool × Bool) :=
  ds.map (fun d => (RecvEvent.datagram d, true, false))

/-- The out-of-sequence anomaly: the message logged when the signed
difference of the incoming and the expected sequence number is `<= 0`. -/
def LogMsg.isOutOfSequence : LogMsg → Bool
  | LogMsg.outOfSequence _ _ _ => true
  | _ => false

/-- The VOICE datagram a sender on a host of byte order `le` makes for the
given `Ptt`, sequence number and payload. -/
def voiceDatagram (le : Bool) (Ptt : Bool) (SequenceNum : Nat) (payload : List Nat) :
    List Nat :=
  USRPHeader.store le
      (USRPHeaderToNetworkByteOrder le (CreateUSRPVoiceHeader Ptt 0 SequenceNum))
    ++ payload

/-- Steps that the signed comparison of `RecvMain` takes for an advance:
the sequence number grows, by less than 2^31. -/
def seqStep (a b : Nat) : Prop :=
  a < b ∧ b - a < 2147483648

instance (a b : Nat) : Decidable (seqStep a b) :=
  inferInstanceAs (Decidable (a < b ∧ b - a < 2147483648))

/-- Every sequence number of the list advances on the one before, the
first on `e`. -/
def advances : Nat → List Nat → Bool
  | _, [] => true
  | e, a :: rest => decide (seqStep e a) && advances a rest

/-- A stream of three VOICE datagrams with `Ptt = 1` from a little-endian
sender, with the sequence numbers 1, 2 and 2147483649. -/
def streamAdvancing : List (List Nat) :=
  [voiceDatagram true true 1 (List.replicate 320 7),
   voiceDatagram true true 2 (List.replicate 320 8),
   voiceDatagram true true 2147483649 (List.replicate 320 9)]

/-- A send buffer whose indeterminate content is zeros. -/
def zeroStack : List Nat := List.replicate 1024 0

/-- The transmit state of a fresh engine after `KeyTx (1)` on a
little-endian host: keyed, with the next sequence number 1. -/
def keyedAudio : CUSRPAudio := (CUSRP.KeyTx hostLE zeroStack freshAudio 1).1

/-- A frame as the drain loop of `CUSRP::Write` sends it while keyed:
32 + 320 bytes, the magic "USRP", type VOICE and `Ptt = 1`. -/
def IsVoiceFrame (le : Bool) (d : List Nat) : Prop :=
  d.length = 352 ∧ (decodeHeader le d).Usrp = magicUSRP ∧
    (decodeHeader le d).Type_ = USRP_TYPE_VOICE ∧ (decodeHeader le d).Ptt = 1

instance (le : Bool) (d : List Nat) : Decidable (IsVoiceFrame le d) :=
  inferInstanceAs (Decidable (d.length = 352 ∧ (decodeHeader le d).Usrp = magicUSRP ∧
    (decodeHeader le d).Type_ = USRP_TYPE_VOICE ∧ (decodeHeader le d).Ptt = 1))

/-- A call of the transmit path, with the indeterminate content of the local
send buffer `OutSendData` of the call. -/
inductive TxCall where
  | keyTx (bKey : Int) (OutSendData : List Nat)
  | write (FrameData : List Nat) (OutSendData : List Nat)
deriving DecidableEq, Repr

/-- A sequence of `KeyTx` and `Write` calls on the transmit state.  Result:
the final state and the datagrams handed to `sendto`, oldest first; `none`
as soon as one call has no defined result. -/
def runTx (P : Host) : CUSRPAudio → List TxCall → Option (CUSRPAudio × List (List Nat))
  | a, [] => some (a, [])
  | a, TxCall.keyTx bKey stk :: rest =>
    match runTx P (CUSRP.KeyTx P stk a bKey).1 rest with
    | none => none
    | some (a2, sent) => some (a2, (CUSRP.KeyTx P stk a bKey).2 ++ sent)
  | a, TxCall.write data stk :: rest =>
    match CUSRP.Write P stk a data with
    | none => none
    | some (a1, sent1, _) =>
      match runTx P a1 rest with
      | none => none
      | some (a2, sent) => some (a2, sent1 ++ sent)

/-- The send buffer of a call. -/
def TxCall.stack : TxCall → List Nat
  | TxCall.keyTx _ stk => stk
  | TxCall.write _ stk => stk

/-- The header of the TEXT frame `KeyTx` builds on key-up, in host byte
order, with the sequence number `n`. -/
def keyUpHeader (n : Nat) : USRPHeader :=
  { Usrp := magicUSRP, SequenceNum := n, Memory := 0, Ptt := 1, Talkgroup := 0,
    Type_ := USRP_TYPE_TEXT, Mpxid := 0, Reserved := 0 }

/-- The three kinds of frames the transmit path sends: the TEXT frame of a
key-up, a VOICE frame of `Write`, the VOICE frame with `Ptt = 0` of a
key-down. -/
inductive FrameKind where
  | text
  | voice
  | keyDown
deriving DecidableEq, Repr

/-- The header of a frame of the given kind in host byte order, with the
sequence number `n`. -/
def FrameKind.header : FrameKind → Nat → USRPHeader
  | FrameKind.text, n => keyUpHeader n
  | FrameKind.voice, n => CreateUSRPVoiceHeader true 0 n
  | FrameKind.keyDown, n => CreateUSRPVoiceHeader false 0 n

/-- A datagram is a frame of the given kind with the sequence number `n`
(taken modulo 2^32): it holds the header of the kind, converted once to
network byte order, and a TEXT frame holds the tag SET_INFO behind it. -/
def IsFrameOf (P : Host) (kind : FrameKind) (n : Nat) (d : List Nat) : Prop :=
  32 ≤ d.length ∧
  USRPHeader.load P.le d
    = USRPHeaderToNetworkByteOrder P.le (kind.header (n % 4294967296)) ∧
  (kind = FrameKind.text →
    36 ≤ d.length ∧ load32 P.le d (sizeofUSRPHeader + offTLVTag) = USRP_TLV_TAG_SET_INFO)

/-- Frames of one kind with consecutive sequence numbers from `n` on. -/
def framesFrom (P : Host) (kind : FrameKind) : Nat → List (List Nat) → Prop
  | _, [] => True
  | n, d :: ds => IsFrameOf P kind n d ∧ framesFrom P kind (n + 1) ds

/-- The datagrams carry consecutive sequence numbers from `n` on (modulo
2^32), in their headers before the conversion to network byte order. -/
def numberedFrom (le : Bool) : Nat → List (List Nat) → Prop
  | _, [] => True
  | n, d :: ds => seqOf le d = n % 4294967296 ∧ numberedFrom le (n + 1) ds

/-- The result of `Write` of 500 samples on the keyed engine `keyedAudio`
(little-endian host, zeroed send buffer). -/
def writeResult500 : CUSRPAudio × List (List Nat) × Nat :=
  (CUSRP.Write hostLE zeroStack keyedAudio (List.replicate 1000 1)).getD (keyedAudio, [], 0)

/-- A fresh transmit state whose sequence number is the last 32-bit value. -/
def lastSeqAudio : CUSRPAudio :=
  { freshAudio with SequenceNum := 4294967295 }

/-- A transmission: key-up, a `Write` of 500 samples, key-down. -/
def txCalls : List TxCall :=
  [TxCall.keyTx 1 zeroStack, TxCall.write (List.replicate 1000 1) zeroStack,
   TxCall.keyTx 0 zeroStack]

/-- The result of the transmission `txCalls` from `lastSeqAudio` on a
little-endian host. -/
def txResult : CUSRPAudio × List (List Nat) :=
  (runTx hostLE lastSeqAudio txCalls).getD (lastSeqAudio, [])

/-- The TLV tag a cycle sees for the datagram `d`: the 32-bit value behind
the header in the receive buffer after `recvfrom`. -/
def tagSeen (P : Host) (s : RecvState) (d : List Nat) : Nat :=
  load32 P.le (memWrite s.InRecvData 0 (d.take 1024)) (sizeofUSRPHeader + offTLVTag)

/-- The voice frame a cycle sees for the datagram `d`: the 320 bytes behind
the header in the receive buffer after `recvfrom`. -/
def frameSeen (s : RecvState) (d : List Nat) : List Nat :=
  memRead (memWrite s.InRecvData 0 (d.take 1024)) sizeofUSRPHeader 320

/-- The receive state of a fresh engine after a VOICE datagram with
`Ptt = 1`, sequence number 5 and a payload of 320 bytes of value 7. -/
def staleRecv : RecvState :=
  (CUSRP.RecvCycle hostLE freshRecv
    (RecvEvent.datagram (voiceDatagram true true 5 (List.replicate 320 7))) true false).1

/-- The receive state of a fresh engine after the key-up frame of a fresh
sender (TEXT, sequence number 0, tag SET_INFO). -/
def textRecv : RecvState :=
  (CUSRP.RecvCycle hostLE freshRecv
    (RecvEvent.datagram ((CUSRP.KeyTx hostLE zeroStack freshAudio 1).2.headD []))
    true false).1

/-- A TEXT datagram of 32 bytes from a little-endian sender: the header
with the sequence number `n` and nothing behind it. -/
def textHeaderOnly (n : Nat) : List Nat :=
  USRPHeader.store true (USRPHeaderToNetworkByteOrder true (keyUpHeader n))

/-- The receiver follows the sender: while the sender is keyed, the
expected sequence number of the receiver is the one before the next
sequence number of the sender (modulo 2^32). -/
def inStep (a : CUSRPAudio) (r : RecvState) : Prop :=
  a.IsKeyed = true →
    r.InData.SequenceNum = (a.SequenceNum + 4294967295) % 4294967296

/-- The receive loop took the datagrams without an out-of-sequence anomaly:
it is still running and what it added to the log holds no anomaly. -/
def quietRun (P : Host) (r : RecvState) (ds : List (List Nat)) : Prop :=
  (CUSRP.RecvMain P r (deliver ds)).2 = true ∧
  ∃ extra, (CUSRP.RecvMain P r (deliver ds)).1.Log = r.Log ++ extra ∧
    ∀ m ∈ extra, m.isOutOfSequence = false

/-- A transmission that reaches the end of the ring buffer: key-up and four
`Write` calls of 500 samples each. -/
def overrunCalls : List TxCall :=
  [TxCall.keyTx 1 zeroStack,
   TxCall.write (List.replicate 1000 1) zeroStack,
   TxCall.write (List.replicate 1000 2) zeroStack,
   TxCall.write (List.replicate 1000 3) zeroStack,
   TxCall.write (List.replicate 1000 4) zeroStack]

/-- A transmission that reaches the end of the ring buffer right after the
sequence number wrapped: key-up and two `Write` calls of 1000 samples each. -/
def wrapOverrunCalls : List TxCall :=
  [TxCall.keyTx 1 zeroStack,
   TxCall.write (List.replicate 2000 1) zeroStack,
   TxCall.write (List.replicate 2000 2) zeroStack]

/-- The result of the key-up and the first `Write` of `wrapOverrunCalls` from
`lastSeqAudio` on a little-endian host. -/
def wrapOverrunPrefix : CUSRPAudio × List (List Nat) :=
  (runTx hostLE lastSeqAudio (wrapOverrunCalls.take 2)).getD (lastSeqAudio, [])

/-! ## Theorems -/

/-! ### Ring buffer capacity (C1) -/

/-- C1 (code defect).  A write of 1600 samples fills a fresh ring buffer
(`fullAudio`), and a further write of one sample (two bytes) on the full
buffer is accepted instead of rejected: `CUSRPAudio::Write` returns 2, the
fill count becomes 1601, the write offset 1, and the oldest unread sample is
overwritten.  The test `AudioFrames < 1600 * sizeof (short)` compares the
fill count in samples with the capacity in bytes and ignores the size of the
request. -/
theorem C1_full_buffer_write_is_accepted :
    CUSRPAudio.Write freshAudio (List.replicate 3200 0) = some (fullAudio, 3200) ∧
    (CUSRPAudio.Write fullAudio [1, 2]).map
        (fun r => (r.2, r.1.AudioFrames, r.1.AudioBufferWriteOff,
                   r.1.AudioBufferReadOff, r.1.AudioBuffer.take 4))
      = some (2, 1601, 1, 0, [1, 2, 0, 0]) := by
  constructor
  · decide!
  · decide!

/-! ### Ring buffer order (C2) -/

/-- C2 (code defect).  On a fresh ring buffer, a write of 1000 samples and
a read of 1000 samples succeed and return the samples written; the write
offset is then 1000.  A second write of 1000 samples fits in the free space
(1600 samples) but `memcpy` copies it in one piece to `AudioBuffer + 1000`,
past the end of the 1600-sample array: the call has no defined result, and
the samples cannot come back in order. -/
theorem C2_write_across_the_end_is_undefined :
    (runRing freshAudio
        [RingOp.write (List.replicate 2000 1), RingOp.read 2000]).map
        (fun r => (r.1.AudioBufferWriteOff, r.1.AudioBufferReadOff, r.1.AudioFrames,
                   decide (r.2 = List.replicate 2000 1)))
      = some (1000, 1000, 0, true) ∧
    runRing freshAudio
        [RingOp.write (List.replicate 2000 1), RingOp.read 2000,
         RingOp.write (List.replicate 2000 2)] = none := by
  constructor
  · decide!
  · decide!

/-! ### Header byte order (C3) -/

theorem bswap32_digits (a b c d : Nat) (ha : a < 256) (hb : b < 256) (hc : c < 256)
    (hd : d < 256) :
    bswap32 (a + b * 256 + c * 65536 + d * 16777216)
      = d + c * 256 + b * 65536 + a * 16777216 := by
  unfold bswap32
  omega

theorem digits32 (x : Nat) (h : x < 4294967296) :
    x = x % 256 + (x / 256 % 256) * 256 + (x / 65536 % 256) * 65536
          + (x / 16777216 % 256) * 16777216 := by
  omega

theorem bswap32_bswap32 (x : Nat) (h : x < 4294967296) : bswap32 (bswap32 x) = x := by
  have hx := digits32 x h
  have h0 : x % 256 < 256 := Nat.mod_lt _ (by decide)
  have h1 : x / 256 % 256 < 256 := Nat.mod_lt _ (by decide)
  have h2 : x / 65536 % 256 < 256 := Nat.mod_lt _ (by decide)
  have h3 : x / 16777216 % 256 < 256 := Nat.mod_lt _ (by decide)
  generalize x % 256 = a at *
  generalize x / 256 % 256 = b at *
  generalize x / 65536 % 256 = c at *
  generalize x / 16777216 % 256 = d at *
  subst hx
  rw [bswap32_digits a b c d h0 h1 h2 h3, bswap32_digits d c b a h3 h2 h1 h0]

theorem bswap32_lt (x : Nat) : bswap32 x < 4294967296 := by
  unfold bswap32
  omega

theorem ntohl_htonl (le : Bool) (x : Nat) (h : x < 4294967296) :
    ntohl le (htonl le x) = x := by
  cases le
  · simp [ntohl, htonl, Nat.mod_eq_of_lt h]
  · simp [ntohl, htonl, Nat.mod_eq_of_lt h, Nat.mod_eq_of_lt (bswap32_lt x),
      bswap32_bswap32 x h]

/-- C3.  For every header whose `SequenceNum` and `Ptt` are `uint32_t`
values, on a host of either byte order,
`USRPHeaderToHostByteOrder (USRPHeaderToNetworkByteOrder (h)) = h`: all
eight fields come back unchanged. -/
theorem C3_header_byte_order_roundtrip (le : Bool) (h : USRPHeader)
    (hSeq : h.SequenceNum < 4294967296) (hPtt : h.Ptt < 4294967296) :
    USRPHeaderToHostByteOrder le (USRPHeaderToNetworkByteOrder le h) = h := by
  cases h
  simp only [USRPHeaderToHostByteOrder, USRPHeaderToNetworkByteOrder] at *
  simp [ntohl_htonl, hSeq, hPtt]

/-- Witness of C3: the header of a key-up frame with sequence number
305419896 on a little-endian host. -/
theorem C3_header_byte_order_roundtrip_witness :
    USRPHeaderToHostByteOrder true
        (USRPHeaderToNetworkByteOrder true (CreateUSRPVoiceHeader true 0 305419896))
      = CreateUSRPVoiceHeader true 0 305419896 :=
  C3_header_byte_order_roundtrip true (CreateUSRPVoiceHeader true 0 305419896)
    (by decide) (by decide)

/-! ### Memory lemmas -/

theorem byteAt_memWrite (buf x : List Nat) (off i : Nat) (hoff : off ≤ buf.length) :
    byteAt (memWrite buf off x) i =
      if i < off then byteAt buf i
      else if i < off + x.length then byteAt x (i - off) else byteAt buf i := by
  unfold byteAt memWrite
  simp only [List.getD_eq_getElem?_getD]
  by_cases h1 : i < off
  · simp only [h1, if_true]
    rw [List.append_assoc, List.getElem?_append_left (by simp; omega)]
    rw [List.getElem?_take_of_lt h1]
  · simp only [h1, if_false]
    rw [List.append_assoc, List.getElem?_append_right (by simp; omega)]
    have hl : (List.take off buf).length = off := by simp; omega
    rw [hl]
    by_cases h2 : i < off + x.length
    · simp only [h2, if_true]
      rw [List.getElem?_append_left (by omega)]
    · simp only [h2, if_false]
      rw [List.getElem?_append_right (by omega), List.getElem?_drop]
      congr 2
      omega

theorem length_memWrite_ge (buf x : List Nat) (off : Nat) :
    buf.length ≤ (memWrite buf off x).length := by
  unfold memWrite
  simp
  omega

theorem byteAt_take (d : List Nat) (n i : Nat) (h : i < n) :
    byteAt (d.take n) i = byteAt d i := by
  unfold byteAt
  simp only [List.getD_eq_getElem?_getD]
  rw [List.getElem?_take_of_lt h]

/-- After `recvfrom`, the first bytes of `InRecvData` are those of the
datagram. -/
theorem byteAt_recv (buf d : List Nat) (i : Nat) (hi : i < 32) (hd : 32 ≤ d.length) :
    byteAt (memWrite buf 0 (d.take 1024)) i = byteAt d i := by
  rw [byteAt_memWrite buf _ 0 i (Nat.zero_le _)]
  have hl : (d.take 1024).length ≥ 32 := by simp; omega
  simp only [Nat.not_lt_zero, if_false, Nat.zero_add, Nat.sub_zero]
  rw [if_pos (by omega), byteAt_take d 1024 i (by omega)]

theorem load32_recv (le : Bool) (buf d : List Nat) (off : Nat) (ho : off + 4 ≤ 32)
    (hd : 32 ≤ d.length) :
    load32 le (memWrite buf 0 (d.take 1024)) off = load32 le d off := by
  unfold load32
  rw [byteAt_recv buf d off (by omega) hd, byteAt_recv buf d (off + 1) (by omega) hd,
    byteAt_recv buf d (off + 2) (by omega) hd, byteAt_recv buf d (off + 3) (by omega) hd]

/-- After `recvfrom` of a datagram of at least 32 bytes, the header in
`InRecvData` is the header of the datagram. -/
theorem load_recv (le : Bool) (buf d : List Nat) (hd : 32 ≤ d.length) :
    USRPHeader.load le (memWrite buf 0 (d.take 1024)) = USRPHeader.load le d := by
  unfold USRPHeader.load
  rw [byteAt_recv buf d 0 (by omega) hd, byteAt_recv buf d 1 (by omega) hd,
    byteAt_recv buf d 2 (by omega) hd, byteAt_recv buf d 3 (by omega) hd,
    load32_recv le buf d 4 (by omega) hd, load32_recv le buf d 8 (by omega) hd,
    load32_recv le buf d 12 (by omega) hd, load32_recv le buf d 16 (by omega) hd,
    load32_recv le buf d 20 (by omega) hd, load32_recv le buf d 24 (by omega) hd,
    load32_recv le buf d 28 (by omega) hd]

theorem load_Usrp_of_take (le : Bool) (d : List Nat) (hd : 4 ≤ d.length) :
    (USRPHeader.load le d).Usrp = d.take 4 := by
  rcases d with _ | ⟨a, _ | ⟨b, _ | ⟨c, _ | ⟨e, r⟩⟩⟩⟩ <;> simp at hd
  simp [USRPHeader.load, byteAt]

/-! ### Rejection of invalid datagrams (C4) -/

/-- C4.  For every receive state, every host and every datagram that is
shorter than 32 bytes or whose first four bytes are not "USRP", one cycle of
the receive loop leaves `InData` (`SequenceNum`, `Header`, `HeaderHistory`,
`HeaderHistoryIdx`) unchanged and writes nothing to the audio sink. -/
theorem C4_invalid_datagram_is_rejected (P : Host) (s : RecvState) (d : List Nat)
    (bRunning bShutdown : Bool) (h : d.length < 32 ∨ d.take 4 ≠ magicUSRP) :
    (CUSRP.RecvCycle P s (RecvEvent.datagram d) bRunning bShutdown).1.InData = s.InData ∧
    (CUSRP.RecvCycle P s (RecvEvent.datagram d) bRunning bShutdown).1.Sink = s.Sink := by
  simp only [CUSRP.RecvCycle, CUSRP.RecvProcess]
  by_cases hlen : ((List.take 1024 d).length : Int) ≥ 32
  · have hd : 32 ≤ d.length := by
      have : (List.take 1024 d).length ≤ d.length := by simp
      omega
    have hm : d.take 4 ≠ magicUSRP := by
      rcases h with h | h
      · omega
      · exact h
    have hU : (USRPHeaderToHostByteOrder P.le
        (USRPHeader.load P.le (memWrite s.InRecvData 0 (List.take 1024 d)))).Usrp
          ≠ magicUSRP := by
      rw [load_recv P.le _ d hd]
      simp only [USRPHeaderToHostByteOrder]
      rw [load_Usrp_of_take P.le d (by omega)]
      exact hm
    rw [if_pos hlen, if_pos hU]
    exact ⟨rfl, rfl⟩
  · rw [if_neg hlen]
    exact ⟨rfl, rfl⟩

/-- Witness of C4: the 32-byte datagram of zero bytes, received by a fresh
engine. -/
theorem C4_invalid_datagram_is_rejected_witness :
    (List.replicate 32 0).take 4 ≠ magicUSRP ∧
    (CUSRP.RecvCycle hostLE freshRecv (RecvEvent.datagram (List.replicate 32 0))
        true false).1.InData = freshRecv.InData ∧
    (CUSRP.RecvCycle hostLE freshRecv (RecvEvent.datagram (List.replicate 32 0))
        true false).1.Sink = freshRecv.Sink :=
  ⟨by decide,
   C4_invalid_datagram_is_rejected hostLE freshRecv (List.replicate 32 0) true false
     (Or.inr (by decide))⟩

/-! ### One receive cycle on a VOICE datagram with PTT -/

theorem length_store (le : Bool) (h : USRPHeader) : (USRPHeader.store le h).length = 32 := by
  cases le <;> simp [USRPHeader.store, store32]

theorem memRead_memWrite_zero_after (buf x : List Nat) (off n : Nat)
    (h1 : x.length ≤ off) (_h2 : x.length ≤ buf.length) :
    memRead (memWrite buf 0 x) off n = memRead buf off n := by
  unfold memRead memWrite
  simp only [List.take_zero, List.nil_append, Nat.zero_add]
  rw [List.drop_append_eq_append_drop]
  have h3 : List.drop off x = [] := List.drop_eq_nil_of_le h1
  rw [h3, List.nil_append, List.drop_drop]
  congr 2
  omega

theorem memRead_memWrite_zero_inside (buf x : List Nat) (off n : Nat)
    (h1 : off + n ≤ x.length) :
    memRead (memWrite buf 0 x) off n = memRead x off n := by
  unfold memRead memWrite
  simp only [List.take_zero, List.nil_append, Nat.zero_add]
  rw [List.drop_append_eq_append_drop]
  rw [List.take_append_of_le_length (by simp; omega)]

theorem memRead_take (d : List Nat) (k off n : Nat) (h : off + n ≤ k) :
    memRead (d.take k) off n = memRead d off n := by
  unfold memRead
  rw [List.drop_take, List.take_take]
  congr 1
  omega

theorem ntohl_lt (le : Bool) (x : Nat) : ntohl le x < 4294967296 := by
  cases le
  · simp only [ntohl]
    exact Nat.mod_lt _ (by decide)
  · simp only [ntohl, if_true]
    exact bswap32_lt _

theorem seqOf_lt (le : Bool) (d : List Nat) : seqOf le d < 4294967296 := by
  simp only [seqOf, decodeHeader, USRPHeaderToHostByteOrder]
  exact ntohl_lt le _

/-- One cycle on a valid VOICE datagram with a nonzero `Ptt`: the expected
sequence number becomes the incoming one, the anomaly is logged exactly when
the signed difference is `<= 0`, bytes 32 to 351 of the receive buffer go to
the sink, and the loop goes on as far as the flags allow. -/
theorem RecvCycle_voice_ptt (P : Host) (s : RecvState) (d : List Nat)
    (bRunning bShutdown : Bool) (hd : 32 ≤ d.length)
    (hm : (decodeHeader P.le d).Usrp = magicUSRP)
    (ht : (decodeHeader P.le d).Type_ = USRP_TYPE_VOICE)
    (hp : (decodeHeader P.le d).Ptt ≠ 0) :
    (CUSRP.RecvCycle P s (RecvEvent.datagram d) bRunning bShutdown).1.InData.SequenceNum
      = seqOf P.le d ∧
    (CUSRP.RecvCycle P s (RecvEvent.datagram d) bRunning bShutdown).1.Log
      = s.Log ++
        (if toInt32 (sub32 (seqOf P.le d) s.InData.SequenceNum) ≤ 0 then
          [LogMsg.outOfSequence (seqOf P.le d) s.InData.SequenceNum (d.take 1024).length]
         else []) ∧
    (CUSRP.RecvCycle P s (RecvEvent.datagram d) bRunning bShutdown).1.Sink
      = s.Sink ++ [memRead (memWrite s.InRecvData 0 (d.take 1024)) 32 320] ∧
    (CUSRP.RecvCycle P s (RecvEvent.datagram d) bRunning bShutdown).2
      = (bRunning && !bShutdown) := by
  have hl : (32 : Int) ≤ ((List.take 1024 d).length : Int) := by
    have : 32 ≤ (List.take 1024 d).length := by simp; omega
    omega
  have hl2 : 32 ≤ (memWrite s.InRecvData 0 (List.take 1024 d)).length := by
    unfold memWrite
    simp
    omega
  simp only [decodeHeader] at hm ht hp
  simp only [CUSRP.RecvCycle, CUSRP.RecvProcess, seqOf, decodeHeader]
  rw [load_recv P.le _ d hd]
  simp only [ge_iff_le, hl, if_true, hm, ne_eq, not_true_eq_false, if_false, ht, hp,
    not_false_eq_true]
  have hst : ∀ n, memRead (memWrite (memWrite s.InRecvData 0 (List.take 1024 d)) 0
      (USRPHeader.store P.le (USRPHeaderToHostByteOrder P.le (USRPHeader.load P.le d)))) 32 n
        = memRead (memWrite s.InRecvData 0 (List.take 1024 d)) 32 n := by
    intro n
    apply memRead_memWrite_zero_after
    · rw [length_store]
    · rw [length_store]
      exact hl2
  have hpos : (0 : Int) < ((List.take 1024 d).length : Int) := by omega
  refine ⟨trivial, ?_, ?_, ?_⟩
  · split <;> simp
  · split <;> simp [sizeofUSRPHeader, USRP_VOICE_FRAME_SIZE, sizeofShort, hst]
  · have hpos2 : 0 < d.length := by omega
    split <;> simp [loopCondition, hpos2]

/-! ### Sequence tracking on increasing streams (C5) -/

theorem toInt32_sub32_pos (a e : Nat) (ha : a < 4294967296) (h : seqStep e a) :
    ¬ toInt32 (sub32 a e) ≤ 0 := by
  obtain ⟨h1, h2⟩ := h
  unfold toInt32 sub32
  split <;> omega

/-- The receive loop on a stream of valid VOICE datagrams with `Ptt = 1`,
from any state: when every sequence number advances on the one before (the
first on the expected sequence number of the state) by less than 2^31,
nothing is logged, every datagram is processed and the loop is still
running. -/
theorem RecvMain_voice_stream (P : Host) (ds : List (List Nat)) :
    ∀ s : RecvState, (∀ d ∈ ds, IsVoicePtt P.le d) →
      advances s.InData.SequenceNum (ds.map (seqOf P.le)) = true →
      (CUSRP.RecvMain P s (deliver ds)).1.Log = s.Log ∧
      (CUSRP.RecvMain P s (deliver ds)).2 = true ∧
      (CUSRP.RecvMain P s (deliver ds)).1.Sink.length = s.Sink.length + ds.length := by
  induction ds with
  | nil =>
    intro s _ _
    simp [deliver, CUSRP.RecvMain]
  | cons d ds ih =>
    intro s hv hc
    obtain ⟨hd, hm, ht, hp⟩ := hv d (List.mem_cons_self d ds)
    have hp0 : (decodeHeader P.le d).Ptt ≠ 0 := by rw [hp]; decide
    obtain ⟨hS, hL, hK, hC⟩ := RecvCycle_voice_ptt P s d true false hd hm ht hp0
    simp only [List.map_cons, advances, Bool.and_eq_true, decide_eq_true_eq] at hc
    obtain ⟨hstep, hrest⟩ := hc
    rw [if_neg (toInt32_sub32_pos _ _ (seqOf_lt P.le d) hstep), List.append_nil] at hL
    have hv2 : ∀ x ∈ ds, IsVoicePtt P.le x := fun x hx => hv x (List.mem_cons_of_mem d hx)
    rw [← hS] at hrest
    obtain ⟨i1, i2, i3⟩ := ih _ hv2 hrest
    have hun : CUSRP.RecvMain P s (deliver (d :: ds))
        = CUSRP.RecvMain P
            (CUSRP.RecvCycle P s (RecvEvent.datagram d) true false).1 (deliver ds) := by
      simp only [deliver, List.map_cons, CUSRP.RecvMain]
      rw [hC]
      rfl
    rw [hun, i1, i2, i3, hL, hK]
    simp
    omega

/-- C5 (amended).  For every host, a finite stream of valid VOICE datagrams
with `Ptt = 1` is processed in order by the receive loop of a freshly
constructed engine (`SequenceNum = 0`).  When the first sequence number lies
between 1 and 2^31 - 1 and every later one is greater than the one before by
less than 2^31, no datagram of the stream triggers the out-of-sequence
anomaly; every datagram is processed and the loop is still running. -/
theorem C5_increasing_stream_logs_no_anomaly (P : Host) (hist : List USRPHeader)
    (buf : List Nat) (n : Int) (ds : List (List Nat))
    (hv : ∀ d ∈ ds, IsVoicePtt P.le d)
    (hs : advances 0 (ds.map (seqOf P.le)) = true) :
    (∀ m ∈ (CUSRP.RecvMain P (RecvState.init hist buf n) (deliver ds)).1.Log,
        m.isOutOfSequence = false) ∧
    (CUSRP.RecvMain P (RecvState.init hist buf n) (deliver ds)).2 = true ∧
    (CUSRP.RecvMain P (RecvState.init hist buf n) (deliver ds)).1.Sink.length
      = ds.length := by
  obtain ⟨h1, h2, h3⟩ := RecvMain_voice_stream P ds (RecvState.init hist buf n) hv hs
  refine ⟨?_, h2, ?_⟩
  · rw [h1]
    intro m hm
    simp [RecvState.init] at hm
  · rw [h3]
    simp [RecvState.init]

/-- Witness of C5: the stream with the sequence numbers 1, 2 and
2147483649 on a little-endian host. -/
theorem C5_increasing_stream_logs_no_anomaly_witness :
    (∀ d ∈ streamAdvancing, IsVoicePtt hostLE.le d) ∧
    advances 0 (streamAdvancing.map (seqOf hostLE.le)) = true ∧
    (∀ m ∈ (CUSRP.RecvMain hostLE
          (RecvState.init (List.replicate 8 USRPHeader.zero) (List.replicate 1024 0) 0)
          (deliver streamAdvancing)).1.Log,
        m.isOutOfSequence = false) ∧
    (CUSRP.RecvMain hostLE
        (RecvState.init (List.replicate 8 USRPHeader.zero) (List.replicate 1024 0) 0)
        (deliver streamAdvancing)).2 = true ∧
    (CUSRP.RecvMain hostLE
        (RecvState.init (List.replicate 8 USRPHeader.zero) (List.replicate 1024 0) 0)
        (deliver streamAdvancing)).1.Sink.length = streamAdvancing.length :=
  ⟨by decide!, by decide!,
   C5_increasing_stream_logs_no_anomaly hostLE (List.replicate 8 USRPHeader.zero)
     (List.replicate 1024 0) 0 streamAdvancing (by decide!) (by decide!)⟩

/-- Counterexample to C5 as stated.  On a little-endian host, the stream of
two valid VOICE datagrams with `Ptt = 1` and the strictly increasing
sequence numbers 0 and 2147483648 makes the receive loop of a fresh engine
log the out-of-sequence anomaly twice: for the first datagram the signed
difference to the initial expected value 0 is 0, for the second it is
-2^31. -/
theorem C5_counterexample :
    IsVoicePtt true (voiceDatagram true true 0 (List.replicate 320 7)) ∧
    IsVoicePtt true (voiceDatagram true true 2147483648 (List.replicate 320 8)) ∧
    seqOf true (voiceDatagram true true 0 (List.replicate 320 7))
      < seqOf true (voiceDatagram true true 2147483648 (List.replicate 320 8)) ∧
    (CUSRP.RecvMain hostLE freshRecv
        (deliver [voiceDatagram true true 0 (List.replicate 320 7),
                  voiceDatagram true true 2147483648 (List.replicate 320 8)])).1.Log
      = [LogMsg.outOfSequence 0 0 352, LogMsg.outOfSequence 2147483648 0 352] := by
  refine ⟨by decide!, by decide!, by decide!, by decide!⟩

/-! ### Repeated and smaller sequence numbers (C6) -/

theorem toInt32_sub32_nonpos (a e : Nat) (he : e < 4294967296) (h1 : a ≤ e)
    (h2 : e - a ≤ 2147483648) : toInt32 (sub32 a e) ≤ 0 := by
  unfold toInt32 sub32
  split <;> omega

/-- C6 (amended).  For every host and receive state and every two
consecutive valid VOICE datagrams with `Ptt = 1`, the second one carrying
its 160-sample payload (at least 352 bytes): when the second sequence number
is equal to the first, or smaller by at most 2^31, processing the second
datagram logs the out-of-sequence anomaly, and its payload (bytes 32 to 351)
is written unmodified to the audio sink exactly once. -/
theorem C6_repeated_sequence_logs_anomaly_and_forwards (P : Host) (s : RecvState)
    (d1 d2 : List Nat) (r1 sh1 r2 sh2 : Bool)
    (h1 : IsVoicePtt P.le d1) (h2 : IsVoicePtt P.le d2) (hlen : 352 ≤ d2.length)
    (hle : seqOf P.le d2 ≤ seqOf P.le d1)
    (hgap : seqOf P.le d1 - seqOf P.le d2 ≤ 2147483648) :
    (CUSRP.RecvCycle P (CUSRP.RecvCycle P s (RecvEvent.datagram d1) r1 sh1).1
        (RecvEvent.datagram d2) r2 sh2).1.Log
      = (CUSRP.RecvCycle P s (RecvEvent.datagram d1) r1 sh1).1.Log ++
          [LogMsg.outOfSequence (seqOf P.le d2) (seqOf P.le d1) (d2.take 1024).length] ∧
    (CUSRP.RecvCycle P (CUSRP.RecvCycle P s (RecvEvent.datagram d1) r1 sh1).1
        (RecvEvent.datagram d2) r2 sh2).1.Sink
      = (CUSRP.RecvCycle P s (RecvEvent.datagram d1) r1 sh1).1.Sink ++
          [memRead d2 32 320] := by
  obtain ⟨hd1, hm1, ht1, hp1⟩ := h1
  obtain ⟨hd2, hm2, ht2, hp2⟩ := h2
  have hp10 : (decodeHeader P.le d1).Ptt ≠ 0 := by rw [hp1]; decide
  have hp20 : (decodeHeader P.le d2).Ptt ≠ 0 := by rw [hp2]; decide
  obtain ⟨hS, _, _, _⟩ := RecvCycle_voice_ptt P s d1 r1 sh1 hd1 hm1 ht1 hp10
  obtain ⟨_, hL, hK, _⟩ := RecvCycle_voice_ptt P
    (CUSRP.RecvCycle P s (RecvEvent.datagram d1) r1 sh1).1 d2 r2 sh2 hd2 hm2 ht2 hp20
  rw [hS, if_pos (toInt32_sub32_nonpos _ _ (seqOf_lt P.le d1) hle hgap)] at hL
  refine ⟨hL, ?_⟩
  rw [hK, memRead_memWrite_zero_inside _ _ 32 320 (by simp; omega),
    memRead_take d2 1024 32 320 (by omega)]

/-- Witness of C6: the sequence number 5 twice, on a little-endian host
and a fresh engine. -/
theorem C6_repeated_sequence_logs_anomaly_and_forwards_witness :
    (CUSRP.RecvCycle hostLE
        (CUSRP.RecvCycle hostLE freshRecv
          (RecvEvent.datagram (voiceDatagram true true 5 (List.replicate 320 7)))
          true false).1
        (RecvEvent.datagram (voiceDatagram true true 5 (List.replicate 320 8)))
        true false).1.Log
      = (CUSRP.RecvCycle hostLE freshRecv
          (RecvEvent.datagram (voiceDatagram true true 5 (List.replicate 320 7)))
          true false).1.Log ++
          [LogMsg.outOfSequence
            (seqOf hostLE.le (voiceDatagram true true 5 (List.replicate 320 8)))
            (seqOf hostLE.le (voiceDatagram true true 5 (List.replicate 320 7)))
            ((voiceDatagram true true 5 (List.replicate 320 8)).take 1024).length] ∧
    (CUSRP.RecvCycle hostLE
        (CUSRP.RecvCycle hostLE freshRecv
          (RecvEvent.datagram (voiceDatagram true true 5 (List.replicate 320 7)))
          true false).1
        (RecvEvent.datagram (voiceDatagram true true 5 (List.replicate 320 8)))
        true false).1.Sink
      = (CUSRP.RecvCycle hostLE freshRecv
          (RecvEvent.datagram (voiceDatagram true true 5 (List.replicate 320 7)))
          true false).1.Sink ++
          [memRead (voiceDatagram true true 5 (List.replicate 320 8)) 32 320] :=
  C6_repeated_sequence_logs_anomaly_and_forwards hostLE freshRecv
    (voiceDatagram true true 5 (List.replicate 320 7))
    (voiceDatagram true true 5 (List.replicate 320 8)) true false true false
    (by decide!) (by decide!) (by decide!) (by decide!) (by decide!)

/-- Counterexample to C6 as stated.  On a little-endian host and a fresh
engine, two consecutive valid VOICE datagrams with `Ptt = 1` carry the
sequence numbers 4294967295 and 0.  The second is smaller than the first,
but the signed difference 0 - 4294967295 is +1, so processing the second
datagram logs nothing: the log after both datagrams is the log after the
first.  The payload of the second still reaches the sink. -/
theorem C6_counterexample :
    IsVoicePtt true (voiceDatagram true true 4294967295 (List.replicate 320 7)) ∧
    IsVoicePtt true (voiceDatagram true true 0 (List.replicate 320 8)) ∧
    seqOf true (voiceDatagram true true 0 (List.replicate 320 8))
      ≤ seqOf true (voiceDatagram true true 4294967295 (List.replicate 320 7)) ∧
    (CUSRP.RecvCycle hostLE
        (CUSRP.RecvCycle hostLE freshRecv
          (RecvEvent.datagram (voiceDatagram true true 4294967295 (List.replicate 320 7)))
          true false).1
        (RecvEvent.datagram (voiceDatagram true true 0 (List.replicate 320 8)))
        true false).1.Log
      = (CUSRP.RecvCycle hostLE freshRecv
          (RecvEvent.datagram (voiceDatagram true true 4294967295 (List.replicate 320 7)))
          true false).1.Log ∧
    (CUSRP.RecvCycle hostLE
        (CUSRP.RecvCycle hostLE freshRecv
          (RecvEvent.datagram (voiceDatagram true true 4294967295 (List.replicate 320 7)))
          true false).1
        (RecvEvent.datagram (voiceDatagram true true 0 (List.replicate 320 8)))
        true false).1.Sink
      = [List.replicate 320 7, List.replicate 320 8] := by
  refine ⟨by decide!, by decide!, by decide!, by decide!, by decide!⟩

/-! ### Loads from a buffer after writes -/

theorem byteAt_memWrite_before (buf x : List Nat) (off i : Nat) (h1 : i < off)
    (h2 : i < buf.length) : byteAt (memWrite buf off x) i = byteAt buf i := by
  unfold byteAt memWrite
  simp only [List.getD_eq_getElem?_getD]
  rw [List.append_assoc, List.getElem?_append_left (by simp; omega)]
  rw [List.getElem?_take_of_lt h1]

theorem load32_memWrite_before (le : Bool) (buf x : List Nat) (off k : Nat)
    (h1 : k + 4 ≤ off) (h2 : k + 4 ≤ buf.length) :
    load32 le (memWrite buf off x) k = load32 le buf k := by
  unfold load32
  rw [byteAt_memWrite_before buf x off k (by omega) (by omega),
    byteAt_memWrite_before buf x off (k + 1) (by omega) (by omega),
    byteAt_memWrite_before buf x off (k + 2) (by omega) (by omega),
    byteAt_memWrite_before buf x off (k + 3) (by omega) (by omega)]

theorem byteAt_memWrite_after (buf x : List Nat) (off i : Nat) (h1 : off + x.length ≤ i)
    (h2 : off ≤ buf.length) : byteAt (memWrite buf off x) i = byteAt buf i := by
  rw [byteAt_memWrite buf x off i h2, if_neg (by omega), if_neg (by omega)]

theorem load32_memWrite_after (le : Bool) (buf x : List Nat) (off k : Nat)
    (h1 : off + x.length ≤ k) (h2 : off ≤ buf.length) :
    load32 le (memWrite buf off x) k = load32 le buf k := by
  unfold load32
  rw [byteAt_memWrite_after buf x off k (by omega) h2,
    byteAt_memWrite_after buf x off (k + 1) (by omega) h2,
    byteAt_memWrite_after buf x off (k + 2) (by omega) h2,
    byteAt_memWrite_after buf x off (k + 3) (by omega) h2]

theorem byteAt_memWrite_inside (buf x : List Nat) (off i : Nat) (h1 : off ≤ i)
    (h2 : i < off + x.length) (h3 : off ≤ buf.length) :
    byteAt (memWrite buf off x) i = byteAt x (i - off) := by
  rw [byteAt_memWrite buf x off i h3, if_neg (by omega), if_pos h2]

theorem length_store32 (le : Bool) (v : Nat) : (store32 le v).length = 4 := by
  cases le <;> simp [store32]

/-- A `uint32_t` stored at `off` is read back from `off`. -/
theorem load32_memWrite_store32 (le : Bool) (buf : List Nat) (off v : Nat)
    (h : off ≤ buf.length) :
    load32 le (memWrite buf off (store32 le v)) off = v % 4294967296 := by
  have e0 : byteAt (memWrite buf off (store32 le v)) off = byteAt (store32 le v) 0 := by
    rw [byteAt_memWrite_inside buf _ off off (le_refl _) (by rw [length_store32]; omega) h,
      Nat.sub_self]
  have e1 : byteAt (memWrite buf off (store32 le v)) (off + 1) = byteAt (store32 le v) 1 := by
    rw [byteAt_memWrite_inside buf _ off (off + 1) (by omega)
      (by rw [length_store32]; omega) h, Nat.add_sub_cancel_left]
  have e2 : byteAt (memWrite buf off (store32 le v)) (off + 2) = byteAt (store32 le v) 2 := by
    rw [byteAt_memWrite_inside buf _ off (off + 2) (by omega)
      (by rw [length_store32]; omega) h, Nat.add_sub_cancel_left]
  have e3 : byteAt (memWrite buf off (store32 le v)) (off + 3) = byteAt (store32 le v) 3 := by
    rw [byteAt_memWrite_inside buf _ off (off + 3) (by omega)
      (by rw [length_store32]; omega) h, Nat.add_sub_cancel_left]
  unfold load32
  rw [e0, e1, e2, e3]
  cases le <;> simp [store32, byteAt] <;> omega

/-- The header read back from a buffer into which a header was stored:
every `uint32_t` field is the stored one modulo 2^32. -/
theorem load_memWrite_store (le : Bool) (buf : List Nat) (h : USRPHeader) :
    USRPHeader.load le (memWrite buf 0 (USRPHeader.store le h))
      = { Usrp := [h.Usrp.getD 0 0, h.Usrp.getD 1 0, h.Usrp.getD 2 0, h.Usrp.getD 3 0],
          SequenceNum := h.SequenceNum % 4294967296,
          Memory := h.Memory % 4294967296,
          Ptt := h.Ptt % 4294967296,
          Talkgroup := h.Talkgroup % 4294967296,
          Type_ := h.Type_ % 4294967296,
          Mpxid := h.Mpxid % 4294967296,
          Reserved := h.Reserved % 4294967296 } := by
  have hb : ∀ i, i < 32 →
      byteAt (memWrite buf 0 (USRPHeader.store le h)) i = byteAt (USRPHeader.store le h) i := by
    intro i hi
    rw [byteAt_memWrite_inside buf _ 0 i (Nat.zero_le _) (by rw [length_store]; omega)
      (Nat.zero_le _), Nat.sub_zero]
  simp only [USRPHeader.load, load32]
  rw [hb 0 (by omega), hb 1 (by omega), hb 2 (by omega), hb 3 (by omega),
    hb 4 (by omega), hb (4 + 1) (by omega), hb (4 + 2) (by omega), hb (4 + 3) (by omega),
    hb 8 (by omega), hb (8 + 1) (by omega), hb (8 + 2) (by omega), hb (8 + 3) (by omega),
    hb 12 (by omega), hb (12 + 1) (by omega), hb (12 + 2) (by omega), hb (12 + 3) (by omega),
    hb 16 (by omega), hb (16 + 1) (by omega), hb (16 + 2) (by omega), hb (16 + 3) (by omega),
    hb 20 (by omega), hb (20 + 1) (by omega), hb (20 + 2) (by omega), hb (20 + 3) (by omega),
    hb 24 (by omega), hb (24 + 1) (by omega), hb (24 + 2) (by omega), hb (24 + 3) (by omega),
    hb 28 (by omega), hb (28 + 1) (by omega), hb (28 + 2) (by omega), hb (28 + 3) (by omega)]
  cases le <;> simp [USRPHeader.store, store32, byteAt] <;> omega

/-- Writes behind the header leave the header alone. -/
theorem load_memWrite_behind (le : Bool) (buf x : List Nat) (off : Nat) (h1 : 32 ≤ off)
    (h2 : 32 ≤ buf.length) :
    USRPHeader.load le (memWrite buf off x) = USRPHeader.load le buf := by
  unfold USRPHeader.load
  rw [byteAt_memWrite_before buf x off 0 (by omega) (by omega),
    byteAt_memWrite_before buf x off 1 (by omega) (by omega),
    byteAt_memWrite_before buf x off 2 (by omega) (by omega),
    byteAt_memWrite_before buf x off 3 (by omega) (by omega),
    load32_memWrite_before le buf x off 4 (by omega) (by omega),
    load32_memWrite_before le buf x off 8 (by omega) (by omega),
    load32_memWrite_before le buf x off 12 (by omega) (by omega),
    load32_memWrite_before le buf x off 16 (by omega) (by omega),
    load32_memWrite_before le buf x off 20 (by omega) (by omega),
    load32_memWrite_before le buf x off 24 (by omega) (by omega),
    load32_memWrite_before le buf x off 28 (by omega) (by omega)]

theorem load32_take (le : Bool) (d : List Nat) (n k : Nat) (h : k + 4 ≤ n) :
    load32 le (d.take n) k = load32 le d k := by
  unfold load32
  rw [byteAt_take d n k (by omega), byteAt_take d n (k + 1) (by omega),
    byteAt_take d n (k + 2) (by omega), byteAt_take d n (k + 3) (by omega)]

theorem load_take (le : Bool) (d : List Nat) (n : Nat) (h : 32 ≤ n) :
    USRPHeader.load le (d.take n) = USRPHeader.load le d := by
  unfold USRPHeader.load
  rw [byteAt_take d n 0 (by omega), byteAt_take d n 1 (by omega),
    byteAt_take d n 2 (by omega), byteAt_take d n 3 (by omega),
    load32_take le d n 4 (by omega), load32_take le d n 8 (by omega),
    load32_take le d n 12 (by omega), load32_take le d n 16 (by omega),
    load32_take le d n 20 (by omega), load32_take le d n 24 (by omega),
    load32_take le d n 28 (by omega)]

/-! ### The frames of KeyTx -/

theorem le_length_memWrite (n : Nat) (buf x : List Nat) (off : Nat) (h : n ≤ buf.length) :
    n ≤ (memWrite buf off x).length :=
  Nat.le_trans h (length_memWrite_ge buf x off)

theorem htonl_lt (le : Bool) (x : Nat) : htonl le x < 4294967296 := by
  cases le
  · simp only [htonl]
    exact Nat.mod_lt _ (by decide)
  · simp only [htonl, if_true]
    exact bswap32_lt _

theorem ntohl_htonl_mod (le : Bool) (x : Nat) :
    ntohl le (htonl le x % 4294967296) = x % 4294967296 := by
  rw [Nat.mod_eq_of_lt (htonl_lt le x)]
  have h : htonl le x = htonl le (x % 4294967296) := by
    cases le <;> simp [htonl]
  rw [h, ntohl_htonl le _ (Nat.mod_lt _ (by decide))]

theorem length_keyUpBuffer (P : Host) (stk : List Nat) (n k : Nat) (h : k ≤ stk.length) :
    k ≤ (keyUpBuffer P stk n).length := by
  unfold keyUpBuffer
  repeat apply le_length_memWrite
  exact h

/-- The header of the key-up frame, decoded: magic "USRP", the sequence
number, `Ptt = 1`, type TEXT, every other field 0. -/
theorem decode_keyUpBuffer (P : Host) (stk : List Nat) (n : Nat) (h : 32 ≤ stk.length) :
    USRPHeaderToHostByteOrder P.le (USRPHeader.load P.le (keyUpBuffer P stk n))
      = { Usrp := magicUSRP, SequenceNum := n % 4294967296, Memory := 0, Ptt := 1,
          Talkgroup := 0, Type_ := USRP_TYPE_TEXT, Mpxid := 0, Reserved := 0 } := by
  unfold keyUpBuffer
  simp only []
  rw [load_memWrite_store]
  have hoff : ∀ k, 32 ≤ sizeofUSRPHeader + k := by
    intro k
    simp only [sizeofUSRPHeader]
    omega
  rw [load_memWrite_behind _ _ _ _ (hoff _) (by (repeat apply le_length_memWrite); exact h),
    load_memWrite_behind _ _ _ _ (hoff _) (by (repeat apply le_length_memWrite); exact h),
    load_memWrite_behind _ _ _ _ (hoff _) (by (repeat apply le_length_memWrite); exact h),
    load_memWrite_behind _ _ _ _ (hoff _) (by (repeat apply le_length_memWrite); exact h),
    load_memWrite_behind _ _ _ _ (hoff _) (by (repeat apply le_length_memWrite); exact h),
    load_memWrite_behind _ _ _ _ (hoff _) (by (repeat apply le_length_memWrite); exact h),
    load_memWrite_behind _ _ _ _ (hoff _) (by (repeat apply le_length_memWrite); exact h),
    load_memWrite_behind _ _ _ _ (hoff _) (by (repeat apply le_length_memWrite); exact h),
    load_memWrite_store]
  simp only [USRPHeaderToHostByteOrder, USRPHeaderToNetworkByteOrder, ntohl_htonl_mod]
  simp [magicUSRP, USRP_TYPE_TEXT]

/-- The `TLVTag` of the key-up frame is SET_INFO. -/
theorem TLVTag_keyUpBuffer (P : Host) (stk : List Nat) (n : Nat) (h : 36 ≤ stk.length) :
    load32 P.le (keyUpBuffer P stk n) (sizeofUSRPHeader + offTLVTag)
      = USRP_TLV_TAG_SET_INFO := by
  unfold keyUpBuffer
  simp only [sizeofUSRPHeader, offTLVTag, offTLVLength, offCallsign, offDmrID,
    offRepeaterID, offTalkgroup, offTimeslot, offColorCode]
  rw [load32_memWrite_after _ _ _ _ _ (by rw [length_store]) (Nat.zero_le _),
    load32_memWrite_before _ _ _ _ _ (by omega) (by (repeat apply le_length_memWrite); exact h),
    load32_memWrite_before _ _ _ _ _ (by omega) (by (repeat apply le_length_memWrite); exact h),
    load32_memWrite_before _ _ _ _ _ (by omega) (by (repeat apply le_length_memWrite); exact h),
    load32_memWrite_before _ _ _ _ _ (by omega) (by (repeat apply le_length_memWrite); exact h),
    load32_memWrite_before _ _ _ _ _ (by omega) (by (repeat apply le_length_memWrite); exact h),
    load32_memWrite_before _ _ _ _ _ (by omega) (by (repeat apply le_length_memWrite); exact h),
    load32_memWrite_before _ _ _ _ _ (by omega) (by (repeat apply le_length_memWrite); exact h),
    load32_memWrite_store32 _ _ _ _ (by apply le_length_memWrite; omega)]
  simp [USRP_TLV_TAG_SET_INFO]

/-- The `TLVLength` of the key-up frame is 13 + 6. -/
theorem TLVLength_keyUpBuffer (P : Host) (stk : List Nat) (n : Nat) (h : 40 ≤ stk.length) :
    load32 P.le (keyUpBuffer P stk n) (sizeofUSRPHeader + offTLVLength) = 19 := by
  unfold keyUpBuffer
  simp only [sizeofUSRPHeader, offTLVTag, offTLVLength, offCallsign, offDmrID,
    offRepeaterID, offTalkgroup, offTimeslot, offColorCode]
  rw [load32_memWrite_after _ _ _ _ _ (by rw [length_store]; omega) (Nat.zero_le _),
    load32_memWrite_before _ _ _ _ _ (by omega) (by (repeat apply le_length_memWrite); exact h),
    load32_memWrite_before _ _ _ _ _ (by omega) (by (repeat apply le_length_memWrite); exact h),
    load32_memWrite_before _ _ _ _ _ (by omega) (by (repeat apply le_length_memWrite); exact h),
    load32_memWrite_before _ _ _ _ _ (by omega) (by (repeat apply le_length_memWrite); exact h),
    load32_memWrite_before _ _ _ _ _ (by omega) (by (repeat apply le_length_memWrite); exact h),
    load32_memWrite_before _ _ _ _ _ (by omega) (by (repeat apply le_length_memWrite); exact h),
    load32_memWrite_store32 _ _ _ _ (by (repeat apply le_length_memWrite); omega)]
  simp [strlenVK2GPU]

/-- The header of the key-down frame, decoded: magic "USRP", the sequence
number, `Ptt = 0`, type VOICE, every other field 0. -/
theorem decode_keyDownBuffer (P : Host) (stk : List Nat) (n : Nat) :
    USRPHeaderToHostByteOrder P.le (USRPHeader.load P.le (keyDownBuffer P stk n))
      = { Usrp := magicUSRP, SequenceNum := n % 4294967296, Memory := 0, Ptt := 0,
          Talkgroup := 0, Type_ := USRP_TYPE_VOICE, Mpxid := 0, Reserved := 0 } := by
  unfold keyDownBuffer
  simp only []
  rw [load_memWrite_store, load_memWrite_store]
  simp only [USRPHeaderToHostByteOrder, USRPHeaderToNetworkByteOrder, ntohl_htonl_mod]
  simp [magicUSRP, USRP_TYPE_VOICE]

theorem length_keyDownBuffer (P : Host) (stk : List Nat) (n k : Nat) (h : k ≤ stk.length) :
    k ≤ (keyDownBuffer P stk n).length := by
  unfold keyDownBuffer
  repeat apply le_length_memWrite
  exact h

/-! ### KeyTx with the current keying state (C7) -/

/-- For `bKey` 0 or 1 equal to the keying flag, `KeyTx` does nothing. -/
theorem KeyTx_same_flag (P : Host) (stk : List Nat) (a : CUSRPAudio) :
    CUSRP.KeyTx P stk a (if a.IsKeyed then 1 else 0) = (a, []) := by
  simp [CUSRP.KeyTx]

/-- C7 (code defect).  On a keyed engine (`keyedAudio`, next sequence number
1), `KeyTx (2)` has a true argument and the flag is already true, yet the
call is not a no-op: the comparison `IsKeyed != bKey` is made on integers
(1 against 2), so a second TEXT frame is sent and the sequence number goes
from 1 to 2.  `KeyTx (1)` in the same state sends nothing. -/
theorem C7_KeyTx_nonzero_key_on_keyed_engine_sends :
    keyedAudio.IsKeyed = true ∧ keyedAudio.SequenceNum = 1 ∧
    (CUSRP.KeyTx hostLE zeroStack keyedAudio 2).2.length = 1 ∧
    ((CUSRP.KeyTx hostLE zeroStack keyedAudio 2).2.map
        (fun d => (decodeHeader true d).Type_)) = [USRP_TYPE_TEXT] ∧
    (CUSRP.KeyTx hostLE zeroStack keyedAudio 2).1.SequenceNum = 2 ∧
    (CUSRP.KeyTx hostLE zeroStack keyedAudio 2).1.IsKeyed = true ∧
    (CUSRP.KeyTx hostLE zeroStack keyedAudio 1).2 = [] := by
  refine ⟨by decide!, by decide!, by decide!, by decide!, by decide!, by decide!,
    by decide!⟩

/-! ### Key-up followed by key-down (C8) -/

theorem KeyTx_key_up (P : Host) (stk : List Nat) (a : CUSRPAudio) (hk : a.IsKeyed = false) :
    CUSRP.KeyTx P stk a 1
      = ({ a with IsKeyed := true, SequenceNum := (a.SequenceNum + 1) % 4294967296 },
         [(keyUpBuffer P stk a.SequenceNum).take
            (sizeofUSRPHeader
              + load32 P.le (keyUpBuffer P stk a.SequenceNum)
                  (sizeofUSRPHeader + offTLVLength))]) := by
  simp [CUSRP.KeyTx, hk]

theorem KeyTx_key_down (P : Host) (stk : List Nat) (a : CUSRPAudio) (hk : a.IsKeyed = true) :
    CUSRP.KeyTx P stk a 0
      = ({ a with IsKeyed := false, SequenceNum := (a.SequenceNum + 1) % 4294967296 },
         [(keyDownBuffer P stk a.SequenceNum).take sizeofUSRPHeader]) := by
  simp [CUSRP.KeyTx, hk]

/-- C8.  From every unkeyed state, on every host and with any content of
the 1024-byte send buffers, `KeyTx (true)` followed by `KeyTx (false)` sends
exactly two datagrams, one per call.  The first has the magic "USRP", type
TEXT, `Ptt = 1` and the TLV tag SET_INFO, and is 32 + 19 bytes long; the
second has the magic "USRP", type VOICE, `Ptt = 0` and is exactly 32 bytes
long.  Afterwards `IsKeyed` is false. -/
theorem C8_key_up_then_key_down_sends_two_frames (P : Host) (stk1 stk2 : List Nat)
    (a : CUSRPAudio) (hk : a.IsKeyed = false) (h1 : stk1.length = 1024)
    (h2 : stk2.length = 1024) :
    ∃ d1 d2 : List Nat,
      (CUSRP.KeyTx P stk1 a 1).2 = [d1] ∧
      (CUSRP.KeyTx P stk2 (CUSRP.KeyTx P stk1 a 1).1 0).2 = [d2] ∧
      (decodeHeader P.le d1).Usrp = magicUSRP ∧
      (decodeHeader P.le d1).Type_ = USRP_TYPE_TEXT ∧
      (decodeHeader P.le d1).Ptt = 1 ∧
      load32 P.le d1 (sizeofUSRPHeader + offTLVTag) = USRP_TLV_TAG_SET_INFO ∧
      d1.length = 51 ∧
      (decodeHeader P.le d2).Usrp = magicUSRP ∧
      (decodeHeader P.le d2).Type_ = USRP_TYPE_VOICE ∧
      (decodeHeader P.le d2).Ptt = 0 ∧
      d2.length = 32 ∧
      (CUSRP.KeyTx P stk2 (CUSRP.KeyTx P stk1 a 1).1 0).1.IsKeyed = false := by
  rw [KeyTx_key_up P stk1 a hk]
  rw [KeyTx_key_down P stk2 _ rfl]
  rw [TLVLength_keyUpBuffer P stk1 _ (by omega)]
  refine ⟨_, _, rfl, rfl, ?_, ?_, ?_, ?_, ?_, ?_, ?_, ?_, ?_, rfl⟩
  · simp only [decodeHeader, sizeofUSRPHeader]
    rw [load_take _ _ _ (by omega), decode_keyUpBuffer P stk1 _ (by omega)]
  · simp only [decodeHeader, sizeofUSRPHeader]
    rw [load_take _ _ _ (by omega), decode_keyUpBuffer P stk1 _ (by omega)]
  · simp only [decodeHeader, sizeofUSRPHeader]
    rw [load_take _ _ _ (by omega), decode_keyUpBuffer P stk1 _ (by omega)]
  · have e := TLVTag_keyUpBuffer P stk1 a.SequenceNum (by omega)
    simp only [sizeofUSRPHeader, offTLVTag] at e ⊢
    rw [load32_take _ _ _ _ (by omega)]
    exact e
  · have hl := length_keyUpBuffer P stk1 a.SequenceNum 1024 (by omega)
    simp only [sizeofUSRPHeader, List.length_take]
    omega
  · simp only [decodeHeader, sizeofUSRPHeader]
    rw [load_take _ _ _ (by omega), decode_keyDownBuffer]
  · simp only [decodeHeader, sizeofUSRPHeader]
    rw [load_take _ _ _ (by omega), decode_keyDownBuffer]
  · simp only [decodeHeader, sizeofUSRPHeader]
    rw [load_take _ _ _ (by omega), decode_keyDownBuffer]
  · have hl := length_keyDownBuffer P stk2 ((a.SequenceNum + 1) % 4294967296) 1024 (by omega)
    simp only [sizeofUSRPHeader, List.length_take]
    omega

/-- Witness of C8: a fresh engine on a little-endian host. -/
theorem C8_key_up_then_key_down_sends_two_frames_witness :
    ∃ d1 d2 : List Nat,
      (CUSRP.KeyTx hostLE zeroStack freshAudio 1).2 = [d1] ∧
      (CUSRP.KeyTx hostLE zeroStack (CUSRP.KeyTx hostLE zeroStack freshAudio 1).1 0).2
        = [d2] ∧
      (decodeHeader hostLE.le d1).Usrp = magicUSRP ∧
      (decodeHeader hostLE.le d1).Type_ = USRP_TYPE_TEXT ∧
      (decodeHeader hostLE.le d1).Ptt = 1 ∧
      load32 hostLE.le d1 (sizeofUSRPHeader + offTLVTag) = USRP_TLV_TAG_SET_INFO ∧
      d1.length = 51 ∧
      (decodeHeader hostLE.le d2).Usrp = magicUSRP ∧
      (decodeHeader hostLE.le d2).Type_ = USRP_TYPE_VOICE ∧
      (decodeHeader hostLE.le d2).Ptt = 0 ∧
      d2.length = 32 ∧
      (CUSRP.KeyTx hostLE zeroStack
        (CUSRP.KeyTx hostLE zeroStack freshAudio 1).1 0).1.IsKeyed = false :=
  C8_key_up_then_key_down_sends_two_frames hostLE zeroStack zeroStack freshAudio
    (by decide) (by decide!) (by decide!)

/-! ### The drain loop of Write -/

/-- A read of one frame at a frame-aligned offset is inside the array. -/
theorem Read_frame (a : CUSRPAudio) (hf : 160 ≤ a.AudioFrames)
    (hr : a.AudioBufferReadOff % 160 = 0) (hr2 : a.AudioBufferReadOff < 1600) :
    CUSRPAudio.Read a (USRP_VOICE_FRAME_SIZE * 2)
      = some ({ a with
                AudioBufferReadOff := (a.AudioBufferReadOff + 160) % 1600,
                AudioFrames := a.AudioFrames - 160 },
              some (memRead a.AudioBuffer (a.AudioBufferReadOff * 2) 320), 320) := by
  have h1 : a.AudioBufferReadOff * 2 + 320 ≤ 3200 := by omega
  simp [CUSRPAudio.Read, USRP_VOICE_FRAME_SIZE, USRP_VOICE_FRAMES_MAX,
    USRP_VOICE_BUFFER_FRAME_SIZE, sizeofShort, audioBufferBytes, hf, h1]

/-- The frame the drain loop builds in the send buffer is a VOICE frame
with `Ptt = 1` when the engine is keyed. -/
theorem drain_frame_is_voice (P : Host) (buf d : List Nat) (n : Nat)
    (hb : 352 ≤ buf.length) :
    IsVoiceFrame P.le
      ((memWrite
          (memWrite (memWrite buf 0 (USRPHeader.store P.le (CreateUSRPVoiceHeader true 0 n))) 0
            (USRPHeader.store P.le (USRPHeaderToNetworkByteOrder P.le
              (USRPHeader.load P.le
                (memWrite buf 0 (USRPHeader.store P.le (CreateUSRPVoiceHeader true 0 n)))))))
          sizeofUSRPHeader d).take (sizeofUSRPHeader + USRP_VOICE_FRAME_SIZE * 2)) := by
  have hdec : decodeHeader P.le
      ((memWrite
          (memWrite (memWrite buf 0 (USRPHeader.store P.le (CreateUSRPVoiceHeader true 0 n))) 0
            (USRPHeader.store P.le (USRPHeaderToNetworkByteOrder P.le
              (USRPHeader.load P.le
                (memWrite buf 0 (USRPHeader.store P.le (CreateUSRPVoiceHeader true 0 n)))))))
          sizeofUSRPHeader d).take (sizeofUSRPHeader + USRP_VOICE_FRAME_SIZE * 2))
      = { Usrp := magicUSRP, SequenceNum := n % 4294967296, Memory := 0, Ptt := 1,
          Talkgroup := 0, Type_ := USRP_TYPE_VOICE, Mpxid := 0, Reserved := 0 } := by
    simp only [decodeHeader, sizeofUSRPHeader, USRP_VOICE_FRAME_SIZE]
    rw [load_take _ _ _ (by omega),
      load_memWrite_behind _ _ _ _ (le_refl _)
        (by (repeat apply le_length_memWrite); omega),
      load_memWrite_store, load_memWrite_store]
    simp only [USRPHeaderToHostByteOrder, USRPHeaderToNetworkByteOrder, ntohl_htonl_mod,
      CreateUSRPVoiceHeader]
    simp [magicUSRP, USRP_TYPE_VOICE]
  refine ⟨?_, ?_, ?_, ?_⟩
  · have hl : 352 ≤ (memWrite
          (memWrite (memWrite buf 0 (USRPHeader.store P.le (CreateUSRPVoiceHeader true 0 n))) 0
            (USRPHeader.store P.le (USRPHeaderToNetworkByteOrder P.le
              (USRPHeader.load P.le
                (memWrite buf 0 (USRPHeader.store P.le (CreateUSRPVoiceHeader true 0 n)))))))
          sizeofUSRPHeader d).length := by
      (repeat apply le_length_memWrite)
      exact hb
    simp only [sizeofUSRPHeader, USRP_VOICE_FRAME_SIZE, List.length_take] at hl ⊢
    omega
  · rw [hdec]
  · rw [hdec]
  · rw [hdec]

/-- One iteration of the drain loop on a keyed engine with a full frame
buffered at a frame-aligned read offset. -/
theorem WriteBody_keyed (P : Host) (s : WriteLoop) (hk : s.OutAudio.IsKeyed = true)
    (hf : 160 ≤ s.OutAudio.AudioFrames) (hr : s.OutAudio.AudioBufferReadOff % 160 = 0)
    (hr2 : s.OutAudio.AudioBufferReadOff < 1600) (hb : 352 ≤ s.OutSendData.length) :
    ∃ s1 : WriteLoop, CUSRP.WriteBody P s = some s1 ∧
      s1.OutAudio.IsKeyed = true ∧
      s1.OutAudio.AudioFrames = s.OutAudio.AudioFrames - 160 ∧
      s1.OutAudio.AudioBufferReadOff = (s.OutAudio.AudioBufferReadOff + 160) % 1600 ∧
      s1.OutAudio.AudioBufferWriteOff = s.OutAudio.AudioBufferWriteOff ∧
      s1.OutAudio.AudioBuffer = s.OutAudio.AudioBuffer ∧
      s1.OutAudio.SequenceNum = (s.OutAudio.SequenceNum + 1) % 4294967296 ∧
      352 ≤ s1.OutSendData.length ∧
      s1.BytesSent = s.BytesSent + 320 ∧
      (∃ d, s1.Sent = s.Sent ++ [d] ∧ IsVoiceFrame P.le d) := by
  have hR := Read_frame
    { s.OutAudio with SequenceNum := (s.OutAudio.SequenceNum + 1) % 4294967296 } hf hr hr2
  simp only [CUSRP.WriteBody]
  rw [hR]
  simp only [hk]
  refine ⟨_, rfl, rfl, rfl, rfl, rfl, rfl, rfl, ?_, ?_, _, rfl, ?_⟩
  · (repeat apply le_length_memWrite)
    exact hb
  · simp [USRP_VOICE_FRAME_SIZE]
  · exact drain_frame_is_voice P s.OutSendData _ s.OutAudio.SequenceNum hb

/-- The drain loop, started keyed at a frame-aligned read offset with fuel
for every full frame in the buffer, ends: it sends one VOICE frame with
`Ptt = 1` for every full frame, advances the sequence number by the number of
frames and leaves fewer than 160 samples. -/
theorem WriteDrain_keyed (P : Host) :
    ∀ (fuel : Nat) (s : WriteLoop),
      s.OutAudio.IsKeyed = true →
      s.OutAudio.AudioFrames / 160 ≤ fuel →
      s.OutAudio.AudioBufferReadOff % 160 = 0 → s.OutAudio.AudioBufferReadOff < 1600 →
      352 ≤ s.OutSendData.length →
      ∃ r : WriteLoop, CUSRP.WriteDrain P fuel s = some r ∧
        r.OutAudio.AudioFrames = s.OutAudio.AudioFrames % 160 ∧
        r.BytesSent = s.BytesSent + 320 * (s.OutAudio.AudioFrames / 160) ∧
        r.OutAudio.IsKeyed = true ∧
        r.OutAudio.SequenceNum % 4294967296
          = (s.OutAudio.SequenceNum + s.OutAudio.AudioFrames / 160) % 4294967296 ∧
        r.OutAudio.AudioBufferWriteOff = s.OutAudio.AudioBufferWriteOff ∧
        r.OutAudio.AudioBuffer = s.OutAudio.AudioBuffer ∧
        (∃ ds, r.Sent = s.Sent ++ ds ∧ ds.length = s.OutAudio.AudioFrames / 160 ∧
          ∀ d ∈ ds, IsVoiceFrame P.le d) := by
  intro fuel
  induction fuel with
  | zero =>
    intro s hk hfuel hr hr2 hb
    have hlt : s.OutAudio.AudioFrames < 160 := by omega
    have h0 : s.OutAudio.AudioFrames / 160 = 0 := by omega
    refine ⟨s, ?_, ?_, ?_, hk, ?_, rfl, rfl, [], ?_, ?_, ?_⟩
    · simp [CUSRP.WriteDrain, USRP_VOICE_FRAME_SIZE, hlt]
    · omega
    · omega
    · rw [h0, Nat.add_zero]
    · simp
    · simp [h0]
    · intro d hd
      simp at hd
  | succ fuel ih =>
    intro s hk hfuel hr hr2 hb
    by_cases hge : 160 ≤ s.OutAudio.AudioFrames
    · obtain ⟨s1, e1, k1, f1, r1, w1, b1, q1, l1, t1, d, hd, hv⟩ :=
        WriteBody_keyed P s hk hge hr hr2 hb
      obtain ⟨r, e2, f2, t2, k2, q2, w2, b2, ds, hds, hlen, hall⟩ :=
        ih s1 k1 (by rw [f1]; omega) (by rw [r1]; omega) (by rw [r1]; omega) l1
      refine ⟨r, ?_, ?_, ?_, k2, ?_, ?_, ?_, d :: ds, ?_, ?_, ?_⟩
      · simp only [CUSRP.WriteDrain, USRP_VOICE_FRAME_SIZE, ge_iff_le, hge, if_true, e1]
        exact e2
      · rw [f2, f1]
        omega
      · rw [t2, t1, f1]
        omega
      · rw [q2, q1, f1]
        omega
      · rw [w2, w1]
      · rw [b2, b1]
      · rw [hds, hd]
        simp
      · simp only [List.length_cons, hlen, f1]
        omega
      · intro x hx
        rcases List.mem_cons.mp hx with h | h
        · rw [h]
          exact hv
        · exact hall x h
    · have hlt : s.OutAudio.AudioFrames < 160 := by omega
      have h0 : s.OutAudio.AudioFrames / 160 = 0 := by omega
      refine ⟨s, ?_, ?_, ?_, hk, ?_, rfl, rfl, [], ?_, ?_, ?_⟩
      · simp [CUSRP.WriteDrain, USRP_VOICE_FRAME_SIZE, hlt]
      · omega
      · omega
      · rw [h0, Nat.add_zero]
      · simp
      · simp [h0]
      · intro d hd
        simp at hd

/-- A write that stays inside the array is accepted whenever fewer than
3200 samples are buffered. -/
theorem Write_audio_inside (a : CUSRPAudio) (data : List Nat)
    (hf : a.AudioFrames < 3200) (hw : a.AudioBufferWriteOff * 2 + data.length ≤ 3200) :
    CUSRPAudio.Write a data
      = some ({ a with
                AudioBuffer := memWrite a.AudioBuffer (a.AudioBufferWriteOff * 2) data,
                AudioBufferWriteOff := (a.AudioBufferWriteOff + data.length / 2) % 1600,
                AudioFrames := a.AudioFrames + data.length / 2 },
              data.length) := by
  simp [CUSRPAudio.Write, USRP_VOICE_FRAME_SIZE, USRP_VOICE_FRAMES_MAX,
    USRP_VOICE_BUFFER_FRAME_SIZE, sizeofShort, audioBufferBytes, hf, hw]

/-- Where the copy of `CUSRPAudio::Write` stays inside the array, `CUSRP::Write`
on a keyed engine with fewer than 160 samples buffered at a frame-aligned
read offset returns: it sends `(f + n) / 160` VOICE frames of 352 bytes with
`Ptt = 1`, leaves `(f + n) % 160` samples buffered and returns 320 bytes per
frame. -/
theorem Write_keyed_inside (P : Host) (stk : List Nat) (a : CUSRPAudio) (data : List Nat)
    (n : Nat) (hk : a.IsKeyed = true) (hb : 352 ≤ stk.length) (hf : a.AudioFrames < 160)
    (hn : data.length = 2 * n) (hw : a.AudioBufferWriteOff + n ≤ 1600)
    (hr : a.AudioBufferReadOff % 160 = 0) (hr2 : a.AudioBufferReadOff < 1600) :
    ∃ (a2 : CUSRPAudio) (sent : List (List Nat)),
      CUSRP.Write P stk a data = some (a2, sent, 320 * ((a.AudioFrames + n) / 160)) ∧
      sent.length = (a.AudioFrames + n) / 160 ∧
      (∀ d ∈ sent, IsVoiceFrame P.le d) ∧
      a2.AudioFrames = (a.AudioFrames + n) % 160 ∧
      a2.IsKeyed = true ∧
      a2.SequenceNum % 4294967296
        = (a.SequenceNum + (a.AudioFrames + n) / 160) % 4294967296 := by
  have hW := Write_audio_inside a data (by omega) (by omega)
  have hn2 : data.length / 2 = n := by omega
  rw [hn2] at hW
  obtain ⟨r, e, f1, t1, k1, q1, _, _, ds, hds, hlen, hall⟩ :=
    WriteDrain_keyed P (a.AudioFrames + n)
      { OutAudio :=
          { a with
            AudioBuffer := memWrite a.AudioBuffer (a.AudioBufferWriteOff * 2) data,
            AudioBufferWriteOff := (a.AudioBufferWriteOff + n) % 1600,
            AudioFrames := a.AudioFrames + n },
        OutSendData := stk, Sent := [], BytesSent := 0 }
      hk (Nat.div_le_self _ _) hr hr2 hb
  refine ⟨r.OutAudio, r.Sent, ?_, ?_, ?_, f1, k1, q1⟩
  · simp only [Nat.zero_add] at t1
    simp only [hk] at e
    simp only [CUSRP.Write, hk, if_true, hW, e, t1]
  · rw [hds]
    simpa using hlen
  · intro d hd
    rw [hds] at hd
    exact hall d (by simpa using hd)

/-! ### Draining by Write while keyed (C9) -/

/-- C9 (code defect).  On a keyed engine with an empty ring buffer at
offset 0, a `Write` of 500 samples sends 3 VOICE frames of 352 bytes with
`Ptt = 1` and leaves 20 samples, as the claim says.  But after a `Write` of
1440 samples (9 frames sent, buffer empty again, both offsets 1440) the same
keyed engine with `f = 0` has no defined result for a `Write` of 500
samples, although `f + n = 500 <= 1600`: `memcpy` copies the 1000 bytes in one
piece to `AudioBuffer + 1440`, where 320 bytes are left before the end of
the array.  (`Write_keyed_inside` shows that the count and the form of the
frames are as claimed whenever the copy stays inside the array.) -/
theorem C9_write_across_the_end_while_keyed_is_undefined :
    (CUSRP.Write hostLE zeroStack keyedAudio (List.replicate 1000 1)).map
        (fun r => (r.2.1.map (fun d => (d.length, (decodeHeader true d).Type_,
                                        (decodeHeader true d).Ptt)),
                   r.1.AudioFrames))
      = some ([(352, 0, 1), (352, 0, 1), (352, 0, 1)], 20) ∧
    (CUSRP.Write hostLE zeroStack keyedAudio (List.replicate 2880 1)).map
        (fun r => (r.2.1.length, r.1.IsKeyed, r.1.AudioFrames, r.1.AudioBufferWriteOff,
                   r.1.AudioBufferReadOff))
      = some (9, true, 0, 1440, 1440) ∧
    (CUSRP.Write hostLE zeroStack keyedAudio (List.replicate 2880 1)).bind
        (fun r => CUSRP.Write hostLE zeroStack r.1 (List.replicate 1000 2))
      = none := by
  refine ⟨by decide!, by decide!, by decide!⟩

/-! ### Write while not keyed (C10) -/

/-- C10.  For every host, send buffer and engine state with
`IsKeyed = false` and every input, `CUSRP::Write` returns the size of the
input in bytes, sends no datagram and leaves the whole `OutAudio` state (ring
buffer contents, offsets, fill count, `IsKeyed`, `SequenceNum`) unchanged. -/
theorem C10_write_when_not_keyed_discards (P : Host) (stk : List Nat) (a : CUSRPAudio)
    (FrameData : List Nat) (hk : a.IsKeyed = false) :
    CUSRP.Write P stk a FrameData = some (a, [], FrameData.length) := by
  simp [CUSRP.Write, hk]

/-- Witness of C10: 1000 bytes written to a fresh, unkeyed engine. -/
theorem C10_write_when_not_keyed_discards_witness :
    CUSRP.Write hostLE zeroStack freshAudio (List.replicate 1000 1)
      = some (freshAudio, [], (List.replicate 1000 1).length) :=
  C10_write_when_not_keyed_discards hostLE zeroStack freshAudio (List.replicate 1000 1)
    (by decide)

/-! ### The timeout cycle (C11) -/

/-- Bytes written to a buffer are read back from the same place. -/
theorem memRead_memWrite_same (buf x : List Nat) (off : Nat) (h : off ≤ buf.length) :
    memRead (memWrite buf off x) off x.length = x := by
  unfold memRead memWrite
  have hl : (List.take off buf).length = off := by simp; omega
  rw [List.append_assoc, List.drop_append_eq_append_drop, hl, Nat.sub_self, List.drop_zero,
    List.drop_eq_nil_of_le (by omega), List.nil_append, List.take_append_eq_append_take,
    List.take_length, Nat.sub_self, List.take_zero, List.append_nil]

/-- C11.  For every host and every receive state (whose receive buffer has
its 1024 bytes), a cycle of the receive loop in which `select` reports no
datagram writes exactly one frame of 320 zero bytes (160 zero samples) to
the audio sink, leaves `InData` (`SequenceNum`, `Header`, `HeaderHistory`,
`HeaderHistoryIdx`) and the log unchanged, and the loop goes on exactly when
the flags allow it (`bRunning` set and `bShutdown` clear). -/
theorem C11_timeout_cycle_writes_one_silence_frame (P : Host) (s : RecvState)
    (bRunning bShutdown : Bool) (hbuf : s.InRecvData.length = 1024) :
    (CUSRP.RecvCycle P s RecvEvent.timeout bRunning bShutdown).1.Sink
      = s.Sink ++ [List.replicate 320 0] ∧
    (CUSRP.RecvCycle P s RecvEvent.timeout bRunning bShutdown).1.InData = s.InData ∧
    (CUSRP.RecvCycle P s RecvEvent.timeout bRunning bShutdown).1.Log = s.Log ∧
    (CUSRP.RecvCycle P s RecvEvent.timeout bRunning bShutdown).2
      = (bRunning && !bShutdown) := by
  have h := memRead_memWrite_same s.InRecvData (List.replicate 320 0) 32 (by omega)
  simp only [List.length_replicate] at h
  have e : USRP_VOICE_FRAME_SIZE * sizeofShort = 320 := rfl
  simp only [CUSRP.RecvCycle, e, sizeofUSRPHeader, h, loopCondition]
  refine ⟨trivial, trivial, trivial, ?_⟩
  cases bRunning <;> cases bShutdown <;> rfl

/-- Witness of C11: a timeout on a fresh engine while the flags let the
loop run. -/
theorem C11_timeout_cycle_writes_one_silence_frame_witness :
    freshRecv.InRecvData.length = 1024 ∧
    (CUSRP.RecvCycle hostLE freshRecv RecvEvent.timeout true false).1.Sink
      = freshRecv.Sink ++ [List.replicate 320 0] ∧
    (CUSRP.RecvCycle hostLE freshRecv RecvEvent.timeout true false).1.InData
      = freshRecv.InData ∧
    (CUSRP.RecvCycle hostLE freshRecv RecvEvent.timeout true false).1.Log
      = freshRecv.Log ∧
    (CUSRP.RecvCycle hostLE freshRecv RecvEvent.timeout true false).2 = (true && !false) :=
  ⟨by decide!,
   C11_timeout_cycle_writes_one_silence_frame hostLE freshRecv true false (by decide!)⟩

/-! ### The fill count and the capacity (C12) -/

/-- A read never increases the fill count. -/
theorem Read_fill_le (a : CUSRPAudio) (BytesSize : Nat)
    (r : CUSRPAudio × Option (List Nat) × Nat) (h : CUSRPAudio.Read a BytesSize = some r) :
    r.1.AudioFrames ≤ a.AudioFrames := by
  unfold CUSRPAudio.Read at h
  simp only [] at h
  split at h
  · cases h
  · split at h
    · split at h
      · cases h
        simp
      · cases h
    · cases h
      exact Nat.le_refl _

/-- C12 (code defect).  The fresh ring buffer has fill count 0, and a write
of 1600 samples brings it to 1600, within the capacity.  A further
`CUSRPAudio::Write` of one sample is accepted and brings the fill count to
1601: the predicate `AudioFrames <= 1600` is not preserved by `Write`,
because its test is `AudioFrames < 3200` (see C1). -/
theorem C12_write_breaks_the_capacity_invariant :
    freshAudio.AudioFrames = 0 ∧
    (runRing freshAudio [RingOp.write (List.replicate 3200 0)]).map
        (fun r => r.1.AudioFrames) = some 1600 ∧
    (runRing freshAudio [RingOp.write (List.replicate 3200 0), RingOp.write [1, 2]]).map
        (fun r => r.1.AudioFrames) = some 1601 := by
  refine ⟨by decide!, by decide!, by decide!⟩

/-! ### Reads across the end of the array (C13) -/

/-- A read that finds too few samples returns 0 and changes nothing. -/
theorem Read_too_few (a : CUSRPAudio) (BytesSize : Nat) (hk : 320 ≤ BytesSize)
    (hf : a.AudioFrames < BytesSize / 2) :
    CUSRPAudio.Read a BytesSize = some (a, none, 0) := by
  simp [CUSRPAudio.Read, USRP_VOICE_FRAME_SIZE, sizeofShort, hf]
  omega

/-- A read that finds enough samples and stays inside the array returns the
bytes stored from the read offset, advances the read offset modulo 1600 and
takes the samples off the fill count. -/
theorem Read_inside (a : CUSRPAudio) (BytesSize : Nat) (hk : 320 ≤ BytesSize)
    (hf : BytesSize / 2 ≤ a.AudioFrames)
    (hr : a.AudioBufferReadOff * 2 + BytesSize ≤ 3200) :
    CUSRPAudio.Read a BytesSize
      = some ({ a with
                AudioBufferReadOff := (a.AudioBufferReadOff + BytesSize / 2) % 1600,
                AudioFrames := a.AudioFrames - BytesSize / 2 },
              some (memRead a.AudioBuffer (a.AudioBufferReadOff * 2) BytesSize),
              BytesSize) := by
  simp [CUSRPAudio.Read, USRP_VOICE_FRAME_SIZE, USRP_VOICE_FRAMES_MAX,
    USRP_VOICE_BUFFER_FRAME_SIZE, sizeofShort, audioBufferBytes, hf, hr]
  omega

/-- C13 (code defect).  Writes of 1500, 100 and 100 samples and a read of
1500 samples, all inside the array, lead to a ring buffer with the read
offset 1500, the write offset 100 and 200 samples buffered.  A read of
`k = 160 <= 200` samples then has no defined result: `memcpy` copies 320 bytes
in one piece from `AudioBuffer + 1500`, where 200 bytes are left before the
end of the array, instead of taking the last 60 samples from index 0. -/
theorem C13_read_across_the_end_is_undefined :
    (runRing freshAudio
        [RingOp.write (List.replicate 3000 1), RingOp.read 3000,
         RingOp.write (List.replicate 200 2), RingOp.write (List.replicate 200 3)]).map
        (fun r => (r.1.AudioBufferReadOff, r.1.AudioBufferWriteOff, r.1.AudioFrames))
      = some (1500, 100, 200) ∧
    runRing freshAudio
        [RingOp.write (List.replicate 3000 1), RingOp.read 3000,
         RingOp.write (List.replicate 200 2), RingOp.write (List.replicate 200 3),
         RingOp.read 320] = none := by
  refine ⟨by decide!, by decide!⟩

/-! ### Frames of the transmit path -/

theorem length_memWrite_zero_ge (buf x : List Nat) : x.length ≤ (memWrite buf 0 x).length := by
  unfold memWrite
  simp

theorem htonl_mod (le : Bool) (x : Nat) : htonl le x % 4294967296 = htonl le x :=
  Nat.mod_eq_of_lt (htonl_lt le x)

theorem htonl_of_mod (le : Bool) (x : Nat) : htonl le (x % 4294967296) = htonl le x := by
  cases le <;> simp [htonl]

/-- A header stored, read back and converted is the header converted, when
its fields other than the sequence number are 32-bit values. -/
theorem ToNet_load_store (le : Bool) (buf : List Nat) (h : USRPHeader)
    (hU : h.Usrp.length = 4) (hM : h.Memory < 4294967296) (hT : h.Talkgroup < 4294967296)
    (hY : h.Type_ < 4294967296) (hX : h.Mpxid < 4294967296) (hR : h.Reserved < 4294967296) :
    USRPHeaderToNetworkByteOrder le
        (USRPHeader.load le (memWrite buf 0 (USRPHeader.store le h)))
      = USRPHeaderToNetworkByteOrder le h := by
  rw [load_memWrite_store]
  obtain ⟨U, sq, me, pt, tg, ty, mx, rs⟩ := h
  simp only [USRPHeaderToNetworkByteOrder, htonl_of_mod] at *
  rcases U with _ | ⟨a, _ | ⟨b, _ | ⟨c, _ | ⟨e, _ | ⟨f, r⟩⟩⟩⟩⟩ <;> simp at hU
  simp [Nat.mod_eq_of_lt, hM, hT, hY, hX, hR]

/-- A converted header stored and read back is the converted header. -/
theorem load_store_ToNet (le : Bool) (buf : List Nat) (h : USRPHeader)
    (hU : h.Usrp.length = 4) (hM : h.Memory < 4294967296) (hT : h.Talkgroup < 4294967296)
    (hY : h.Type_ < 4294967296) (hX : h.Mpxid < 4294967296) (hR : h.Reserved < 4294967296) :
    USRPHeader.load le
        (memWrite buf 0 (USRPHeader.store le (USRPHeaderToNetworkByteOrder le h)))
      = USRPHeaderToNetworkByteOrder le h := by
  rw [load_memWrite_store]
  obtain ⟨U, sq, me, pt, tg, ty, mx, rs⟩ := h
  simp only [USRPHeaderToNetworkByteOrder, htonl_mod] at *
  rcases U with _ | ⟨a, _ | ⟨b, _ | ⟨c, _ | ⟨e, _ | ⟨f, r⟩⟩⟩⟩⟩ <;> simp at hU
  simp [Nat.mod_eq_of_lt, hM, hT, hY, hX, hR]

/-- The header a send buffer holds after the two steps every sender makes:
the header is stored, then converted to network byte order in place. -/
theorem load_header_sent (le : Bool) (buf : List Nat) (h : USRPHeader)
    (hU : h.Usrp.length = 4) (hM : h.Memory < 4294967296) (hT : h.Talkgroup < 4294967296)
    (hY : h.Type_ < 4294967296) (hX : h.Mpxid < 4294967296) (hR : h.Reserved < 4294967296) :
    USRPHeader.load le
        (memWrite (memWrite buf 0 (USRPHeader.store le h)) 0
          (USRPHeader.store le (USRPHeaderToNetworkByteOrder le
            (USRPHeader.load le (memWrite buf 0 (USRPHeader.store le h))))))
      = USRPHeaderToNetworkByteOrder le h := by
  rw [load_memWrite_store le buf h]
  have e := load_store_ToNet le (memWrite buf 0 (USRPHeader.store le h))
    { Usrp := [h.Usrp.getD 0 0, h.Usrp.getD 1 0, h.Usrp.getD 2 0, h.Usrp.getD 3 0],
      SequenceNum := h.SequenceNum % 4294967296, Memory := h.Memory % 4294967296,
      Ptt := h.Ptt % 4294967296, Talkgroup := h.Talkgroup % 4294967296,
      Type_ := h.Type_ % 4294967296, Mpxid := h.Mpxid % 4294967296,
      Reserved := h.Reserved % 4294967296 }
    rfl (Nat.mod_lt _ (by decide)) (Nat.mod_lt _ (by decide)) (Nat.mod_lt _ (by decide))
    (Nat.mod_lt _ (by decide)) (Nat.mod_lt _ (by decide))
  rw [e]
  obtain ⟨U, sq, me, pt, tg, ty, mx, rs⟩ := h
  simp only [USRPHeaderToNetworkByteOrder, htonl_of_mod] at *
  rcases U with _ | ⟨a, _ | ⟨b, _ | ⟨c, _ | ⟨e, _ | ⟨f, r⟩⟩⟩⟩⟩ <;> simp at hU
  simp [Nat.mod_eq_of_lt, hM, hT, hY, hX, hR]

/-- The header the key-up buffer holds is the TEXT header with the sequence
number, converted once to network byte order. -/
theorem load_keyUpBuffer (P : Host) (stk : List Nat) (n : Nat) :
    USRPHeader.load P.le (keyUpBuffer P stk n)
      = USRPHeaderToNetworkByteOrder P.le (keyUpHeader (n % 4294967296)) := by
  unfold keyUpBuffer
  simp only []
  rw [load_memWrite_store]
  have hoff : ∀ k, 32 ≤ sizeofUSRPHeader + k := by
    intro k
    simp only [sizeofUSRPHeader]
    omega
  have h0 : 32 ≤ (memWrite stk 0 (USRPHeader.store P.le
      { Usrp := magicUSRP, SequenceNum := n, Memory := 0, Ptt := 1, Talkgroup := 0,
        Type_ := USRP_TYPE_TEXT, Mpxid := 0, Reserved := 0 })).length := by
    have := length_memWrite_zero_ge stk (USRPHeader.store P.le
      { Usrp := magicUSRP, SequenceNum := n, Memory := 0, Ptt := 1, Talkgroup := 0,
        Type_ := USRP_TYPE_TEXT, Mpxid := 0, Reserved := 0 })
    rw [length_store] at this
    exact this
  rw [load_memWrite_behind _ _ _ _ (hoff _) (le_length_memWrite _ _ _ _ (le_length_memWrite _ _ _ _ (le_length_memWrite _ _ _ _ (le_length_memWrite _ _ _ _ (le_length_memWrite _ _ _ _ (le_length_memWrite _ _ _ _ (le_length_memWrite _ _ _ _ h0))))))),
    load_memWrite_behind _ _ _ _ (hoff _) (le_length_memWrite _ _ _ _ (le_length_memWrite _ _ _ _ (le_length_memWrite _ _ _ _ (le_length_memWrite _ _ _ _ (le_length_memWrite _ _ _ _ (le_length_memWrite _ _ _ _ h0)))))),
    load_memWrite_behind _ _ _ _ (hoff _) (le_length_memWrite _ _ _ _ (le_length_memWrite _ _ _ _ (le_length_memWrite _ _ _ _ (le_length_memWrite _ _ _ _ (le_length_memWrite _ _ _ _ h0))))),
    load_memWrite_behind _ _ _ _ (hoff _) (le_length_memWrite _ _ _ _ (le_length_memWrite _ _ _ _ (le_length_memWrite _ _ _ _ (le_length_memWrite _ _ _ _ h0)))),
    load_memWrite_behind _ _ _ _ (hoff _) (le_length_memWrite _ _ _ _ (le_length_memWrite _ _ _ _ (le_length_memWrite _ _ _ _ h0))),
    load_memWrite_behind _ _ _ _ (hoff _) (le_length_memWrite _ _ _ _ (le_length_memWrite _ _ _ _ h0)),
    load_memWrite_behind _ _ _ _ (hoff _) (le_length_memWrite _ _ _ _ h0),
    load_memWrite_behind _ _ _ _ (hoff _) h0,
    load_memWrite_store]
  simp [USRPHeaderToNetworkByteOrder, keyUpHeader, htonl_mod, htonl_of_mod, magicUSRP,
    USRP_TYPE_TEXT]

/-- The header the key-down buffer holds is the VOICE header with
`Ptt = 0` and the sequence number, converted once to network byte order. -/
theorem load_keyDownBuffer (P : Host) (stk : List Nat) (n : Nat) :
    USRPHeader.load P.le (keyDownBuffer P stk n)
      = USRPHeaderToNetworkByteOrder P.le (CreateUSRPVoiceHeader false 0 (n % 4294967296)) := by
  unfold keyDownBuffer
  simp only []
  rw [load_memWrite_store, load_memWrite_store]
  simp [USRPHeaderToNetworkByteOrder, CreateUSRPVoiceHeader, htonl_mod, htonl_of_mod,
    magicUSRP, USRP_TYPE_VOICE]

/-- The datagram of a key-up is a TEXT frame with the sequence number of
the state. -/
theorem keyUp_frame (P : Host) (stk : List Nat) (n : Nat) (hs : 51 ≤ stk.length) :
    IsFrameOf P FrameKind.text n
      ((keyUpBuffer P stk n).take
        (sizeofUSRPHeader + load32 P.le (keyUpBuffer P stk n) (sizeofUSRPHeader + offTLVLength)))
      := by
  rw [TLVLength_keyUpBuffer P stk n (by omega)]
  have hl := length_keyUpBuffer P stk n 51 hs
  have hlen : ((keyUpBuffer P stk n).take (sizeofUSRPHeader + 19)).length = 51 := by
    simp only [sizeofUSRPHeader, List.length_take]
    omega
  refine ⟨by omega, ?_, fun _ => ⟨by omega, ?_⟩⟩
  · simp only [sizeofUSRPHeader]
    rw [load_take _ _ _ (by omega), load_keyUpBuffer]
    rfl
  · have e := TLVTag_keyUpBuffer P stk n (by omega)
    simp only [sizeofUSRPHeader, offTLVTag] at e ⊢
    rw [load32_take _ _ _ _ (by omega)]
    exact e

/-- The datagram of a key-down is a VOICE frame with `Ptt = 0` and the
sequence number of the state. -/
theorem keyDown_frame (P : Host) (stk : List Nat) (n : Nat) :
    IsFrameOf P FrameKind.keyDown n ((keyDownBuffer P stk n).take sizeofUSRPHeader) := by
  have hl : 32 ≤ (keyDownBuffer P stk n).length := by
    unfold keyDownBuffer
    have := length_memWrite_zero_ge
      (memWrite stk 0 (USRPHeader.store P.le
        { Usrp := magicUSRP, SequenceNum := n, Memory := 0, Ptt := 0, Talkgroup := 0,
          Type_ := USRP_TYPE_VOICE, Mpxid := 0, Reserved := 0 }))
      (USRPHeader.store P.le (USRPHeaderToNetworkByteOrder P.le (USRPHeader.load P.le
        (memWrite stk 0 (USRPHeader.store P.le
          { Usrp := magicUSRP, SequenceNum := n, Memory := 0, Ptt := 0, Talkgroup := 0,
            Type_ := USRP_TYPE_VOICE, Mpxid := 0, Reserved := 0 })))))
    rw [length_store] at this
    exact this
  refine ⟨?_, ?_, fun h => by cases h⟩
  · simp only [sizeofUSRPHeader, List.length_take]
    omega
  · simp only [sizeofUSRPHeader]
    rw [load_take _ _ _ (by omega), load_keyDownBuffer]
    rfl

/-- What `KeyTx` does, by cases: nothing when the argument equals the flag
as an integer; otherwise one TEXT frame for a nonzero argument and one
key-down frame for 0, and the sequence number advances by one. -/
theorem KeyTx_cases (P : Host) (stk : List Nat) (a : CUSRPAudio) (bKey : Int)
    (hs : 51 ≤ stk.length) :
    ((CUSRP.KeyTx P stk a bKey).2 = [] ∧ (CUSRP.KeyTx P stk a bKey).1 = a) ∨
    (∃ d, (CUSRP.KeyTx P stk a bKey).2 = [d] ∧ IsFrameOf P FrameKind.text a.SequenceNum d ∧
      (CUSRP.KeyTx P stk a bKey).1.IsKeyed = true ∧
      (CUSRP.KeyTx P stk a bKey).1.SequenceNum = (a.SequenceNum + 1) % 4294967296) ∨
    (∃ d, (CUSRP.KeyTx P stk a bKey).2 = [d] ∧ IsFrameOf P FrameKind.keyDown a.SequenceNum d ∧
      a.IsKeyed = true ∧
      (CUSRP.KeyTx P stk a bKey).1.IsKeyed = false ∧
      (CUSRP.KeyTx P stk a bKey).1.SequenceNum = (a.SequenceNum + 1) % 4294967296) := by
  by_cases h1 : (if a.IsKeyed then (1 : Int) else 0) = bKey
  · left
    simp [CUSRP.KeyTx, h1]
  · by_cases h2 : bKey = 0
    · right
      right
      have hk : a.IsKeyed = true := by
        cases hk : a.IsKeyed
        · rw [hk] at h1
          simp at h1
          exact absurd h2.symm h1
        · rfl
      refine ⟨_, ?_, keyDown_frame P stk a.SequenceNum, hk, ?_, ?_⟩ <;>
        simp [CUSRP.KeyTx, h1, h2, hk]
    · right
      left
      refine ⟨_, ?_, keyUp_frame P stk a.SequenceNum hs, ?_, ?_⟩ <;>
        simp [CUSRP.KeyTx, h1, h2]

/-! ### The drain loop on any state -/

theorem load_voice_header_sent (le : Bool) (buf : List Nat) (k : Bool) (n : Nat) :
    USRPHeader.load le
        (memWrite (memWrite buf 0 (USRPHeader.store le (CreateUSRPVoiceHeader k 0 n))) 0
          (USRPHeader.store le (USRPHeaderToNetworkByteOrder le
            (USRPHeader.load le
              (memWrite buf 0 (USRPHeader.store le (CreateUSRPVoiceHeader k 0 n)))))))
      = USRPHeaderToNetworkByteOrder le (CreateUSRPVoiceHeader k 0 n) :=
  load_header_sent le buf (CreateUSRPVoiceHeader k 0 n) rfl
    (by simp [CreateUSRPVoiceHeader]) (by simp [CreateUSRPVoiceHeader])
    (by simp [CreateUSRPVoiceHeader, USRP_TYPE_VOICE]) (by simp [CreateUSRPVoiceHeader])
    (by simp [CreateUSRPVoiceHeader])

theorem Read_some_frame (a a2 : CUSRPAudio) (data : Option (List Nat)) (ret : Nat)
    (h : CUSRPAudio.Read a (USRP_VOICE_FRAME_SIZE * 2) = some (a2, data, ret))
    (hge : 160 ≤ a.AudioFrames) :
    a2.IsKeyed = a.IsKeyed ∧ a2.SequenceNum = a.SequenceNum ∧
      a2.AudioFrames + 160 = a.AudioFrames ∧ ∃ x, data = some x := by
  unfold CUSRPAudio.Read at h
  simp only [USRP_VOICE_FRAME_SIZE, sizeofShort] at h
  norm_num at h
  rw [if_pos hge] at h
  split at h
  · simp only [Option.some.injEq, Prod.mk.injEq] at h
    obtain ⟨h1, h2, _⟩ := h
    subst h1
    refine ⟨rfl, rfl, ?_, _, h2.symm⟩
    simp only []
    omega
  · cases h

theorem Write_audio_some (a a1 : CUSRPAudio) (data : List Nat) (ret : Nat)
    (h : CUSRPAudio.Write a data = some (a1, ret)) :
    a1.IsKeyed = a.IsKeyed ∧ a1.SequenceNum = a.SequenceNum := by
  unfold CUSRPAudio.Write at h
  simp only [] at h
  split at h
  · split at h
    · simp only [Option.some.injEq, Prod.mk.injEq] at h
      obtain ⟨h1, _⟩ := h
      subst h1
      exact ⟨rfl, rfl⟩
    · cases h
  · simp only [Option.some.injEq, Prod.mk.injEq] at h
    obtain ⟨h1, _⟩ := h
    subst h1
    exact ⟨rfl, rfl⟩

/-- The frame one iteration of the drain loop sends holds the VOICE header
with the keyed flag and the sequence number of the state, converted once to
network byte order. -/
theorem WriteBody_some (P : Host) (s s1 : WriteLoop) (h : CUSRP.WriteBody P s = some s1)
    (hge : 160 ≤ s.OutAudio.AudioFrames) :
    s1.OutAudio.IsKeyed = s.OutAudio.IsKeyed ∧
    s1.OutAudio.SequenceNum = (s.OutAudio.SequenceNum + 1) % 4294967296 ∧
    s1.OutAudio.AudioFrames + 160 = s.OutAudio.AudioFrames ∧
    ∃ d, s1.Sent = s.Sent ++ [d] ∧ 32 ≤ d.length ∧
      USRPHeader.load P.le d
        = USRPHeaderToNetworkByteOrder P.le
            (CreateUSRPVoiceHeader s.OutAudio.IsKeyed 0
              (s.OutAudio.SequenceNum % 4294967296)) := by
  unfold CUSRP.WriteBody at h
  simp only [] at h
  cases hR : CUSRPAudio.Read
      { s.OutAudio with SequenceNum := (s.OutAudio.SequenceNum + 1) % 4294967296 }
      (USRP_VOICE_FRAME_SIZE * 2) with
  | none =>
    rw [hR] at h
    cases h
  | some v =>
    obtain ⟨a2, data, ret⟩ := v
    rw [hR] at h
    obtain ⟨k1, k2, k3, x, hx⟩ := Read_some_frame _ a2 data ret hR hge
    subst hx
    simp only [Option.some.injEq] at h
    subst h
    have hb1 : 32 ≤ (memWrite
        (memWrite s.OutSendData 0
          (USRPHeader.store P.le
            (CreateUSRPVoiceHeader s.OutAudio.IsKeyed 0 s.OutAudio.SequenceNum)))
        0
        (USRPHeader.store P.le (USRPHeaderToNetworkByteOrder P.le (USRPHeader.load P.le
          (memWrite s.OutSendData 0
            (USRPHeader.store P.le
              (CreateUSRPVoiceHeader s.OutAudio.IsKeyed 0 s.OutAudio.SequenceNum))))))).length
        := by
      have := length_memWrite_zero_ge
        (memWrite s.OutSendData 0
          (USRPHeader.store P.le
            (CreateUSRPVoiceHeader s.OutAudio.IsKeyed 0 s.OutAudio.SequenceNum)))
        (USRPHeader.store P.le (USRPHeaderToNetworkByteOrder P.le (USRPHeader.load P.le
          (memWrite s.OutSendData 0
            (USRPHeader.store P.le
              (CreateUSRPVoiceHeader s.OutAudio.IsKeyed 0 s.OutAudio.SequenceNum))))))
      rw [length_store] at this
      exact this
    refine ⟨k1, k2, k3, _, rfl, ?_, ?_⟩
    · have := le_length_memWrite 32 _ x sizeofUSRPHeader hb1
      simp only [sizeofUSRPHeader, USRP_VOICE_FRAME_SIZE, List.length_take] at this ⊢
      omega
    · simp only [sizeofUSRPHeader, USRP_VOICE_FRAME_SIZE]
      rw [load_take _ _ _ (by omega), load_memWrite_behind _ _ _ _ (le_refl _) hb1,
        load_voice_header_sent]
      simp [USRPHeaderToNetworkByteOrder, CreateUSRPVoiceHeader, htonl_of_mod]

theorem IsFrameOf_congr (P : Host) (kind : FrameKind) (m n : Nat) (d : List Nat)
    (h : m % 4294967296 = n % 4294967296) (hf : IsFrameOf P kind m d) :
    IsFrameOf P kind n d := by
  unfold IsFrameOf at *
  rw [← h]
  exact hf

theorem framesFrom_congr (P : Host) (kind : FrameKind) (ds : List (List Nat)) :
    ∀ m n : Nat, m % 4294967296 = n % 4294967296 → framesFrom P kind m ds →
      framesFrom P kind n ds := by
  induction ds with
  | nil =>
    intro m n _ _
    trivial
  | cons d ds ih =>
    intro m n h hf
    exact ⟨IsFrameOf_congr P kind m n d h hf.1, ih (m + 1) (n + 1) (by omega) hf.2⟩

/-- The drain loop on a keyed engine, whenever it has a result: the frames
it adds are VOICE frames with `Ptt = 1` and consecutive sequence numbers, the
sequence number advances by their count, and fewer than 160 samples stay
buffered. -/
theorem WriteDrain_some (P : Host) :
    ∀ (fuel : Nat) (s r : WriteLoop), CUSRP.WriteDrain P fuel s = some r →
      s.OutAudio.IsKeyed = true → s.OutAudio.SequenceNum < 4294967296 →
      r.OutAudio.IsKeyed = true ∧ r.OutAudio.AudioFrames < 160 ∧
      ∃ ds, r.Sent = s.Sent ++ ds ∧
        framesFrom P FrameKind.voice s.OutAudio.SequenceNum ds ∧
        r.OutAudio.SequenceNum = (s.OutAudio.SequenceNum + ds.length) % 4294967296 := by
  intro fuel
  induction fuel with
  | zero =>
    intro s r h hk hs
    simp only [CUSRP.WriteDrain, USRP_VOICE_FRAME_SIZE] at h
    split at h
    · cases h
    · simp only [Option.some.injEq] at h
      subst h
      refine ⟨hk, by omega, [], by simp, trivial, ?_⟩
      simp only [List.length_nil, Nat.add_zero]
      exact (Nat.mod_eq_of_lt hs).symm
  | succ fuel ih =>
    intro s r h hk hs
    simp only [CUSRP.WriteDrain, USRP_VOICE_FRAME_SIZE] at h
    split at h
    · rename_i hge
      cases hB : CUSRP.WriteBody P s with
      | none =>
        rw [hB] at h
        cases h
      | some s1 =>
        rw [hB] at h
        obtain ⟨k1, k2, _, d, hd, hl, hh⟩ := WriteBody_some P s s1 hB hge
        obtain ⟨i1, i2, ds, hds, hfr, hsq⟩ := ih s1 r h (by rw [k1]; exact hk)
          (by rw [k2]; exact Nat.mod_lt _ (by decide))
        refine ⟨i1, i2, d :: ds, ?_, ⟨⟨hl, ?_, fun hc => by cases hc⟩, ?_⟩, ?_⟩
        · rw [hds, hd]
          simp
        · rw [hh, hk]
          rfl
        · exact framesFrom_congr P FrameKind.voice ds _ _ (by rw [k2]; omega) hfr
        · rw [hsq, k2]
          simp only [List.length_cons]
          omega
    · simp only [Option.some.injEq] at h
      subst h
      refine ⟨hk, by omega, [], by simp, trivial, ?_⟩
      simp only [List.length_nil, Nat.add_zero]
      exact (Nat.mod_eq_of_lt hs).symm

/-- What `CUSRP::Write` does whenever it has a result: nothing when not
keyed; when keyed, VOICE frames with `Ptt = 1` and consecutive sequence
numbers, fewer than 160 samples left. -/
theorem Write_some (P : Host) (stk : List Nat) (a a2 : CUSRPAudio) (data : List Nat)
    (sent : List (List Nat)) (ret : Nat)
    (h : CUSRP.Write P stk a data = some (a2, sent, ret))
    (hs : a.SequenceNum < 4294967296) :
    (a.IsKeyed = false ∧ a2 = a ∧ sent = []) ∨
    (a.IsKeyed = true ∧ a2.IsKeyed = true ∧ a2.AudioFrames < 160 ∧
      framesFrom P FrameKind.voice a.SequenceNum sent ∧
      a2.SequenceNum = (a.SequenceNum + sent.length) % 4294967296) := by
  unfold CUSRP.Write at h
  cases hk : a.IsKeyed with
  | false =>
    left
    simp only [hk, Bool.false_eq_true, if_false, Option.some.injEq, Prod.mk.injEq] at h
    exact ⟨rfl, h.1.symm, h.2.1.symm⟩
  | true =>
    right
    simp only [hk, if_true] at h
    cases hW : CUSRPAudio.Write a data with
    | none =>
      rw [hW] at h
      cases h
    | some v =>
      obtain ⟨a1, r1⟩ := v
      rw [hW] at h
      simp only [] at h
      obtain ⟨w1, w2⟩ := Write_audio_some a a1 data r1 hW
      cases hD : CUSRP.WriteDrain P a1.AudioFrames
          { OutAudio := a1, OutSendData := stk, Sent := [], BytesSent := 0 } with
      | none =>
        rw [hD] at h
        cases h
      | some r =>
        rw [hD] at h
        simp only [Option.some.injEq, Prod.mk.injEq] at h
        obtain ⟨e1, e2, _⟩ := h
        obtain ⟨i1, i2, ds, hds, hfr, hsq⟩ := WriteDrain_some P _ _ r hD
          (by simp only []; rw [w1]; exact hk) (by simp only []; rw [w2]; exact hs)
        simp only [List.nil_append] at hds
        subst e1
        subst e2
        refine ⟨rfl, i1, i2, ?_, ?_⟩
        · rw [hds]
          simp only [w2] at hfr
          exact hfr
        · rw [hsq, hds]
          simp only [w2]

/-! ### Sequence numbers of the frames sent -/

theorem seqOf_of_load (le : Bool) (d : List Nat) (h : USRPHeader) (n : Nat)
    (hn : n < 4294967296) (hh : h.SequenceNum = n)
    (hl : USRPHeader.load le d = USRPHeaderToNetworkByteOrder le h) :
    seqOf le d = n := by
  simp only [seqOf, decodeHeader, hl, USRPHeaderToHostByteOrder, USRPHeaderToNetworkByteOrder,
    hh]
  exact ntohl_htonl le n hn

theorem FrameKind.header_SequenceNum (kind : FrameKind) (n : Nat) :
    (kind.header n).SequenceNum = n := by
  cases kind <;> rfl

theorem seqOf_of_IsFrameOf (P : Host) (kind : FrameKind) (n : Nat) (d : List Nat)
    (h : IsFrameOf P kind n d) : seqOf P.le d = n % 4294967296 :=
  seqOf_of_load P.le d _ _ (Nat.mod_lt _ (by decide)) (FrameKind.header_SequenceNum _ _) h.2.1

theorem numberedFrom_of_framesFrom (P : Host) (kind : FrameKind) (ds : List (List Nat)) :
    ∀ n, framesFrom P kind n ds → numberedFrom P.le n ds := by
  induction ds with
  | nil =>
    intro n _
    trivial
  | cons d ds ih =>
    intro n h
    exact ⟨seqOf_of_IsFrameOf P kind n d h.1, ih (n + 1) h.2⟩

theorem numberedFrom_congr (le : Bool) (ds : List (List Nat)) :
    ∀ m n : Nat, m % 4294967296 = n % 4294967296 → numberedFrom le m ds →
      numberedFrom le n ds := by
  induction ds with
  | nil =>
    intro m n _ _
    trivial
  | cons d ds ih =>
    intro m n h hf
    refine ⟨?_, ih (m + 1) (n + 1) (by omega) hf.2⟩
    rw [← h]
    exact hf.1

theorem numberedFrom_append (le : Bool) (xs ys : List (List Nat)) :
    ∀ n, numberedFrom le n xs → numberedFrom le (n + xs.length) ys →
      numberedFrom le n (xs ++ ys) := by
  induction xs with
  | nil =>
    intro n _ h
    simpa using h
  | cons x xs ih =>
    intro n hx hy
    refine ⟨hx.1, ih (n + 1) hx.2 ?_⟩
    simp only [List.length_cons] at hy
    have e : n + (xs.length + 1) = n + 1 + xs.length := by omega
    rw [e] at hy
    exact hy

theorem numberedFrom_getD (le : Bool) (ds : List (List Nat)) :
    ∀ n k, numberedFrom le n ds → k < ds.length →
      seqOf le (ds.getD k []) = (n + k) % 4294967296 := by
  induction ds with
  | nil =>
    intro n k _ hk
    simp at hk
  | cons d ds ih =>
    intro n k h hk
    cases k with
    | zero =>
      simpa using h.1
    | succ k =>
      have := ih (n + 1) k h.2 (by simpa using hk)
      simp only [List.getD_cons_succ]
      rw [this]
      congr 1
      omega

theorem KeyTx_eq_noop (P : Host) (stk : List Nat) (a : CUSRPAudio) (bKey : Int)
    (h1 : (if a.IsKeyed then (1 : Int) else 0) = bKey) :
    CUSRP.KeyTx P stk a bKey = (a, []) := by
  simp [CUSRP.KeyTx, h1]

theorem KeyTx_eq_up (P : Host) (stk : List Nat) (a : CUSRPAudio) (bKey : Int)
    (h1 : (if a.IsKeyed then (1 : Int) else 0) ≠ bKey) (h2 : bKey ≠ 0) :
    CUSRP.KeyTx P stk a bKey
      = ({ a with IsKeyed := true, SequenceNum := (a.SequenceNum + 1) % 4294967296 },
         [(keyUpBuffer P stk a.SequenceNum).take
            (sizeofUSRPHeader
              + load32 P.le (keyUpBuffer P stk a.SequenceNum)
                  (sizeofUSRPHeader + offTLVLength))]) := by
  simp [CUSRP.KeyTx, h1, h2]

theorem KeyTx_eq_down (P : Host) (stk : List Nat) (a : CUSRPAudio) (bKey : Int)
    (h1 : (if a.IsKeyed then (1 : Int) else 0) ≠ bKey) (h2 : bKey = 0) :
    CUSRP.KeyTx P stk a bKey
      = ({ a with IsKeyed := false, SequenceNum := (a.SequenceNum + 1) % 4294967296 },
         [(keyDownBuffer P stk a.SequenceNum).take sizeofUSRPHeader]) := by
  subst h2
  simp [CUSRP.KeyTx, h1]

/-- The frame `KeyTx` sends, if any, carries the sequence number of the
state, and the sequence number advances by the number of frames sent. -/
theorem KeyTx_numbered (P : Host) (stk : List Nat) (a : CUSRPAudio) (bKey : Int)
    (hs : a.SequenceNum < 4294967296) :
    numberedFrom P.le a.SequenceNum (CUSRP.KeyTx P stk a bKey).2 ∧
    (CUSRP.KeyTx P stk a bKey).1.SequenceNum
      = (a.SequenceNum + (CUSRP.KeyTx P stk a bKey).2.length) % 4294967296 := by
  by_cases h1 : (if a.IsKeyed then (1 : Int) else 0) = bKey
  · rw [KeyTx_eq_noop P stk a bKey h1]
    exact ⟨trivial, by simpa using (Nat.mod_eq_of_lt hs).symm⟩
  · by_cases h2 : bKey = 0
    · rw [KeyTx_eq_down P stk a bKey h1 h2]
      refine ⟨⟨?_, trivial⟩, rfl⟩
      apply seqOf_of_load P.le _ (CreateUSRPVoiceHeader false 0 (a.SequenceNum % 4294967296))
        _ (Nat.mod_lt _ (by decide)) rfl
      simp only [sizeofUSRPHeader]
      rw [load_take _ _ _ (by omega), load_keyDownBuffer]
    · rw [KeyTx_eq_up P stk a bKey h1 h2]
      refine ⟨⟨?_, trivial⟩, rfl⟩
      apply seqOf_of_load P.le _ (keyUpHeader (a.SequenceNum % 4294967296))
        _ (Nat.mod_lt _ (by decide)) rfl
      simp only [sizeofUSRPHeader]
      rw [load_take _ _ _ (by omega), load_keyUpBuffer]

/-- Every sequence of `KeyTx` and `Write` calls with a defined result sends
datagrams with consecutive sequence numbers from the initial one on, and
ends with the sequence number advanced by their count. -/
theorem runTx_numbered (P : Host) :
    ∀ (calls : List TxCall) (a a2 : CUSRPAudio) (sent : List (List Nat)),
      a.SequenceNum < 4294967296 → runTx P a calls = some (a2, sent) →
      numberedFrom P.le a.SequenceNum sent ∧
      a2.SequenceNum = (a.SequenceNum + sent.length) % 4294967296 := by
  intro calls
  induction calls with
  | nil =>
    intro a a2 sent hs h
    simp only [runTx, Option.some.injEq, Prod.mk.injEq] at h
    obtain ⟨e1, e2⟩ := h
    subst e1
    subst e2
    exact ⟨trivial, by simpa using (Nat.mod_eq_of_lt hs).symm⟩
  | cons c calls ih =>
    intro a a2 sent hs h
    cases c with
    | keyTx bKey stk =>
      simp only [runTx] at h
      obtain ⟨n1, n2⟩ := KeyTx_numbered P stk a bKey hs
      cases hR : runTx P (CUSRP.KeyTx P stk a bKey).1 calls with
      | none =>
        rw [hR] at h
        cases h
      | some v =>
        obtain ⟨a3, sent2⟩ := v
        rw [hR] at h
        simp only [Option.some.injEq, Prod.mk.injEq] at h
        obtain ⟨e1, e2⟩ := h
        subst e1
        subst e2
        obtain ⟨i1, i2⟩ := ih _ a3 sent2 (by rw [n2]; exact Nat.mod_lt _ (by decide)) hR
        refine ⟨numberedFrom_append P.le _ _ _ n1
          (numberedFrom_congr P.le sent2 _ _ (by rw [n2]; omega) i1), ?_⟩
        rw [i2, n2, List.length_append]
        omega
    | write data stk =>
      simp only [runTx] at h
      cases hW : CUSRP.Write P stk a data with
      | none =>
        rw [hW] at h
        cases h
      | some v =>
        obtain ⟨a1, sent1, ret⟩ := v
        rw [hW] at h
        simp only [] at h
        cases hR : runTx P a1 calls with
        | none =>
          rw [hR] at h
          cases h
        | some w =>
          obtain ⟨a3, sent2⟩ := w
          rw [hR] at h
          simp only [Option.some.injEq, Prod.mk.injEq] at h
          obtain ⟨e1, e2⟩ := h
          subst e1
          subst e2
          have hw : numberedFrom P.le a.SequenceNum sent1 ∧
              a1.SequenceNum = (a.SequenceNum + sent1.length) % 4294967296 := by
            rcases Write_some P stk a a1 data sent1 ret hW hs with ⟨_, e, s0⟩ | ⟨_, _, _, f, q⟩
            · subst e
              subst s0
              exact ⟨trivial, by simpa using (Nat.mod_eq_of_lt hs).symm⟩
            · exact ⟨numberedFrom_of_framesFrom P _ _ _ f, q⟩
          obtain ⟨n1, n2⟩ := hw
          obtain ⟨i1, i2⟩ := ih a1 a3 sent2 (by rw [n2]; exact Nat.mod_lt _ (by decide)) hR
          refine ⟨numberedFrom_append P.le _ _ _ n1
            (numberedFrom_congr P.le sent2 _ _ (by rw [n2]; omega) i1), ?_⟩
          rw [i2, n2, List.length_append]
          omega

/-! ### Byte-order conversion of the headers sent (C14) -/

theorem framesFrom_getD (P : Host) (kind : FrameKind) (ds : List (List Nat)) :
    ∀ n k, framesFrom P kind n ds → k < ds.length →
      IsFrameOf P kind (n + k) (ds.getD k []) := by
  induction ds with
  | nil =>
    intro n k _ hk
    simp at hk
  | cons d ds ih =>
    intro n k h hk
    cases k with
    | zero =>
      simpa using h.1
    | succ k =>
      have := ih (n + 1) k h.2 (by simpa using hk)
      simp only [List.getD_cons_succ]
      have e : n + 1 + k = n + (k + 1) := by omega
      rw [e] at this
      exact this

theorem htonl_eq (le : Bool) (x : Nat) (h : x < 4294967296) :
    htonl le x = if le then bswap32 x else x := by
  cases le <;> simp [htonl, Nat.mod_eq_of_lt h]

theorem ntohl_eq (le : Bool) (x : Nat) (h : x < 4294967296) :
    ntohl le x = if le then bswap32 x else x := by
  cases le <;> simp [ntohl, Nat.mod_eq_of_lt h]

/-- C14.  For every host and every header `h` with 32-bit `SequenceNum` and
`Ptt`, `USRPHeaderToNetworkByteOrder` and `USRPHeaderToHostByteOrder` return
`h` with only `SequenceNum` and `Ptt` replaced, each by its byte swap on a
little-endian host (and by itself on a big-endian one); the magic, `Memory`,
`Talkgroup`, `Type`, `Mpxid` and `Reserved` are the same.  The header of
every datagram `KeyTx` sends and of every datagram a `Write` with a defined
result sends is the header built in host byte order (with the sequence
number of the frame) after exactly one `USRPHeaderToNetworkByteOrder`. -/
theorem C14_conversion_changes_only_SequenceNum_and_Ptt (P : Host) (h : USRPHeader)
    (stk : List Nat) (a a2 : CUSRPAudio) (bKey : Int) (data : List Nat)
    (sent : List (List Nat)) (ret : Nat)
    (hSeq : h.SequenceNum < 4294967296) (hPtt : h.Ptt < 4294967296)
    (ha : a.SequenceNum < 4294967296)
    (hW : CUSRP.Write P stk a data = some (a2, sent, ret)) :
    USRPHeaderToNetworkByteOrder P.le h
      = { h with SequenceNum := if P.le then bswap32 h.SequenceNum else h.SequenceNum,
                 Ptt := if P.le then bswap32 h.Ptt else h.Ptt } ∧
    USRPHeaderToHostByteOrder P.le h
      = { h with SequenceNum := if P.le then bswap32 h.SequenceNum else h.SequenceNum,
                 Ptt := if P.le then bswap32 h.Ptt else h.Ptt } ∧
    (∀ d ∈ (CUSRP.KeyTx P stk a bKey).2,
      USRPHeader.load P.le d
        = USRPHeaderToNetworkByteOrder P.le
            (if bKey ≠ 0 then keyUpHeader a.SequenceNum
             else CreateUSRPVoiceHeader false 0 a.SequenceNum)) ∧
    (∀ k, k < sent.length →
      USRPHeader.load P.le (sent.getD k [])
        = USRPHeaderToNetworkByteOrder P.le
            (CreateUSRPVoiceHeader true 0 ((a.SequenceNum + k) % 4294967296))) := by
  refine ⟨?_, ?_, ?_, ?_⟩
  · simp only [USRPHeaderToNetworkByteOrder, htonl_eq P.le _ hSeq, htonl_eq P.le _ hPtt]
  · simp only [USRPHeaderToHostByteOrder, ntohl_eq P.le _ hSeq, ntohl_eq P.le _ hPtt]
  · intro d hd
    by_cases h1 : (if a.IsKeyed then (1 : Int) else 0) = bKey
    · rw [KeyTx_eq_noop P stk a bKey h1] at hd
      simp at hd
    · by_cases h2 : bKey = 0
      · rw [KeyTx_eq_down P stk a bKey h1 h2] at hd
        simp only [List.mem_singleton] at hd
        subst hd
        simp only [sizeofUSRPHeader, h2, ne_eq, not_true_eq_false, if_false]
        rw [load_take _ _ _ (by omega), load_keyDownBuffer, Nat.mod_eq_of_lt ha]
      · rw [KeyTx_eq_up P stk a bKey h1 h2] at hd
        simp only [List.mem_singleton] at hd
        subst hd
        simp only [sizeofUSRPHeader, h2, ne_eq, not_false_eq_true, if_true]
        rw [load_take _ _ _ (by omega), load_keyUpBuffer, Nat.mod_eq_of_lt ha]
  · intro k hk
    rcases Write_some P stk a a2 data sent ret hW ha with ⟨_, _, s0⟩ | ⟨_, _, _, f, _⟩
    · subst s0
      simp at hk
    · exact (framesFrom_getD P FrameKind.voice sent _ k f hk).2.1

/-- Witness of C14: the header of sequence number 305419896 with `Ptt = 1`,
`KeyTx (0)` and a `Write` of 500 samples on the keyed engine `keyedAudio`,
on a little-endian host. -/
theorem C14_conversion_changes_only_SequenceNum_and_Ptt_witness :
    CUSRP.Write hostLE zeroStack keyedAudio (List.replicate 1000 1)
      = some (writeResult500.1, writeResult500.2.1, writeResult500.2.2) ∧
    writeResult500.2.1.length = 3 ∧
    (USRPHeaderToNetworkByteOrder true (CreateUSRPVoiceHeader true 0 305419896)).SequenceNum
      = 2018915346 ∧
    (∀ k, k < writeResult500.2.1.length →
      USRPHeader.load hostLE.le (writeResult500.2.1.getD k [])
        = USRPHeaderToNetworkByteOrder hostLE.le
            (CreateUSRPVoiceHeader true 0 ((keyedAudio.SequenceNum + k) % 4294967296))) :=
  ⟨by decide!, by decide!, by decide!,
   (C14_conversion_changes_only_SequenceNum_and_Ptt hostLE
      (CreateUSRPVoiceHeader true 0 305419896) zeroStack keyedAudio writeResult500.1 0
      (List.replicate 1000 1) writeResult500.2.1 writeResult500.2.2
      (by decide) (by decide) (by decide!) (by decide!)).2.2.2⟩

/-! ### Sequence numbers of the frames sent -/

/-- For every host, every transmit state with a 32-bit sequence
number `s` and every sequence of `KeyTx` and `Write` calls with a defined
result: the `k`-th datagram sent (counting TEXT and VOICE frames together,
from 0) carries `SequenceNum = (s + k) mod 2^32` before the conversion to
network byte order, the sequence number after the calls is
`(s + number of datagrams sent) mod 2^32`, and it is unchanged when nothing
was sent. -/
theorem runTx_frames_consecutive (P : Host) (a a2 : CUSRPAudio)
    (calls : List TxCall) (sent : List (List Nat))
    (hs : a.SequenceNum < 4294967296) (hrun : runTx P a calls = some (a2, sent)) :
    (∀ k, k < sent.length →
      seqOf P.le (sent.getD k []) = (a.SequenceNum + k) % 4294967296) ∧
    a2.SequenceNum = (a.SequenceNum + sent.length) % 4294967296 ∧
    (sent = [] → a2.SequenceNum = a.SequenceNum) := by
  obtain ⟨h1, h2⟩ := runTx_numbered P calls a a2 sent hs hrun
  refine ⟨fun k hk => numberedFrom_getD P.le sent _ k h1 hk, h2, ?_⟩
  intro he
  rw [h2, he]
  simpa using Nat.mod_eq_of_lt hs

/-- An instance at the wrap: key-up, a `Write` of 500 samples and key-down on a
little-endian host, from the sequence number 4294967295: the five frames
carry 4294967295, 0, 1, 2, 3 and the sequence number ends at 4. -/
theorem runTx_frames_consecutive_at_wrap :
    runTx hostLE lastSeqAudio txCalls = some (txResult.1, txResult.2) ∧
    txResult.2.map (seqOf true) = [4294967295, 0, 1, 2, 3] ∧
    (∀ k, k < txResult.2.length →
      seqOf hostLE.le (txResult.2.getD k []) = (lastSeqAudio.SequenceNum + k) % 4294967296) ∧
    txResult.1.SequenceNum = (lastSeqAudio.SequenceNum + txResult.2.length) % 4294967296 ∧
    (txResult.2 = [] → txResult.1.SequenceNum = lastSeqAudio.SequenceNum) :=
  ⟨by decide!, by decide!,
   runTx_frames_consecutive hostLE lastSeqAudio txResult.1 txCalls
     txResult.2 (by decide) (by decide!)⟩

/-! ### One receive cycle on a valid datagram -/

theorem RecvProcess_InBytesRead (P : Host) (s : RecvState) :
    (CUSRP.RecvProcess P s).InBytesRead = s.InBytesRead := by
  unfold CUSRP.RecvProcess
  simp only []
  split_ifs <;> rfl

/-- After a datagram, the loop goes on exactly when the datagram is not
empty and the flags allow it. -/
theorem RecvCycle_continues (P : Host) (s : RecvState) (d : List Nat)
    (bRunning bShutdown : Bool) :
    (CUSRP.RecvCycle P s (RecvEvent.datagram d) bRunning bShutdown).2
      = (decide (0 < d.length) && bRunning && !bShutdown) := by
  simp only [CUSRP.RecvCycle, RecvProcess_InBytesRead, loopCondition]
  congr 2
  simp only [List.length_take, gt_iff_lt, decide_eq_decide]
  omega

theorem byteAt_recv_lt (buf d : List Nat) (i : Nat) (hi : i < d.length) (hk : i < 1024) :
    byteAt (memWrite buf 0 (d.take 1024)) i = byteAt d i := by
  rw [byteAt_memWrite buf _ 0 i (Nat.zero_le _)]
  have hl : i < (d.take 1024).length := by simp; omega
  simp only [Nat.not_lt_zero, if_false, Nat.zero_add, Nat.sub_zero]
  rw [if_pos hl, byteAt_take d 1024 i hk]

theorem load32_recv_lt (le : Bool) (buf d : List Nat) (off : Nat) (ho : off + 4 ≤ d.length)
    (hk : off + 4 ≤ 1024) :
    load32 le (memWrite buf 0 (d.take 1024)) off = load32 le d off := by
  unfold load32
  rw [byteAt_recv_lt buf d off (by omega) (by omega),
    byteAt_recv_lt buf d (off + 1) (by omega) (by omega),
    byteAt_recv_lt buf d (off + 2) (by omega) (by omega),
    byteAt_recv_lt buf d (off + 3) (by omega) (by omega)]

/-- For a datagram of at least 36 bytes the tag seen is the tag of the
datagram. -/
theorem tagSeen_eq (P : Host) (s : RecvState) (d : List Nat) (h : 36 ≤ d.length) :
    tagSeen P s d = load32 P.le d (sizeofUSRPHeader + offTLVTag) := by
  unfold tagSeen
  simp only [sizeofUSRPHeader, offTLVTag]
  exact load32_recv_lt P.le _ d 32 (by omega) (by omega)

/-- For a datagram of at least 352 bytes the frame seen is the payload of
the datagram. -/
theorem frameSeen_eq (s : RecvState) (d : List Nat) (h : 352 ≤ d.length) :
    frameSeen s d = memRead d 32 320 := by
  unfold frameSeen
  simp only [sizeofUSRPHeader]
  rw [memRead_memWrite_zero_inside _ _ 32 320 (by simp; omega),
    memRead_take d 1024 32 320 (by omega)]

/-- One cycle on a datagram of at least 32 bytes with the right magic:
the header is recorded as `Header` and in `HeaderHistory`. -/
theorem RecvCycle_valid_header (P : Host) (s : RecvState) (d : List Nat)
    (bRunning bShutdown : Bool) (hd : 32 ≤ d.length)
    (hm : (decodeHeader P.le d).Usrp = magicUSRP) :
    (CUSRP.RecvCycle P s (RecvEvent.datagram d) bRunning bShutdown).1.InData.Header
      = decodeHeader P.le d ∧
    (CUSRP.RecvCycle P s (RecvEvent.datagram d) bRunning bShutdown).1.InData.HeaderHistory
      = s.InData.HeaderHistory.set s.InData.HeaderHistoryIdx (decodeHeader P.le d) ∧
    (CUSRP.RecvCycle P s (RecvEvent.datagram d) bRunning bShutdown).1.InData.HeaderHistoryIdx
      = (s.InData.HeaderHistoryIdx + 1) % 8 := by
  have hl : (32 : Int) ≤ ((List.take 1024 d).length : Int) := by
    have : 32 ≤ (List.take 1024 d).length := by simp; omega
    omega
  simp only [decodeHeader] at hm
  simp only [CUSRP.RecvCycle, CUSRP.RecvProcess, decodeHeader]
  rw [load_recv P.le _ d hd]
  simp only [ge_iff_le, hl, if_true, hm, ne_eq, not_true_eq_false, if_false]
  refine ⟨?_, ?_, ?_⟩ <;> split_ifs <;> rfl
/-- One cycle on a valid VOICE datagram with `Ptt = 0`: the expected
sequence number is reset to 0, nothing is logged, and the frame seen goes to
the sink. -/
theorem RecvCycle_voice_noptt (P : Host) (s : RecvState) (d : List Nat)
    (bRunning bShutdown : Bool) (hd : 32 ≤ d.length)
    (hm : (decodeHeader P.le d).Usrp = magicUSRP)
    (ht : (decodeHeader P.le d).Type_ = USRP_TYPE_VOICE)
    (hp : (decodeHeader P.le d).Ptt = 0) :
    (CUSRP.RecvCycle P s (RecvEvent.datagram d) bRunning bShutdown).1.InData.SequenceNum = 0 ∧
    (CUSRP.RecvCycle P s (RecvEvent.datagram d) bRunning bShutdown).1.Log = s.Log ∧
    (CUSRP.RecvCycle P s (RecvEvent.datagram d) bRunning bShutdown).1.Sink
      = s.Sink ++ [frameSeen s d] := by
  have hl : (32 : Int) ≤ ((List.take 1024 d).length : Int) := by
    have : 32 ≤ (List.take 1024 d).length := by simp; omega
    omega
  have hl2 : 32 ≤ (memWrite s.InRecvData 0 (List.take 1024 d)).length := by
    unfold memWrite
    simp
    omega
  have hst : memRead (memWrite (memWrite s.InRecvData 0 (List.take 1024 d)) 0
      (USRPHeader.store P.le (USRPHeaderToHostByteOrder P.le (USRPHeader.load P.le d))))
        sizeofUSRPHeader (USRP_VOICE_FRAME_SIZE * sizeofShort) = frameSeen s d := by
    unfold frameSeen
    simp only [sizeofUSRPHeader, USRP_VOICE_FRAME_SIZE, sizeofShort]
    apply memRead_memWrite_zero_after
    · rw [length_store]
    · rw [length_store]
      exact hl2
  simp only [decodeHeader] at hm ht hp
  simp only [CUSRP.RecvCycle, CUSRP.RecvProcess, decodeHeader]
  rw [load_recv P.le _ d hd]
  simp only [ge_iff_le, hl, if_true, hm, ne_eq, not_true_eq_false, if_false, ht, hp, hst]
  exact ⟨trivial, trivial, trivial⟩

/-- One cycle on a valid TEXT datagram: with the tag SET_INFO the expected
sequence number becomes the incoming one and the station identity is
logged; with another tag nothing changes but the recorded header.  Nothing
goes to the sink. -/
theorem RecvCycle_text (P : Host) (s : RecvState) (d : List Nat)
    (bRunning bShutdown : Bool) (hd : 32 ≤ d.length)
    (hm : (decodeHeader P.le d).Usrp = magicUSRP)
    (ht : (decodeHeader P.le d).Type_ = USRP_TYPE_TEXT) :
    (CUSRP.RecvCycle P s (RecvEvent.datagram d) bRunning bShutdown).1.Sink = s.Sink ∧
    (tagSeen P s d = USRP_TLV_TAG_SET_INFO →
      (CUSRP.RecvCycle P s (RecvEvent.datagram d) bRunning bShutdown).1.InData.SequenceNum
        = seqOf P.le d ∧
      ∃ x y z, (CUSRP.RecvCycle P s (RecvEvent.datagram d) bRunning bShutdown).1.Log
        = s.Log ++ [LogMsg.setInfo x y z]) ∧
    (tagSeen P s d ≠ USRP_TLV_TAG_SET_INFO →
      (CUSRP.RecvCycle P s (RecvEvent.datagram d) bRunning bShutdown).1.InData.SequenceNum
        = s.InData.SequenceNum ∧
      (CUSRP.RecvCycle P s (RecvEvent.datagram d) bRunning bShutdown).1.Log = s.Log) := by
  have hl : (32 : Int) ≤ ((List.take 1024 d).length : Int) := by
    have : 32 ≤ (List.take 1024 d).length := by simp; omega
    omega
  have htag : load32 P.le (memWrite (memWrite s.InRecvData 0 (List.take 1024 d)) 0
      (USRPHeader.store P.le (USRPHeaderToHostByteOrder P.le (USRPHeader.load P.le d))))
        (sizeofUSRPHeader + offTLVTag) = tagSeen P s d := by
    unfold tagSeen
    apply load32_memWrite_after
    · rw [length_store]
      simp only [sizeofUSRPHeader]
      omega
    · exact Nat.zero_le _
  have h20 : USRP_TYPE_TEXT ≠ USRP_TYPE_VOICE := by decide
  have h21 : USRP_TYPE_TEXT ≠ USRP_TYPE_DTMF := by decide
  simp only [decodeHeader] at hm ht
  simp only [CUSRP.RecvCycle, CUSRP.RecvProcess, decodeHeader, seqOf]
  rw [load_recv P.le _ d hd]
  simp only [ge_iff_le, hl, if_true, hm, ne_eq, not_true_eq_false, if_false, ht, h20, h21,
    htag]
  refine ⟨?_, ?_, ?_⟩
  · split_ifs <;> rfl
  · intro h8
    simp only [h8, if_true]
    exact ⟨trivial, _, _, _, rfl⟩
  · intro h8
    simp only [h8, if_false]
    exact ⟨trivial, trivial⟩

/-- One cycle on a valid datagram whose type is neither VOICE nor TEXT:
the expected sequence number and the sink are unchanged, and what is logged
is no out-of-sequence anomaly. -/
theorem RecvCycle_other (P : Host) (s : RecvState) (d : List Nat)
    (bRunning bShutdown : Bool) (hd : 32 ≤ d.length)
    (hm : (decodeHeader P.le d).Usrp = magicUSRP)
    (hv : (decodeHeader P.le d).Type_ ≠ USRP_TYPE_VOICE)
    (ht : (decodeHeader P.le d).Type_ ≠ USRP_TYPE_TEXT) :
    (CUSRP.RecvCycle P s (RecvEvent.datagram d) bRunning bShutdown).1.InData.SequenceNum
      = s.InData.SequenceNum ∧
    (CUSRP.RecvCycle P s (RecvEvent.datagram d) bRunning bShutdown).1.Sink = s.Sink := by
  have hl : (32 : Int) ≤ ((List.take 1024 d).length : Int) := by
    have : 32 ≤ (List.take 1024 d).length := by simp; omega
    omega
  simp only [decodeHeader] at hm hv ht
  simp only [CUSRP.RecvCycle, CUSRP.RecvProcess, decodeHeader]
  rw [load_recv P.le _ d hd]
  simp only [ge_iff_le, hl, if_true, hm, ne_eq, not_true_eq_false, if_false, hv, ht]
  refine ⟨?_, ?_⟩ <;> split_ifs <;> rfl
/-! ### Invalid datagrams and the end of the loop (C15) -/

/-- C15 (code defect).  An empty datagram is invalid (fewer than 32 bytes).
With `bRunning` set and `bShutdown` clear, the cycle that receives it on a
fresh engine ends the receive loop: `recvfrom` returns 0 and the loop
condition asks for `InBytesRead > 0`.  A valid VOICE datagram that arrives
after it is never processed: the sink stays empty.  An invalid datagram of
one byte does not end the loop. -/
theorem C15_empty_datagram_ends_the_receive_loop :
    (CUSRP.RecvCycle hostLE freshRecv (RecvEvent.datagram []) true false).2 = false ∧
    (CUSRP.RecvMain hostLE freshRecv
        (deliver [[], voiceDatagram true true 1 (List.replicate 320 7)])).2 = false ∧
    (CUSRP.RecvMain hostLE freshRecv
        (deliver [[], voiceDatagram true true 1 (List.replicate 320 7)])).1.Sink = [] ∧
    (CUSRP.RecvMain hostLE freshRecv
        (deliver [[0], voiceDatagram true true 1 (List.replicate 320 7)])).1.Sink
      = [List.replicate 320 7] := by
  refine ⟨by decide!, by decide!, by decide!, by decide!⟩

/-! ### Dispatch of a valid datagram (C17) -/

/-- C17 (amended).  For every host, every receive state and every datagram
of at least 32 bytes with the magic "USRP" and decoded header `h`, one
receive cycle sets `Header` to `h` and sets the expected sequence number by
type: for VOICE with `Ptt != 0` to `h.SequenceNum`, for VOICE with `Ptt = 0`
to 0, for TEXT of at least 36 bytes with the tag SET_INFO to
`h.SequenceNum`; for TEXT of at least 36 bytes with another tag and for
DTMF, PING, TLV, VOICE_ADPCM and VOICE_ULAW it is unchanged.  For VOICE
exactly one frame is written to the sink, and for a datagram of at least 352
bytes it is the 160-sample payload, unmodified; for every other type nothing
is written. -/
theorem C17_valid_datagram_is_recorded_and_dispatched (P : Host) (s : RecvState)
    (d : List Nat) (bRunning bShutdown : Bool) (hd : 32 ≤ d.length)
    (hm : (decodeHeader P.le d).Usrp = magicUSRP) :
    (CUSRP.RecvCycle P s (RecvEvent.datagram d) bRunning bShutdown).1.InData.Header
      = decodeHeader P.le d ∧
    ((decodeHeader P.le d).Type_ = USRP_TYPE_VOICE → (decodeHeader P.le d).Ptt ≠ 0 →
      (CUSRP.RecvCycle P s (RecvEvent.datagram d) bRunning bShutdown).1.InData.SequenceNum
        = (decodeHeader P.le d).SequenceNum) ∧
    ((decodeHeader P.le d).Type_ = USRP_TYPE_VOICE → (decodeHeader P.le d).Ptt = 0 →
      (CUSRP.RecvCycle P s (RecvEvent.datagram d) bRunning bShutdown).1.InData.SequenceNum
        = 0) ∧
    ((decodeHeader P.le d).Type_ = USRP_TYPE_TEXT → 36 ≤ d.length →
      load32 P.le d (sizeofUSRPHeader + offTLVTag) = USRP_TLV_TAG_SET_INFO →
      (CUSRP.RecvCycle P s (RecvEvent.datagram d) bRunning bShutdown).1.InData.SequenceNum
        = (decodeHeader P.le d).SequenceNum) ∧
    ((decodeHeader P.le d).Type_ = USRP_TYPE_TEXT → 36 ≤ d.length →
      load32 P.le d (sizeofUSRPHeader + offTLVTag) ≠ USRP_TLV_TAG_SET_INFO →
      (CUSRP.RecvCycle P s (RecvEvent.datagram d) bRunning bShutdown).1.InData.SequenceNum
        = s.InData.SequenceNum) ∧
    ((decodeHeader P.le d).Type_ ∈ [USRP_TYPE_DTMF, USRP_TYPE_PING, USRP_TYPE_TLV,
        USRP_TYPE_VOICE_ADPCM, USRP_TYPE_VOICE_ULAW] →
      (CUSRP.RecvCycle P s (RecvEvent.datagram d) bRunning bShutdown).1.InData.SequenceNum
        = s.InData.SequenceNum) ∧
    ((decodeHeader P.le d).Type_ = USRP_TYPE_VOICE →
      ∃ f, (CUSRP.RecvCycle P s (RecvEvent.datagram d) bRunning bShutdown).1.Sink
          = s.Sink ++ [f] ∧ (352 ≤ d.length → f = memRead d 32 320)) ∧
    ((decodeHeader P.le d).Type_ ≠ USRP_TYPE_VOICE →
      (CUSRP.RecvCycle P s (RecvEvent.datagram d) bRunning bShutdown).1.Sink = s.Sink) := by
  refine ⟨(RecvCycle_valid_header P s d bRunning bShutdown hd hm).1, ?_, ?_, ?_, ?_, ?_, ?_, ?_⟩
  · intro ht hp
    exact (RecvCycle_voice_ptt P s d bRunning bShutdown hd hm ht hp).1
  · intro ht hp
    exact (RecvCycle_voice_noptt P s d bRunning bShutdown hd hm ht hp).1
  · intro ht h36 htag
    rw [← tagSeen_eq P s d h36] at htag
    exact ((RecvCycle_text P s d bRunning bShutdown hd hm ht).2.1 htag).1
  · intro ht h36 htag
    rw [← tagSeen_eq P s d h36] at htag
    exact ((RecvCycle_text P s d bRunning bShutdown hd hm ht).2.2 htag).1
  · intro hmem
    have hv : (decodeHeader P.le d).Type_ ≠ USRP_TYPE_VOICE := by
      intro e
      rw [e] at hmem
      revert hmem
      decide
    have ht : (decodeHeader P.le d).Type_ ≠ USRP_TYPE_TEXT := by
      intro e
      rw [e] at hmem
      revert hmem
      decide
    exact (RecvCycle_other P s d bRunning bShutdown hd hm hv ht).1
  · intro ht
    by_cases hp : (decodeHeader P.le d).Ptt = 0
    · refine ⟨frameSeen s d,
        (RecvCycle_voice_noptt P s d bRunning bShutdown hd hm ht hp).2.2, ?_⟩
      exact frameSeen_eq s d
    · refine ⟨frameSeen s d,
        (RecvCycle_voice_ptt P s d bRunning bShutdown hd hm ht hp).2.2.1, ?_⟩
      exact frameSeen_eq s d
  · intro hv
    by_cases ht : (decodeHeader P.le d).Type_ = USRP_TYPE_TEXT
    · exact (RecvCycle_text P s d bRunning bShutdown hd hm ht).1
    · exact (RecvCycle_other P s d bRunning bShutdown hd hm hv ht).2
/-- Witness of C17: a VOICE datagram with `Ptt = 1`, sequence number 5 and
a payload of 320 bytes, received by a fresh engine on a little-endian
host. -/
theorem C17_valid_datagram_is_recorded_and_dispatched_witness :
    32 ≤ (voiceDatagram true true 5 (List.replicate 320 7)).length ∧
    (decodeHeader hostLE.le (voiceDatagram true true 5 (List.replicate 320 7))).Usrp
      = magicUSRP ∧
    (CUSRP.RecvCycle hostLE freshRecv
        (RecvEvent.datagram (voiceDatagram true true 5 (List.replicate 320 7)))
        true false).1.InData.Header
      = decodeHeader hostLE.le (voiceDatagram true true 5 (List.replicate 320 7)) ∧
    (CUSRP.RecvCycle hostLE freshRecv
        (RecvEvent.datagram (voiceDatagram true true 5 (List.replicate 320 7)))
        true false).1.InData.SequenceNum
      = (decodeHeader hostLE.le (voiceDatagram true true 5 (List.replicate 320 7))).SequenceNum :=
  ⟨by decide!, by decide!,
   (C17_valid_datagram_is_recorded_and_dispatched hostLE freshRecv
      (voiceDatagram true true 5 (List.replicate 320 7)) true false
      (by decide!) (by decide!)).1,
   (C17_valid_datagram_is_recorded_and_dispatched hostLE freshRecv
      (voiceDatagram true true 5 (List.replicate 320 7)) true false
      (by decide!) (by decide!)).2.1 (by decide!) (by decide!)⟩

/-- Counterexample to C17 as stated, on a little-endian host.  After a
VOICE datagram with a payload of 320 bytes of value 7 (`staleRecv`), the
32-byte VOICE datagram of a key-down (`Ptt = 0`, no payload) is valid, and
the cycle writes a frame of 320 bytes of value 7 to the sink: bytes left in
the receive buffer, not a payload of the datagram.  After the key-up frame
of a sender (`textRecv`, expected sequence number 0), a valid TEXT datagram
of 32 bytes with the sequence number 77 carries no tag, and the cycle still
sets the expected sequence number to 77, on the tag left in the buffer. -/
theorem C17_counterexample :
    (voiceDatagram true false 6 []).length = 32 ∧
    (decodeHeader true (voiceDatagram true false 6 [])).Usrp = magicUSRP ∧
    (decodeHeader true (voiceDatagram true false 6 [])).Type_ = USRP_TYPE_VOICE ∧
    memRead (voiceDatagram true false 6 []) 32 320 = [] ∧
    (CUSRP.RecvCycle hostLE staleRecv (RecvEvent.datagram (voiceDatagram true false 6 []))
        true false).1.Sink
      = staleRecv.Sink ++ [List.replicate 320 7] ∧
    (textHeaderOnly 77).length = 32 ∧
    (decodeHeader true (textHeaderOnly 77)).Usrp = magicUSRP ∧
    (decodeHeader true (textHeaderOnly 77)).Type_ = USRP_TYPE_TEXT ∧
    textRecv.InData.SequenceNum = 0 ∧
    (CUSRP.RecvCycle hostLE textRecv (RecvEvent.datagram (textHeaderOnly 77))
        true false).1.InData.SequenceNum = 77 := by
  refine ⟨by decide!, by decide!, by decide!, by decide!, by decide!, by decide!,
    by decide!, by decide!, by decide!, by decide!⟩

/-! ### The DMR ID and the TLV length of SET_INFO (C19) -/

theorem htonl_shift (d : Nat) (hd : d < 16777216) :
    htonl true d / 256 = htonl true (d * 256 % 4294967296) := by
  have h1 : d * 256 % 4294967296 = d * 256 := Nat.mod_eq_of_lt (by omega)
  have h2 : d % 4294967296 = d := Nat.mod_eq_of_lt (by omega)
  have h3 : d * 256 % 4294967296 % 4294967296 = d * 256 := by rw [h1, h1]
  simp only [htonl, if_true, h2, h3]
  have hx : d = d % 256 + (d / 256 % 256) * 256 + (d / 65536 % 256) * 65536
      + 0 * 16777216 := by omega
  have hy : d * 256 = 0 + (d % 256) * 256 + (d / 256 % 256) * 65536
      + (d / 65536 % 256) * 16777216 := by omega
  have b0 : d % 256 < 256 := Nat.mod_lt _ (by decide)
  have b1 : d / 256 % 256 < 256 := Nat.mod_lt _ (by decide)
  have b2 : d / 65536 % 256 < 256 := Nat.mod_lt _ (by decide)
  have e1 := bswap32_digits (d % 256) (d / 256 % 256) (d / 65536 % 256) 0 b0 b1 b2 (by decide)
  have e2 := bswap32_digits 0 (d % 256) (d / 256 % 256) (d / 65536 % 256) (by decide) b0 b1 b2
  rw [← hx] at e1
  rw [← hy] at e2
  rw [e1, e2]
  omega

/-- The DMR ID stored in the key-up buffer is `htonl (5052317) >> 8`. -/
theorem DmrID_keyUpBuffer (P : Host) (stk : List Nat) (n : Nat) (hs : stk.length = 1024)
    (hc : P.CallsignSize ≤ 16) :
    load32 P.le (keyUpBuffer P stk n) (sizeofUSRPHeader + offDmrID P)
      = htonl P.le 5052317 / 256 := by
  have h0 : 1024 ≤ stk.length := by omega
  unfold keyUpBuffer
  simp only [sizeofUSRPHeader, offTLVTag, offTLVLength, offCallsign, offDmrID,
    offRepeaterID, offTalkgroup, offTimeslot, offColorCode]
  rw [load32_memWrite_after _ _ _ _ _ (by rw [length_store]; omega) (Nat.zero_le _),
    load32_memWrite_before _ _ _ _ _ (by omega)
      (by (repeat apply le_length_memWrite); omega),
    load32_memWrite_before _ _ _ _ _ (by omega)
      (by (repeat apply le_length_memWrite); omega),
    load32_memWrite_before _ _ _ _ _ (by omega)
      (by (repeat apply le_length_memWrite); omega),
    load32_memWrite_before _ _ _ _ _ (by omega)
      (by (repeat apply le_length_memWrite); omega),
    load32_memWrite_store32 _ _ _ _ (by (repeat apply le_length_memWrite); omega)]
  have := htonl_lt P.le 5052317
  exact Nat.mod_eq_of_lt (by omega)

/-- C19.  On every little-endian host: for every 24-bit DMR ID `d`,
`htonl (d) >> 8` equals `htonl (d << 8)`; the `DmrID` the key-up frame of
`KeyTx` stores in the SET_INFO metadata, `htonl (5052317) >> 8`, is
therefore `htonl (5052317 << 8)`; and the `TLVLength` stored is 13 plus the
length of the callsign. -/
theorem C19_DmrID_encoding_and_TLVLength (P : Host) (stk : List Nat) (n d : Nat)
    (hle : P.le = true) (hd : d < 16777216) (hs : stk.length = 1024)
    (hc : P.CallsignSize ≤ 16) :
    htonl P.le d / 256 = htonl P.le (d * 256 % 4294967296) ∧
    load32 P.le (keyUpBuffer P stk n) (sizeofUSRPHeader + offDmrID P)
      = htonl P.le (5052317 * 256 % 4294967296) ∧
    load32 P.le (keyUpBuffer P stk n) (sizeofUSRPHeader + offTLVLength)
      = 13 + strlenVK2GPU ∧
    callsignVK2GPU.length = strlenVK2GPU + 1 := by
  refine ⟨?_, ?_, ?_, rfl⟩
  · rw [hle]
    exact htonl_shift d hd
  · rw [DmrID_keyUpBuffer P stk n hs hc, hle]
    exact htonl_shift 5052317 (by decide)
  · rw [TLVLength_keyUpBuffer P stk n (by omega)]
    rfl

/-- Witness of C19: the DMR ID 5052317 on a little-endian host with an
8-byte callsign buffer. -/
theorem C19_DmrID_encoding_and_TLVLength_witness :
    htonl hostLE.le 5052317 / 256 = htonl hostLE.le (5052317 * 256 % 4294967296) ∧
    load32 hostLE.le (keyUpBuffer hostLE zeroStack 0) (sizeofUSRPHeader + offDmrID hostLE)
      = htonl hostLE.le (5052317 * 256 % 4294967296) ∧
    load32 hostLE.le (keyUpBuffer hostLE zeroStack 0) (sizeofUSRPHeader + offTLVLength)
      = 13 + strlenVK2GPU ∧
    callsignVK2GPU.length = strlenVK2GPU + 1 :=
  C19_DmrID_encoding_and_TLVLength hostLE zeroStack 0 5052317 (by decide) (by decide)
    (by decide!) (by decide)

/-! ### Loop-back of the transmit path into the receive loop -/

theorem ToHost_ToNet (le : Bool) (h : USRPHeader) (hSeq : h.SequenceNum < 4294967296)
    (hPtt : h.Ptt < 4294967296) :
    USRPHeaderToHostByteOrder le (USRPHeaderToNetworkByteOrder le h) = h := by
  cases h
  simp only [USRPHeaderToHostByteOrder, USRPHeaderToNetworkByteOrder] at *
  simp [ntohl_htonl, hSeq, hPtt]

theorem FrameKind.header_Ptt_lt (kind : FrameKind) (n : Nat) :
    (kind.header n).Ptt < 4294967296 := by
  cases kind <;> simp [FrameKind.header, keyUpHeader, CreateUSRPVoiceHeader]

/-- A frame of the transmit path decodes to the header of its kind. -/
theorem decode_of_IsFrameOf (P : Host) (kind : FrameKind) (n : Nat) (d : List Nat)
    (h : IsFrameOf P kind n d) :
    decodeHeader P.le d = kind.header (n % 4294967296) := by
  unfold decodeHeader
  rw [h.2.1]
  apply ToHost_ToNet
  · rw [FrameKind.header_SequenceNum]
    exact Nat.mod_lt _ (by decide)
  · exact FrameKind.header_Ptt_lt _ _

theorem RecvMain_single (P : Host) (r : RecvState) (d : List Nat)
    (h : (CUSRP.RecvCycle P r (RecvEvent.datagram d) true false).2 = true) :
    CUSRP.RecvMain P r (deliver [d])
      = ((CUSRP.RecvCycle P r (RecvEvent.datagram d) true false).1, true) := by
  simp only [deliver, List.map_cons, List.map_nil, CUSRP.RecvMain, h, if_true]

theorem RecvMain_cons (P : Host) (r : RecvState) (d : List Nat) (ds : List (List Nat))
    (h : (CUSRP.RecvCycle P r (RecvEvent.datagram d) true false).2 = true) :
    CUSRP.RecvMain P r (deliver (d :: ds))
      = CUSRP.RecvMain P (CUSRP.RecvCycle P r (RecvEvent.datagram d) true false).1
          (deliver ds) := by
  simp only [deliver, List.map_cons, CUSRP.RecvMain, h, if_true]

theorem RecvMain_append (P : Host) (xs ys : List (List Nat)) :
    ∀ r : RecvState, (CUSRP.RecvMain P r (deliver xs)).2 = true →
      CUSRP.RecvMain P r (deliver (xs ++ ys))
        = CUSRP.RecvMain P (CUSRP.RecvMain P r (deliver xs)).1 (deliver ys) := by
  induction xs with
  | nil =>
    intro r _
    simp [deliver, CUSRP.RecvMain]
  | cons x xs ih =>
    intro r h
    by_cases hc : (CUSRP.RecvCycle P r (RecvEvent.datagram x) true false).2 = true
    · rw [List.cons_append, RecvMain_cons P r x (xs ++ ys) hc, RecvMain_cons P r x xs hc]
      rw [RecvMain_cons P r x xs hc] at h
      exact ih _ h
    · simp only [deliver, List.map_cons, CUSRP.RecvMain, hc] at h
      simp at h

theorem cycle_runs (P : Host) (r : RecvState) (d : List Nat) (hd : 32 ≤ d.length) :
    (CUSRP.RecvCycle P r (RecvEvent.datagram d) true false).2 = true := by
  rw [RecvCycle_continues]
  have : 0 < d.length := by omega
  simp [this]

/-- The receive loop on a TEXT frame of the transmit path: the expected
sequence number becomes the one of the frame, and no anomaly is logged. -/
theorem recv_text_frame (P : Host) (r : RecvState) (n : Nat) (d : List Nat)
    (h : IsFrameOf P FrameKind.text n d) :
    quietRun P r [d] ∧
    (CUSRP.RecvMain P r (deliver [d])).1.InData.SequenceNum = n % 4294967296 := by
  have hdec := decode_of_IsFrameOf P FrameKind.text n d h
  obtain ⟨hd, _, h3⟩ := h
  obtain ⟨h36, htag⟩ := h3 rfl
  have hm : (decodeHeader P.le d).Usrp = magicUSRP := by rw [hdec]; rfl
  have ht : (decodeHeader P.le d).Type_ = USRP_TYPE_TEXT := by rw [hdec]; rfl
  have hseq : seqOf P.le d = n % 4294967296 := by
    unfold seqOf
    rw [hdec]
    rfl
  rw [← tagSeen_eq P r d h36] at htag
  obtain ⟨q1, x, y, z, q2⟩ := (RecvCycle_text P r d true false hd hm ht).2.1 htag
  unfold quietRun
  rw [RecvMain_single P r d (cycle_runs P r d hd)]
  refine ⟨⟨rfl, [LogMsg.setInfo x y z], q2, ?_⟩, ?_⟩
  · intro m hmem
    simp only [List.mem_singleton] at hmem
    subst hmem
    rfl
  · rw [← hseq]
    exact q1

/-- The receive loop on a key-down frame of the transmit path: nothing is
logged. -/
theorem recv_keyDown_frame (P : Host) (r : RecvState) (n : Nat) (d : List Nat)
    (h : IsFrameOf P FrameKind.keyDown n d) :
    quietRun P r [d] := by
  have hdec := decode_of_IsFrameOf P FrameKind.keyDown n d h
  obtain ⟨hd, _, _⟩ := h
  have hm : (decodeHeader P.le d).Usrp = magicUSRP := by rw [hdec]; rfl
  have ht : (decodeHeader P.le d).Type_ = USRP_TYPE_VOICE := by rw [hdec]; rfl
  have hp : (decodeHeader P.le d).Ptt = 0 := by rw [hdec]; rfl
  obtain ⟨_, q2, _⟩ := RecvCycle_voice_noptt P r d true false hd hm ht hp
  rw [quietRun, RecvMain_single P r d (cycle_runs P r d hd)]
  exact ⟨rfl, [], by simpa using q2, by simp⟩

theorem toInt32_sub32_next (n e : Nat) (h : e = (n + 4294967295) % 4294967296) :
    ¬ toInt32 (sub32 (n % 4294967296) e) ≤ 0 := by
  unfold toInt32 sub32
  split <;> omega

/-- The receive loop on VOICE frames of the transmit path with consecutive
sequence numbers, when it expects the number before the first: nothing is
logged, and it ends expecting the number of the last frame. -/
theorem recv_voice_frames (P : Host) (ds : List (List Nat)) :
    ∀ (n : Nat) (r : RecvState), framesFrom P FrameKind.voice n ds →
      r.InData.SequenceNum = (n + 4294967295) % 4294967296 →
      (CUSRP.RecvMain P r (deliver ds)).2 = true ∧
      (CUSRP.RecvMain P r (deliver ds)).1.Log = r.Log ∧
      (CUSRP.RecvMain P r (deliver ds)).1.InData.SequenceNum
        = (n + ds.length + 4294967295) % 4294967296 := by
  induction ds with
  | nil =>
    intro n r _ he
    simp only [deliver, List.map_nil, CUSRP.RecvMain, List.length_nil, Nat.add_zero]
    exact ⟨trivial, trivial, he⟩
  | cons d ds ih =>
    intro n r hf he
    obtain ⟨hfd, hrest⟩ := hf
    have hdec := decode_of_IsFrameOf P FrameKind.voice n d hfd
    have hd := hfd.1
    have hm : (decodeHeader P.le d).Usrp = magicUSRP := by rw [hdec]; rfl
    have ht : (decodeHeader P.le d).Type_ = USRP_TYPE_VOICE := by rw [hdec]; rfl
    have hp : (decodeHeader P.le d).Ptt ≠ 0 := by
      rw [hdec]
      simp [FrameKind.header, CreateUSRPVoiceHeader]
    have hseq : seqOf P.le d = n % 4294967296 := by
      unfold seqOf
      rw [hdec]
      rfl
    obtain ⟨q1, q2, _, _⟩ := RecvCycle_voice_ptt P r d true false hd hm ht hp
    rw [hseq, if_neg (toInt32_sub32_next n _ he), List.append_nil] at q2
    rw [hseq] at q1
    obtain ⟨i1, i2, i3⟩ := ih (n + 1) _ hrest (by rw [q1]; omega)
    rw [RecvMain_cons P r d ds (cycle_runs P r d hd)]
    refine ⟨i1, by rw [i2, q2], ?_⟩
    rw [i3, List.length_cons]
    congr 1
    omega

theorem quietRun_nil (P : Host) (r : RecvState) : quietRun P r [] := by
  unfold quietRun
  simp only [deliver, List.map_nil, CUSRP.RecvMain]
  exact ⟨trivial, [], by simp, by simp⟩

theorem quietRun_append (P : Host) (r : RecvState) (xs ys : List (List Nat))
    (h1 : quietRun P r xs)
    (h2 : quietRun P (CUSRP.RecvMain P r (deliver xs)).1 ys) :
    quietRun P r (xs ++ ys) := by
  unfold quietRun at *
  obtain ⟨r1, e1, l1, n1⟩ := h1
  obtain ⟨r2, e2, l2, n2⟩ := h2
  rw [RecvMain_append P xs ys r r1]
  refine ⟨r2, e1 ++ e2, ?_, ?_⟩
  · rw [l2, l1, List.append_assoc]
  · intro m hm
    rcases List.mem_append.1 hm with h | h
    · exact n1 m h
    · exact n2 m h

/-- One `KeyTx` call looped back: the receive loop takes what the call sent
without an anomaly, and the receiver follows the sender afterwards. -/
theorem loopback_KeyTx (P : Host) (stk : List Nat) (a : CUSRPAudio) (bKey : Int)
    (r : RecvState) (hs : 51 ≤ stk.length) (hinv : inStep a r) :
    quietRun P r (CUSRP.KeyTx P stk a bKey).2 ∧
    inStep (CUSRP.KeyTx P stk a bKey).1
      (CUSRP.RecvMain P r (deliver (CUSRP.KeyTx P stk a bKey).2)).1 := by
  rcases KeyTx_cases P stk a bKey hs with ⟨e1, e2⟩ | ⟨d, e1, f, _, e3⟩ | ⟨d, e1, f, _, e2, _⟩
  · rw [e1, e2]
    refine ⟨quietRun_nil P r, ?_⟩
    simpa only [deliver, List.map_nil, CUSRP.RecvMain] using hinv
  · rw [e1]
    obtain ⟨q, s⟩ := recv_text_frame P r a.SequenceNum d f
    refine ⟨q, ?_⟩
    intro _
    rw [s, e3]
    omega
  · rw [e1]
    refine ⟨recv_keyDown_frame P r a.SequenceNum d f, ?_⟩
    intro hk
    rw [e2] at hk
    cases hk

/-- One `Write` call with a defined result looped back: the receive loop
takes what the call sent without an anomaly, and the receiver follows the
sender afterwards. -/
theorem loopback_Write (P : Host) (stk : List Nat) (a a2 : CUSRPAudio) (data : List Nat)
    (sent : List (List Nat)) (ret : Nat) (r : RecvState)
    (h : CUSRP.Write P stk a data = some (a2, sent, ret))
    (hs : a.SequenceNum < 4294967296) (hinv : inStep a r) :
    quietRun P r sent ∧ inStep a2 (CUSRP.RecvMain P r (deliver sent)).1 ∧
    a2.SequenceNum < 4294967296 := by
  rcases Write_some P stk a a2 data sent ret h hs with ⟨_, e1, e2⟩ | ⟨hk, _, _, f, e⟩
  · rw [e1, e2]
    refine ⟨quietRun_nil P r, ?_, hs⟩
    simpa only [deliver, List.map_nil, CUSRP.RecvMain] using hinv
  · obtain ⟨i1, i2, i3⟩ := recv_voice_frames P sent a.SequenceNum r f (hinv hk)
    refine ⟨?_, ?_, ?_⟩
    · unfold quietRun
      exact ⟨i1, [], by simpa using i2, by simp⟩
    · intro _
      rw [i3, e]
      omega
    · rw [e]
      exact Nat.mod_lt _ (by decide)

/-- A sequence of `KeyTx` and `Write` calls with a defined result looped
back into a receive loop that follows the sender: no anomaly. -/
theorem loopback_run (P : Host) :
    ∀ (calls : List TxCall) (a a2 : CUSRPAudio) (sent : List (List Nat)) (r : RecvState),
      a.SequenceNum < 4294967296 → (∀ c ∈ calls, 51 ≤ c.stack.length) →
      runTx P a calls = some (a2, sent) → inStep a r → quietRun P r sent := by
  intro calls
  induction calls with
  | nil =>
    intro a a2 sent r _ _ h _
    simp only [runTx, Option.some.injEq, Prod.mk.injEq] at h
    rw [← h.2]
    exact quietRun_nil P r
  | cons c calls ih =>
    intro a a2 sent r hs hstk h hinv
    have hrest : ∀ c ∈ calls, 51 ≤ c.stack.length :=
      fun c hc => hstk c (List.mem_cons_of_mem _ hc)
    have hc := hstk c (List.mem_cons_self _ _)
    cases c with
    | keyTx bKey stk =>
      simp only [runTx] at h
      obtain ⟨q, inv⟩ := loopback_KeyTx P stk a bKey r hc hinv
      have hs2 : (CUSRP.KeyTx P stk a bKey).1.SequenceNum < 4294967296 := by
        rw [(KeyTx_numbered P stk a bKey hs).2]
        exact Nat.mod_lt _ (by decide)
      cases hR : runTx P (CUSRP.KeyTx P stk a bKey).1 calls with
      | none =>
        rw [hR] at h
        cases h
      | some v =>
        obtain ⟨a3, sent2⟩ := v
        rw [hR] at h
        simp only [Option.some.injEq, Prod.mk.injEq] at h
        rw [← h.2]
        exact quietRun_append P r _ _ q (ih _ a3 sent2 _ hs2 hrest hR inv)
    | write data stk =>
      simp only [runTx] at h
      cases hW : CUSRP.Write P stk a data with
      | none =>
        rw [hW] at h
        cases h
      | some w =>
        obtain ⟨a1, sent1, ret⟩ := w
        rw [hW] at h
        simp only [] at h
        obtain ⟨q, inv, hs2⟩ := loopback_Write P stk a a1 data sent1 ret r hW hs hinv
        cases hR : runTx P a1 calls with
        | none =>
          rw [hR] at h
          cases h
        | some v =>
          obtain ⟨a3, sent2⟩ := v
          rw [hR] at h
          simp only [Option.some.injEq, Prod.mk.injEq] at h
          rw [← h.2]
          exact quietRun_append P r _ _ q (ih _ a3 sent2 _ hs2 hrest hR inv)

/-- Loop-back of the transmit path into the receive loop on one host:
for every freshly keyed-down sender (`IsKeyed = false`, as constructed) with
any 32-bit sequence number, every sequence of `KeyTx` and `Write` calls with
1024-byte send buffers and a defined result, and every receive state: when
the datagrams sent are delivered in order, without loss or duplication, the
receive loop takes them all (it is still running afterwards) and what it
adds to the log holds no out-of-sequence message, also when the sequence
number wraps from 2^32 - 1 to 0 in the middle of a transmission. -/
theorem loopback_quiet (P : Host) (a a2 : CUSRPAudio)
    (calls : List TxCall) (sent : List (List Nat)) (r : RecvState)
    (hk : a.IsKeyed = false) (hs : a.SequenceNum < 4294967296)
    (hstk : ∀ c ∈ calls, c.stack.length = 1024)
    (hrun : runTx P a calls = some (a2, sent)) :
    (CUSRP.RecvMain P r (deliver sent)).2 = true ∧
    ∃ extra, (CUSRP.RecvMain P r (deliver sent)).1.Log = r.Log ++ extra ∧
      ∀ m ∈ extra, m.isOutOfSequence = false := by
  have h51 : ∀ c ∈ calls, 51 ≤ c.stack.length := by
    intro c hc
    rw [hstk c hc]
    decide
  have hinv : inStep a r := by
    intro h
    rw [hk] at h
    cases h
  exact loopback_run P calls a a2 sent r hs h51 hrun hinv

/-- An instance at the wrap: key-up, a `Write` of 500 samples and key-down on a
little-endian host from the sequence number 4294967295 (the sequence number
wraps after the first frame), delivered to a fresh receiver. -/
theorem loopback_quiet_at_wrap :
    lastSeqAudio.IsKeyed = false ∧ lastSeqAudio.SequenceNum < 4294967296 ∧
    (∀ c ∈ txCalls, c.stack.length = 1024) ∧
    runTx hostLE lastSeqAudio txCalls = some (txResult.1, txResult.2) ∧
    txResult.2.map (seqOf true) = [4294967295, 0, 1, 2, 3] ∧
    ((CUSRP.RecvMain hostLE freshRecv (deliver txResult.2)).2 = true ∧
     ∃ extra, (CUSRP.RecvMain hostLE freshRecv (deliver txResult.2)).1.Log
        = freshRecv.Log ++ extra ∧
      ∀ m ∈ extra, m.isOutOfSequence = false) :=
  ⟨by decide, by decide, by decide!, by decide!, by decide!,
   loopback_quiet hostLE lastSeqAudio txResult.1 txCalls
     txResult.2 freshRecv (by decide) (by decide) (by decide!) (by decide!)⟩

/-! ### Transmissions that reach the end of the ring buffer (C18, C20) -/

/-- C18 (code defect).  On a fresh engine (sequence number 0) on a
little-endian host, key-up and three `Write` calls of 500 samples send ten
datagrams with the sequence numbers 0 to 9 and leave the sequence number 10,
as the claim says, with the write offset 1500 and 60 samples buffered.  The
fourth `Write` of 500 samples (`f + n = 560 <= 1600`) has no defined result:
`CUSRPAudio::Write` copies its 1000 bytes in one piece to
`AudioBuffer + 1500`, where 200 bytes are left before the end of the array.
So this sequence of calls has no defined datagrams and no defined sequence
number after it.  (`runTx_frames_consecutive` shows the numbering for every
sequence of calls with a defined result.) -/
theorem C18_write_across_the_end_leaves_no_sequence_number :
    (runTx hostLE freshAudio (overrunCalls.take 4)).map
        (fun r => (r.2.map (seqOf true), r.1.SequenceNum, r.1.AudioBufferWriteOff,
                   r.1.AudioFrames))
      = some ([0, 1, 2, 3, 4, 5, 6, 7, 8, 9], 10, 1500, 60) ∧
    ((runTx hostLE freshAudio (overrunCalls.take 4)).bind
        (fun r => CUSRPAudio.Write r.1 (List.replicate 1000 4))) = none ∧
    runTx hostLE freshAudio overrunCalls = none := by
  refine ⟨by decide!, by decide!, by decide!⟩

/-- C20 (code defect).  On a little-endian host, a sender with the sequence
number 4294967295 keys up and writes 1000 samples: it sends seven datagrams
with the sequence numbers 4294967295, 0, ..., 5, and a fresh receiver takes
them in order without an out-of-sequence message (its log holds the
SET_INFO line only), as the claim says across the wrap.  The next `Write` of
1000 samples (write offset 1000, 40 samples buffered) has no defined result:
`memcpy` copies 2000 bytes in one piece to `AudioBuffer + 1000`, where 1200
bytes are left before the end of the array.  So for this sequence of calls
the datagrams the sender emits are not defined.  (`loopback_quiet` shows the
claim for every sequence of calls with a defined result.) -/
theorem C20_write_across_the_end_leaves_the_stream_undefined :
    runTx hostLE lastSeqAudio (wrapOverrunCalls.take 2)
      = some (wrapOverrunPrefix.1, wrapOverrunPrefix.2) ∧
    wrapOverrunPrefix.2.map (seqOf true) = [4294967295, 0, 1, 2, 3, 4, 5] ∧
    (CUSRP.RecvMain hostLE freshRecv (deliver wrapOverrunPrefix.2)).2 = true ∧
    (CUSRP.RecvMain hostLE freshRecv (deliver wrapOverrunPrefix.2)).1.Log.map
        LogMsg.isOutOfSequence = [false] ∧
    (wrapOverrunPrefix.1.IsKeyed, wrapOverrunPrefix.1.AudioBufferWriteOff,
      wrapOverrunPrefix.1.AudioFrames) = (true, 1000, 40) ∧
    CUSRP.Write hostLE zeroStack wrapOverrunPrefix.1 (List.replicate 2000 2) = none ∧
    runTx hostLE lastSeqAudio wrapOverrunCalls = none := by
  refine ⟨by decide!, by decide!, by decide!, by decide!, by decide!, by decide!,
    by decide!⟩

end USRP
